import Mathlib

/-!
C-Plot: the entry-point contract of the interpreter session and the sampling engine.

A shallow embedding of `Drawer/platform.c` (the picoc session glue),
`Drawer/Application.cpp` (the sampling worker of the application) and
`Drawer/Main.cpp` (the stand-alone sampling loop).

Conventions of the embedding.

* `float` and `double` values are rationals. In the 1-D sampling loops the result of
  each operation on `double` and each cast to `float` is rounded to the format (round to
  nearest, ties to even); elsewhere (the 2-D pass, the drawing and reading of the
  published sets, the graduation) the arithmetic is exact and the casts keep the value.
* Functions of the repository that are called by the embedded code but are defined
  elsewhere (`PicocParse`, `PlatformExit`, `VariableDefinePlatformVar`, `parse`, ...)
  appear either as recorded events or as parameters.
* `calls` fields are ghost state: they record the arguments of the calls made to
  `parse`, in call order, and influence nothing.
-/

namespace CPlot

/-! ## picoc session glue (`platform.c`) -/

/-- Modelled from the spec: the kinds of type of §3 (primitive, pointer, array, function,
struct), under the constant names of the interpreter; `interpreter.h` declares the enum,
`platform.c` only uses `TypeFunction`. -/
inductive BaseType
  | TypeVoid
  | TypeInt
  | TypeFP
  | TypeFunction
  | TypePointer
  | TypeArray
  | TypeStruct
deriving DecidableEq, Repr

/-- Modelled from the spec: types are interned, so comparing two `struct ValueType *`
is comparing the types; `ident` stands for the address of the interned type. -/
structure ValueType where
  Base : BaseType
  ident : Nat
deriving DecidableEq, Repr

/-- The fields of `struct FuncDef` that `PicocCallMain` mentions. -/
structure FuncDef where
  ReturnType : ValueType
  NumParams : Int
  ParamType : List ValueType
deriving DecidableEq, Repr

/-- The member `FuncDef` of `union AnyValue`; for a value that is not a function its
content is whatever the union holds. -/
structure AnyValue where
  FuncDef : FuncDef
deriving DecidableEq, Repr

/-- The fields `Typ` and `Val` of `struct Value`. -/
structure Value where
  Typ : ValueType
  Val : AnyValue
deriving DecidableEq, Repr

/-- The part of the session `Picoc` that `PicocCallMain` reads: the global symbol table
(as its lookup function) and the interned floating-point type `pc->FPType`. -/
structure Picoc where
  GlobalTable : String → Option Value
  FPType : ValueType

/-- The variadic arguments that the routines of `platform.c` pass to `PlatformPrintf`:
strings (`%s`), integers (`%d`) and type pointers (`%t`, possibly `NULL`). -/
inductive FormatArg
  | Str (s : String)
  | Int (n : Int)
  | Type (t : Option ValueType)
deriving DecidableEq, Repr

/-- Calls that leave `platform.c` or reach its printers, recorded in call order. For
`PlatformVPrintf` the `va_list` travels with the format. -/
inductive Event
  | VariableDefinePlatformVar (Ident : String) (Typ : ValueType) (IsWritable : Bool)
  | PlatformVPrintf (Format : String)
  | PlatformExit (RetVal : Int)
  | PicocParse (FileName : String) (Source : String)
  | PrintCh (OutCh : Char)
  | PlatformPrintf (Format : String) (Args : List FormatArg)
deriving DecidableEq, Repr

/-- What a routine of `platform.c` did: the calls it made and, when it left through
`PlatformExit`, the exit status. -/
structure Outcome where
  trace : List Event
  exited : Option Int
deriving DecidableEq, Repr

/-- The statement `PicocCallMain` hands to the parser:
`#define CALL_MAIN_WITH_ARGS_RETURN_DOUBLE "__exit_value = main(__arg);"`. -/
def CALL_MAIN_WITH_ARGS_RETURN_DOUBLE : String := "__exit_value = main(__arg);"

/-- The function `TableStrRegister` interns a string; the interned string is the string. -/
def TableStrRegister (_pc : Picoc) (Str : String) : String := Str

/-- The function `VariableDefined`: is the identifier in the symbol table. -/
def VariableDefined (pc : Picoc) (Ident : String) : Bool :=
  (pc.GlobalTable Ident).isSome

/-- The function `VariableGet`: the value of the identifier. -/
def VariableGet (pc : Picoc) (Ident : String) : Option Value :=
  pc.GlobalTable Ident

/-- Modelled from the spec: `PlatformExit` is the non-local exit channel of §4.4 and §9
(failures leave through a single escape point, they do not return to the caller); its
definition is not in `platform.c`. The run ends here with the given status. -/
def PlatformExit (trace : List Event) (RetVal : Int) : Outcome :=
  { trace := trace ++ [Event.PlatformExit RetVal], exited := some RetVal }

/-- The routine `ProgramFailNoParser`: print the message, then exit with status 1. -/
def ProgramFailNoParser (trace : List Event) (Message : String) : Outcome :=
  PlatformExit (trace ++ [Event.PlatformVPrintf Message]) 1

/-- The routine `PicocCallMain`. Each call of `ProgramFailNoParser` ends the run, since
`PlatformExit` does not return. -/
def PicocCallMain (pc : Picoc) (_arg : ℚ) : Outcome :=
  if ¬ VariableDefined pc (TableStrRegister pc "main") then
    ProgramFailNoParser [] "main() is not defined"
  else
    match VariableGet pc (TableStrRegister pc "main") with
    | none => ProgramFailNoParser [] "main() is not defined"
    | some FuncValue =>
      if FuncValue.Typ.Base ≠ BaseType.TypeFunction then
        ProgramFailNoParser [] "main is not a function - can't call it"
      else
        let trace1 : List Event :=
          if FuncValue.Val.FuncDef.NumParams ≠ 0 then
            [Event.VariableDefinePlatformVar "__arg" pc.FPType false]
          else []
        if FuncValue.Val.FuncDef.ReturnType ≠ pc.FPType then
          ProgramFailNoParser trace1 "main function must return a double"
        else
          let trace2 := trace1 ++ [Event.VariableDefinePlatformVar "__exit_value" pc.FPType true]
          if FuncValue.Val.FuncDef.NumParams = 1 then
            { trace := trace2 ++ [Event.PicocParse "startup" CALL_MAIN_WITH_ARGS_RETURN_DOUBLE],
              exited := none }
          else
            ProgramFailNoParser trace2 "main function must take a double as a param"

/-- The event is a call of the parser, the only way user code gets run. -/
def Event.isPicocParse : Event → Bool
  | Event.PicocParse _ _ => true
  | _ => false

/-- The interned floating-point type of the example sessions. -/
def exFPType : ValueType := { Base := BaseType.TypeFP, ident := 1 }

/-- The interned `int` type of the example sessions. -/
def exIntType : ValueType := { Base := BaseType.TypeInt, ident := 2 }

/-- The interned function type of the example sessions. -/
def exFunctionType : ValueType := { Base := BaseType.TypeFunction, ident := 3 }

/-- A session whose only global is `main`, a function with the given signature. -/
def exSession (ReturnType : ValueType) (ParamType : List ValueType) : Picoc :=
  { GlobalTable := fun Ident =>
      if Ident = "main" then
        some { Typ := exFunctionType,
               Val := { FuncDef := { ReturnType := ReturnType,
                                     NumParams := (ParamType.length : Int),
                                     ParamType := ParamType } } }
      else none,
    FPType := exFPType }

/-- The session of `double main(double x){ ... }`. -/
def exSessionOneDouble : Picoc := exSession exFPType [exFPType]

/-- The session of `double main(double x, double y){ ... }`, the default source of the
3-D mode. -/
def exSessionTwoDoubles : Picoc := exSession exFPType [exFPType, exFPType]

/-- The session of `double main(int n){ ... }`. -/
def exSessionOneInt : Picoc := exSession exFPType [exIntType]

/-- The calls made by `PicocInitialise`, recorded in call order. -/
inductive InitCall
  | memset
  | PlatformInit
  | BasicIOInit
  | HeapInit (StackSize : Int)
  | TableInit
  | VariableInit
  | LexInit
  | TypeInit
  | IncludeInit
  | LibraryInit
  | LibraryAdd (LibraryName : String)
  | CLibraryInit
  | PlatformLibraryInit
  | DebugInit
deriving DecidableEq, Repr

/-- The routine `PicocInitialise`, under the two preprocessor settings that select its
optional calls: `NO_HASH_INCLUDE` defined or not, `BUILTIN_MINI_STDLIB` defined or not. -/
def PicocInitialise (NO_HASH_INCLUDE BUILTIN_MINI_STDLIB : Bool) (StackSize : Int) :
    List InitCall :=
  [InitCall.memset, InitCall.PlatformInit, InitCall.BasicIOInit, InitCall.HeapInit StackSize,
   InitCall.TableInit, InitCall.VariableInit, InitCall.LexInit, InitCall.TypeInit]
  ++ (if NO_HASH_INCLUDE then [] else [InitCall.IncludeInit])
  ++ [InitCall.LibraryInit]
  ++ (if BUILTIN_MINI_STDLIB then [InitCall.LibraryAdd "c library", InitCall.CLibraryInit]
      else [])
  ++ [InitCall.PlatformLibraryInit, InitCall.DebugInit]

/-- The first loop of `PrintSourceTextErrorLine` ("find the source line"): `LinePos` is the
rest of the text from the pointer on; the end of the list is the terminating NUL. -/
def PrintSourceTextErrorLine.findLine (Line : Int) : List Char → Int → List Char
  | [], _ => []
  | c :: rest, LineCount =>
    if c ≠ '\x00' ∧ LineCount < Line then
      PrintSourceTextErrorLine.findLine Line rest
        (if c = '\n' then LineCount + 1 else LineCount)
    else c :: rest

/-- The second loop of `PrintSourceTextErrorLine` ("display the line"). -/
def PrintSourceTextErrorLine.displayLine : List Char → List Event
  | [] => []
  | c :: rest =>
    if c ≠ '\n' ∧ c ≠ '\x00' then
      Event.PrintCh c :: PrintSourceTextErrorLine.displayLine rest
    else []

/-- The third loop of `PrintSourceTextErrorLine` ("display the error position"). -/
def PrintSourceTextErrorLine.displayPosition (CharacterPos : Int) :
    List Char → Int → List Event
  | [], _ => []
  | c :: rest, CCount =>
    if c ≠ '\n' ∧ c ≠ '\x00' ∧ (CCount < CharacterPos ∨ c = ' ') then
      (if c = '\t' then Event.PrintCh '\t' else Event.PrintCh ' ')
        :: PrintSourceTextErrorLine.displayPosition CharacterPos rest (CCount + 1)
    else []

/-- The routine `PrintSourceTextErrorLine`; `SourceText` is `none` for the `NULL` pointer,
and the prompt `INTERACTIVE_PROMPT_STATEMENT`, a macro of the interpreter, is a
parameter. -/
def PrintSourceTextErrorLine (INTERACTIVE_PROMPT_STATEMENT : String) (_FileName : String)
    (SourceText : Option (List Char)) (Line CharacterPos : Int) : List Event :=
  (match SourceText with
    | some text =>
      let LinePos := PrintSourceTextErrorLine.findLine Line text 1
      PrintSourceTextErrorLine.displayLine LinePos
        ++ [Event.PrintCh '\n']
        ++ PrintSourceTextErrorLine.displayPosition CharacterPos LinePos 0
    | none =>
      List.replicate (CharacterPos + (INTERACTIVE_PROMPT_STATEMENT.length : Int)).toNat
        (Event.PrintCh ' '))
  ++ [Event.PlatformPrintf "line %d: " [FormatArg.Int Line]]

/-- The field `ErrorBufferLength` of the session, with the ghost list of the offsets into
`ErrorBuffer` at which the printers started to write. -/
structure ErrorBufferState where
  ErrorBufferLength : Int
  writes : List Int
deriving DecidableEq, Repr

/-- The routine `PlatformVPrintf`. The constant `ERROR_BUFFER_SIZE` and the library
function `vsprintf_s` are parameters: `vsprintf_s size Format Args` is the value returned
by the call with that size. -/
def PlatformVPrintf (ERROR_BUFFER_SIZE : Int)
    (vsprintf_s : Int → String → List FormatArg → Int)
    (pc : ErrorBufferState) (Format : String) (Args : List FormatArg) : ErrorBufferState :=
  if pc.ErrorBufferLength < ERROR_BUFFER_SIZE - 1 then
    { ErrorBufferLength := pc.ErrorBufferLength
        + vsprintf_s (ERROR_BUFFER_SIZE - pc.ErrorBufferLength) Format Args,
      writes := pc.writes ++ [pc.ErrorBufferLength] }
  else pc

/-- The routine `PlatformPrintf`, whose body is that of `PlatformVPrintf`. -/
def PlatformPrintf (ERROR_BUFFER_SIZE : Int)
    (vsprintf_s : Int → String → List FormatArg → Int)
    (pc : ErrorBufferState) (Format : String) (Args : List FormatArg) : ErrorBufferState :=
  if pc.ErrorBufferLength < ERROR_BUFFER_SIZE - 1 then
    { ErrorBufferLength := pc.ErrorBufferLength
        + vsprintf_s (ERROR_BUFFER_SIZE - pc.ErrorBufferLength) Format Args,
      writes := pc.writes ++ [pc.ErrorBufferLength] }
  else pc

/-- A call of one of the two printers: `true` for `PlatformPrintf`, `false` for
`PlatformVPrintf`, with the format and the arguments. -/
abbrev PrinterCall := Bool × String × List FormatArg

/-- A sequence of calls of the printers, from left to right. -/
def runPrinters (ERROR_BUFFER_SIZE : Int)
    (vsprintf_s : Int → String → List FormatArg → Int) :
    ErrorBufferState → List PrinterCall → ErrorBufferState
  | pc, [] => pc
  | pc, (isPrintf, Format, Args) :: rest =>
    runPrinters ERROR_BUFFER_SIZE vsprintf_s
      (if isPrintf then PlatformPrintf ERROR_BUFFER_SIZE vsprintf_s pc Format Args
       else PlatformVPrintf ERROR_BUFFER_SIZE vsprintf_s pc Format Args)
      rest

/-- The loop `while (CPos > 1)` of `PlatformMakeTempName`, from position `CPos` down; it
yields the buffer as it is when the routine returns. A position past the end of the list
reads as NUL. -/
def PlatformMakeTempName.loop : List Char → Nat → List Char
  | TempNameBuffer, 0 => TempNameBuffer
  | TempNameBuffer, 1 => TempNameBuffer
  | TempNameBuffer, CPos + 2 =>
    if TempNameBuffer.getD (CPos + 2) '\x00' < '9' then
      TempNameBuffer.set (CPos + 2)
        (Char.ofNat ((TempNameBuffer.getD (CPos + 2) '\x00').toNat + 1))
    else
      PlatformMakeTempName.loop (TempNameBuffer.set (CPos + 2) '0') (CPos + 1)

/-- The routine `PlatformMakeTempName`: the buffer after the call and the name returned,
which on both return paths is `TableStrRegister(pc, TempNameBuffer)`. -/
def PlatformMakeTempName (pc : Picoc) (TempNameBuffer : List Char) : List Char × String :=
  let buffer := PlatformMakeTempName.loop TempNameBuffer 5
  (buffer, TableStrRegister pc (String.mk buffer))

/-- The names returned by successive calls of `PlatformMakeTempName` on one static
buffer. -/
def PlatformMakeTempName.successive (pc : Picoc) : Nat → List Char → List String
  | 0, _ => []
  | k + 1, TempNameBuffer =>
    (PlatformMakeTempName pc TempNameBuffer).2
      :: PlatformMakeTempName.successive pc k (PlatformMakeTempName pc TempNameBuffer).1

/-- A `vsprintf_s` for formats without conversion specifications: the text is the format
itself; when it fits with its terminator (`length < size`) it is written and its length is
returned, otherwise the call fails and returns -1. -/
def exVsprintf_s : Int → String → List FormatArg → Int :=
  fun size Format _ => if (Format.length : Int) < size then (Format.length : Int) else -1

/-- A message of 1024 characters. -/
def exLongMessage : String := String.mk (List.replicate 1024 'x')

/-! ## Sampling engine (`Application.cpp`, `Main.cpp`) -/

/-- Rounding of a rational to the nearest integer, a tie going to the even one. -/
def roundHalfEven (q : ℚ) : Int :=
  if q - (⌊q⌋ : ℚ) < 1 / 2 then ⌊q⌋
  else if 1 / 2 < q - (⌊q⌋ : ℚ) then ⌊q⌋ + 1
  else if ⌊q⌋ % 2 = 0 then ⌊q⌋
  else ⌊q⌋ + 1

/-- Rounding of a positive value to the nearest binary floating-point value with `p`
significant bits and exponents from `emin` on, a tie going to the even significand: the
value lies in `[2^e, 2^(e+1))` for `e = Int.log 2 q`, the spacing of the format there is
`2^(max e emin - (p - 1))`, and below `2^emin` the spacing is the one of the subnormal
numbers. -/
def roundToBinary.positive (p : Nat) (emin : Int) (q : ℚ) : ℚ :=
  (roundHalfEven (q / (2 : ℚ) ^ (max (Int.log 2 q) emin - ((p : Int) - 1))) : ℚ)
    * (2 : ℚ) ^ (max (Int.log 2 q) emin - ((p : Int) - 1))

/-- Rounding to the nearest binary floating-point value with `p` significant bits and
exponents from `emin` on (IEEE 754 round to nearest, ties to even). The exponent range has
no upper end here: a value beyond the largest finite one, which the machine rounds to an
infinity, is rounded like any other. -/
def roundToBinary (p : Nat) (emin : Int) (q : ℚ) : ℚ :=
  if 0 < q then roundToBinary.positive p emin q
  else if q < 0 then -roundToBinary.positive p emin (-q)
  else 0

/-- The cast `(float)` of a `double`, and the result of an operation on `float`: rounding
to binary32, 24 significant bits, smallest normal exponent -126. -/
def castFloat (q : ℚ) : ℚ := roundToBinary 24 (-126) q

/-- The result of an operation on `double`: the exact result rounded to binary64, 53
significant bits, smallest normal exponent -1022. -/
def roundDouble (q : ℚ) : ℚ := roundToBinary 53 (-1022) q

/-- The constant `#define NUM_POINTS 1024`. -/
def NUM_POINTS : Nat := 1024

/-- The constant `#define CURVE_WIDTH 32`. -/
def CURVE_WIDTH : Nat := 32

/-- The type `sf::Vector2f`. -/
structure Vector2f where
  x : ℚ
  y : ℚ
deriving DecidableEq

/-- The type `sf::Vector3f`. -/
structure Vector3f where
  x : ℚ
  y : ℚ
  z : ℚ
deriving DecidableEq

/-- The type `sf::FloatRect`. -/
structure FloatRect where
  left : ℚ
  top : ℚ
  width : ℚ
  height : ℚ
deriving DecidableEq

/-- The coordinate modes, in the order of the combo box items. -/
inductive enumCoordinate
  | CARTESIAN
  | POLAR
  | THREE_D
deriving DecidableEq

/-- What one call of `parse` hands back: the double it returns and what it stores through
its out-parameters `isCrash` and `errorBuffer`; `none` when it leaves the variable as it
was. -/
structure ParseOut where
  ret : ℚ
  isCrash : Option Int
  errorBuffer : Option String
deriving DecidableEq

/-- The function `parse` of the interpreter, whose definition is not among the embedded
files: it is a parameter. It runs a fresh session on the source text and the arguments. -/
abbrev Parse := String → List ℚ → ParseOut

/-- The call made `isCrash` non-zero when it was zero before: the evaluation faulted. -/
def ParseOut.faulted (out : ParseOut) : Bool :=
  match out.isCrash with
  | some c => decide (c ≠ 0)
  | none => false

/-- The locals of a sampling pass: the vector `result`, `isCrash`, `errorBuffer`, the
progress fraction written by the loop, and the ghost list of the calls of `parse`. -/
structure Pass (Point : Type) where
  result : List Point
  isCrash : Int
  errorBuffer : String
  mProgression : ℚ
  calls : List (List ℚ)

/-- The loop `for (int i = 0; i < NUM_POINTS; i++)` of `Application::evaluate2D`, with
`n` the number of iterations left (`NUM_POINTS - i`). The local `x` is a `double`: each
operation on it rounds its exact result to `double`, the `float` values `width` and `start`
being converted exactly, and `6.283185307179586` is the `double` nearest to the literal.
The point pushed is `((float)x, (float)parse(..))`. -/
def Application.evaluate2D.loop (parse : Parse) (buffer : String) (width start : ℚ)
    (coordinate : enumCoordinate) : Nat → Nat → Pass Vector2f → Pass Vector2f
  | 0, _, st => st
  | n + 1, i, st =>
    let x : ℚ := roundDouble ((i : ℚ) / (NUM_POINTS : ℚ))
    let mProgression := castFloat x
    let x : ℚ :=
      if coordinate = enumCoordinate.CARTESIAN then roundDouble (roundDouble (x * width) + start)
      else roundDouble (x * roundDouble 6.283185307179586)
    let out := parse buffer [x]
    let y := castFloat out.ret
    let isCrash := out.isCrash.getD st.isCrash
    let errorBuffer := out.errorBuffer.getD st.errorBuffer
    if isCrash ≠ 0 then
      { result := st.result, isCrash := isCrash, errorBuffer := errorBuffer,
        mProgression := mProgression, calls := st.calls ++ [[x]] }
    else
      Application.evaluate2D.loop parse buffer width start coordinate n (i + 1)
        { result := st.result ++ [{ x := castFloat x, y := y }], isCrash := isCrash,
          errorBuffer := errorBuffer, mProgression := mProgression,
          calls := st.calls ++ [[x]] }

/-- The inner loop `for (int j = 0; j < CURVE_WIDTH; j++)` of `Application::evaluate3D`,
with `n` the number of iterations left; `break` leaves this loop only. -/
def Application.evaluate3D.inner (parse : Parse) (buffer : String) (width start : ℚ)
    (posX point0 : ℚ) : Nat → Nat → Pass Vector3f → Pass Vector3f
  | 0, _, st => st
  | n + 1, j, st =>
    let posY : ℚ := (j : ℚ) / (CURVE_WIDTH : ℚ)
    let point1 : ℚ := posY * width + start
    let out := parse buffer [point0, point1]
    let z := out.ret
    let isCrash := out.isCrash.getD st.isCrash
    let errorBuffer := out.errorBuffer.getD st.errorBuffer
    if isCrash ≠ 0 then
      { result := st.result, isCrash := isCrash, errorBuffer := errorBuffer,
        mProgression := st.mProgression, calls := st.calls ++ [[point0, point1]] }
    else
      Application.evaluate3D.inner parse buffer width start posX point0 n (j + 1)
        { result := st.result ++ [{ x := 1 * (posX - 0.5), y := 1 * (posY - 0.5), z := z }],
          isCrash := isCrash, errorBuffer := errorBuffer, mProgression := st.mProgression,
          calls := st.calls ++ [[point0, point1]] }

/-- The outer loop `for (int i = 0; i < CURVE_WIDTH; i++)` of `Application::evaluate3D`,
with `n` the number of iterations left. -/
def Application.evaluate3D.outer (parse : Parse) (buffer : String) (width start : ℚ) :
    Nat → Nat → Pass Vector3f → Pass Vector3f
  | 0, _, st => st
  | n + 1, i, st =>
    let posX : ℚ := (i : ℚ) / (CURVE_WIDTH : ℚ)
    let point0 : ℚ := posX * width + start
    Application.evaluate3D.outer parse buffer width start n (i + 1)
      (Application.evaluate3D.inner parse buffer width start posX point0 CURVE_WIDTH 0
        { st with mProgression := posX })

/-- The members of `Application` shared by the two threads. -/
structure Application where
  mCoordinate : enumCoordinate
  mGraphRect : FloatRect
  mSourceCode : String
  mPoints2D : List Vector2f
  mPoints3D : List Vector3f
  mErrorMessage : String
  mProgression : ℚ
deriving DecidableEq

/-- What an evaluation leaves: the members, the vector it filled, and the ghost calls. -/
structure Evaluated (Point : Type) where
  app : Application
  result : List Point
  calls : List (List ℚ)

/-- The method `Application::evaluate2D`; `garbage` is the content of the uninitialised
local `errorBuffer`. -/
def Application.evaluate2D (parse : Parse) (garbage : String) (app : Application)
    (result : List Vector2f) (coordinate : enumCoordinate) : Evaluated Vector2f :=
  let width := app.mGraphRect.width
  let start := app.mGraphRect.left
  let buffer := app.mSourceCode
  let st := Application.evaluate2D.loop parse buffer width start coordinate NUM_POINTS 0
    { result := result, isCrash := 0, errorBuffer := garbage,
      mProgression := app.mProgression, calls := [] }
  { app := { app with
      mProgression := st.mProgression,
      mErrorMessage := if st.isCrash ≠ 0 then st.errorBuffer else "" },
    result := st.result,
    calls := st.calls }

/-- The method `Application::evaluate3D`; `garbage` is the content of the uninitialised
local `errorBuffer`. -/
def Application.evaluate3D (parse : Parse) (garbage : String) (app : Application)
    (result : List Vector3f) : Evaluated Vector3f :=
  let width := app.mGraphRect.width
  let start := app.mGraphRect.left
  let buffer := app.mSourceCode
  let st := Application.evaluate3D.outer parse buffer width start CURVE_WIDTH 0
    { result := result, isCrash := 0, errorBuffer := garbage,
      mProgression := app.mProgression, calls := [] }
  { app := { app with
      mProgression := st.mProgression,
      mErrorMessage := if st.isCrash ≠ 0 then st.errorBuffer else "" },
    result := st.result,
    calls := st.calls }

/-- The locals `result2D` and `result3D` of `Application::execute`, which live across the
iterations of its loop. -/
structure Worker where
  result2D : List Vector2f
  result3D : List Vector3f
deriving DecidableEq

/-- The evaluation step of one iteration of `Application::execute`: clear the vector of
the snapshotted mode and fill it. -/
def Application.execute.evaluate (parse : Parse) (garbage : String)
    (coordinate : enumCoordinate) (w : Worker) (app : Application) : Worker × Application :=
  if coordinate ≠ enumCoordinate.THREE_D then
    let ev := Application.evaluate2D parse garbage app [] coordinate
    ({ w with result2D := ev.result }, ev.app)
  else
    let ev := Application.evaluate3D parse garbage app []
    ({ w with result3D := ev.result }, ev.app)

/-- The assignment of the publish step of `Application::execute`, made when the test
`coordinate == mCoordinate` has passed. -/
def Application.execute.assign (coordinate : enumCoordinate) (w : Worker)
    (app : Application) : Application :=
  if coordinate ≠ enumCoordinate.THREE_D then
    { app with mPoints2D := w.result2D }
  else
    { app with mPoints3D := w.result3D }

/-- The publish step of one iteration of `Application::execute` (the second locked
region); `app` is the members when the test `coordinate == mCoordinate` reads the live
mode. The `ItemSelected` callback of the other thread writes `mCoordinate`, `mPoints2D` and
`mPoints3D` without taking `mMutex`, so the lock does not keep it out of this region:
`gui3` is what the other thread does between the test and the assignment. -/
def Application.execute.publish (coordinate : enumCoordinate)
    (gui3 : Application → Application) (w : Worker) (app : Application) : Application :=
  if coordinate = app.mCoordinate then
    Application.execute.assign coordinate w (gui3 app)
  else app

/-- One iteration of the loop of `Application::execute`, each statement being one step.
The other thread may change the members at any point: `gui1` is what it does between the
snapshot of the mode and the snapshot taken by the evaluation, `gui2` what it does from
then on until the test of the publish step, `gui3` what it does between that test and the
assignment. The evaluation reads the members only in its snapshot (`mGraphRect.width`,
`mGraphRect.left`, `mSourceCode`, of which the other thread writes only `left` without the
lock, so that its writes can be placed before the snapshot) and writes only `mProgression`
and `mErrorMessage`, which the other thread does not write, so what the other thread does
while the samples are taken can be placed after the evaluation. -/
def Application.execute.iteration (parse : Parse) (garbage : String)
    (gui1 gui2 gui3 : Application → Application) (w : Worker) (app : Application) :
    Worker × Application :=
  let coordinate := app.mCoordinate
  let ev := Application.execute.evaluate parse garbage coordinate w (gui1 app)
  (ev.1, Application.execute.publish coordinate gui3 ev.1 (gui2 ev.2))

/-- The globals of `Main.cpp` that the sampling loop reads or writes. -/
structure MainGlobals where
  sourceCode : String
  points : List Vector2f
  graphRect : FloatRect
  errorMessage : String
  progression : ℚ
deriving DecidableEq

/-- The sampling loop `for (int i = 0; i < NUM_POINTS; i++)` of `execute` in `Main.cpp`,
with `n` the number of iterations left. The local `x` is a `double`, each operation on it
rounds to `double`, and the point pushed is `((float)x, (float)parse(..))`. -/
def Main.execute.loop (parse : Parse) (buffer : String) (width start : ℚ) :
    Nat → Nat → Pass Vector2f → Pass Vector2f
  | 0, _, st => st
  | n + 1, i, st =>
    let x : ℚ := roundDouble ((i : ℚ) / (NUM_POINTS : ℚ))
    let progression := castFloat x
    let x : ℚ := roundDouble (roundDouble (x * width) + start)
    let out := parse buffer [x]
    let y := castFloat out.ret
    let isCrash := out.isCrash.getD st.isCrash
    let errorBuffer := out.errorBuffer.getD st.errorBuffer
    if isCrash ≠ 0 then
      { result := st.result, isCrash := isCrash, errorBuffer := errorBuffer,
        mProgression := progression, calls := st.calls ++ [[x]] }
    else
      Main.execute.loop parse buffer width start n (i + 1)
        { result := st.result ++ [{ x := castFloat x, y := y }], isCrash := isCrash,
          errorBuffer := errorBuffer, mProgression := progression,
          calls := st.calls ++ [[x]] }

/-- One iteration of the loop of `execute` in `Main.cpp`: clear `result`, snapshot, sample,
publish. The local `errorBuffer` lives across the iterations; it is returned with the
globals and the ghost calls. -/
def Main.execute.iteration (parse : Parse) (errorBuffer : String) (g : MainGlobals) :
    MainGlobals × String × List (List ℚ) :=
  let width := g.graphRect.width
  let start := g.graphRect.left
  let buffer := g.sourceCode
  let st := Main.execute.loop parse buffer width start NUM_POINTS 0
    { result := [], isCrash := 0, errorBuffer := errorBuffer,
      mProgression := g.progression, calls := [] }
  ({ g with
      points := st.result,
      errorMessage := if st.isCrash ≠ 0 then st.errorBuffer else "",
      progression := st.mProgression },
   st.errorBuffer, st.calls)

/-- An interpreter for a source such as `double main(double x){ return 1/x; }` that
faults on a division by zero: a call with `x = 0` stores a non-zero `isCrash` and the
error text, any other call with one argument returns `1/x` and stores `isCrash = 0`. -/
def exParseInverse : Parse := fun _ args =>
  match args with
  | [x] =>
    if x = 0 then { ret := 0, isCrash := some 1, errorBuffer := some "division by zero" }
    else { ret := 1 / x, isCrash := some 0, errorBuffer := none }
  | _ => { ret := 0, isCrash := some 1,
           errorBuffer := some "main function must take a double as a param" }

/-- The members at start-up with the 1-D source above: Cartesian mode, the domain
rectangle `(-10, -10, 20, 20)`, nothing published. -/
def exApplication : Application :=
  { mCoordinate := enumCoordinate.CARTESIAN,
    mGraphRect := { left := -10, top := -10, width := 20, height := 20 },
    mSourceCode := "double main(double x)\x7b return 1/x; \x7d",
    mPoints2D := [], mPoints3D := [], mErrorMessage := "", mProgression := 0 }

/-- The globals of `Main.cpp` at start-up with the 1-D source above. -/
def exMainGlobals : MainGlobals :=
  { sourceCode := "double main(double x)\x7b return 1/x; \x7d",
    points := [],
    graphRect := { left := -10, top := -10, width := 20, height := 20 },
    errorMessage := "", progression := 0 }

/-- An interpreter for the default 1-D source `double main(double x){ return x; }`: a
call with one argument returns it and stores `isCrash = 0`. -/
def exParseIdentity : Parse := fun _ args =>
  match args with
  | [x] => { ret := x, isCrash := some 0, errorBuffer := none }
  | _ => { ret := 0, isCrash := some 1,
           errorBuffer := some "main function must take a double as a param" }

/-- An interpreter for a source such as
`double main(double x, double y){ return 1/(x+10); }` that faults on a division by zero:
a call with `x = -10` stores a non-zero `isCrash` and the error text, any other call with
two arguments returns `1/(x+10)` and stores `isCrash = 0`. -/
def exParseSurface : Parse := fun _ args =>
  match args with
  | [x, _] =>
    if x = -10 then { ret := 0, isCrash := some 1, errorBuffer := some "division by zero" }
    else { ret := 1 / (x + 10), isCrash := some 0, errorBuffer := none }
  | _ => { ret := 0, isCrash := some 1,
           errorBuffer := some "main function must take a double as a param" }

/-- The members in 3-D mode with the source above and the domain rectangle
`(-10, -10, 20, 20)`, nothing published. -/
def exApplication3D : Application :=
  { mCoordinate := enumCoordinate.THREE_D,
    mGraphRect := { left := -10, top := -10, width := 20, height := 20 },
    mSourceCode := "double main(double x, double y)\x7b return 1/(x+10); \x7d",
    mPoints2D := [], mPoints3D := [], mErrorMessage := "", mProgression := 0 }

/-- An interpreter for the two-parameter source
`double main(double x, double y){ return x + y; }`: a call with two arguments returns their
sum and stores `isCrash = 0`. -/
def exParsePlane : Parse := fun _ args =>
  match args with
  | [x, y] => { ret := x + y, isCrash := some 0, errorBuffer := none }
  | _ => { ret := 0, isCrash := some 1,
           errorBuffer := some "main function must take a double as a param" }

/-- The members in 3-D mode with a domain rectangle that is not a square at the diagonal:
`left = -10`, `top = 0`, `width = 20`, `height = 10`. -/
def exApplicationWide : Application :=
  { mCoordinate := enumCoordinate.THREE_D,
    mGraphRect := { left := -10, top := 0, width := 20, height := 10 },
    mSourceCode := "double main(double x, double y)\x7b return x + y; \x7d",
    mPoints2D := [], mPoints3D := [], mErrorMessage := "", mProgression := 0 }

/-- What the other thread does when the user selects "3D curve" in the combo box (the
`ItemSelected` callback followed by `fillDefaultSourceCode`): clear both published sets,
switch the mode, install the default 3-D source. -/
def exSelect3D (app : Application) : Application :=
  { app with
    mPoints2D := [], mPoints3D := [],
    mCoordinate := enumCoordinate.THREE_D,
    mSourceCode := "double main(double x, double y)\x7b\n\nreturn fabs(sin(x*0.5));\n\x7d" }

/-- The members in Cartesian mode with the default 1-D source and a domain far from the
origin: `left = 2^24 = 16777216`, `width = 1`. -/
def exApplicationFar : Application :=
  { mCoordinate := enumCoordinate.CARTESIAN,
    mGraphRect := { left := 16777216, top := -10, width := 1, height := 20 },
    mSourceCode := "double main(double x)\x7b return x; \x7d",
    mPoints2D := [], mPoints3D := [], mErrorMessage := "", mProgression := 0 }

/-- An interpreter for a source such as
`double main(double x, double y){ if (x > 9) return foo(x); return 1/(x+10); }`, which
faults in two ways: a call with `x = -10` stores a non-zero `isCrash` and the text of the
division by zero, a call with `x > 9` stores a non-zero `isCrash` and the text of the
undefined function, and any other call with two arguments returns `1/(x+10)` and leaves
`isCrash` and the error buffer as they are. -/
def exParseTwoFaults : Parse := fun _ args =>
  match args with
  | [x, _] =>
    if x = -10 then { ret := 0, isCrash := some 1, errorBuffer := some "division by zero" }
    else if 9 < x then
      { ret := 0, isCrash := some 1, errorBuffer := some "'foo' is undefined" }
    else { ret := 1 / (x + 10), isCrash := none, errorBuffer := none }
  | _ => { ret := 0, isCrash := some 1,
           errorBuffer := some "main function must take a double as a param" }

/-- The members in 3-D mode with the source above and the domain rectangle
`(-10, -10, 20, 20)`, nothing published. -/
def exApplicationTwoFaults : Application :=
  { mCoordinate := enumCoordinate.THREE_D,
    mGraphRect := { left := -10, top := -10, width := 20, height := 20 },
    mSourceCode :=
      "double main(double x, double y)\x7b if (x > 9) return foo(x); return 1/(x+10); \x7d",
    mPoints2D := [], mPoints3D := [], mErrorMessage := "", mProgression := 0 }

/-- The loop `for (const sf::Vector3f& p : mPoints3D)` of `Application::show3DGraph` that
computes the pair `(minZ, maxZ)`. -/
def Application.show3DGraph.range : List Vector3f → ℚ × ℚ → ℚ × ℚ
  | [], mm => mm
  | p :: rest, mm =>
    let minZ := if mm.1 > p.z then p.z else mm.1
    let maxZ := if mm.2 < p.z then p.z else mm.2
    Application.show3DGraph.range rest (minZ, maxZ)

/-- The read `mPoints3D[k]` of `Application::show3DGraph`: `operator[]` of `std::vector`
does not check the index, and a read at an index that is not smaller than the size has no
defined behaviour; it is the error `k`. -/
def Application.show3DGraph.read (mPoints3D : List Vector3f) (k : Nat) :
    Except Nat Vector3f :=
  match mPoints3D[k]? with
  | some p => Except.ok p
  | none => Except.error k

/-- The body of the inner loop of `Application::show3DGraph` for the cell `(x, y)`: the
four reads, in the order of the source, and the six vertices pushed to `positions`. The
colours, which are computed from the rescaled `z` and index nothing, are left out. -/
def Application.show3DGraph.cell (mPoints3D : List Vector3f) (minZ deltaZ : ℚ)
    (x y : Nat) : Except Nat (List Vector3f) :=
  match Application.show3DGraph.read mPoints3D (x * CURVE_WIDTH + y) with
  | Except.error k => Except.error k
  | Except.ok p0 =>
  match Application.show3DGraph.read mPoints3D ((x + 1) * CURVE_WIDTH + y) with
  | Except.error k => Except.error k
  | Except.ok p1 =>
  match Application.show3DGraph.read mPoints3D ((x + 1) * CURVE_WIDTH + y + 1) with
  | Except.error k => Except.error k
  | Except.ok p2 =>
  match Application.show3DGraph.read mPoints3D (x * CURVE_WIDTH + y + 1) with
  | Except.error k => Except.error k
  | Except.ok p3 =>
    let p0 := { p0 with z := (p0.z - minZ) * deltaZ - 0.5 }
    let p1 := { p1 with z := (p1.z - minZ) * deltaZ - 0.5 }
    let p2 := { p2 with z := (p2.z - minZ) * deltaZ - 0.5 }
    let p3 := { p3 with z := (p3.z - minZ) * deltaZ - 0.5 }
    Except.ok [p0, p1, p2, p2, p3, p0]

/-- The loop `for (int y = 0; y < CURVE_WIDTH-1; y++)` of `Application::show3DGraph`, with
`n` the number of iterations left. -/
def Application.show3DGraph.inner (mPoints3D : List Vector3f) (minZ deltaZ : ℚ) (x : Nat) :
    Nat → Nat → List Vector3f → Except Nat (List Vector3f)
  | 0, _, positions => Except.ok positions
  | n + 1, y, positions =>
    match Application.show3DGraph.cell mPoints3D minZ deltaZ x y with
    | Except.error k => Except.error k
    | Except.ok vertices =>
      Application.show3DGraph.inner mPoints3D minZ deltaZ x n (y + 1) (positions ++ vertices)

/-- The loop `for (int x = 0; x < CURVE_WIDTH-1; x++)` of `Application::show3DGraph`, with
`n` the number of iterations left. -/
def Application.show3DGraph.outer (mPoints3D : List Vector3f) (minZ deltaZ : ℚ) :
    Nat → Nat → List Vector3f → Except Nat (List Vector3f)
  | 0, _, positions => Except.ok positions
  | n + 1, x, positions =>
    match Application.show3DGraph.inner mPoints3D minZ deltaZ x (CURVE_WIDTH - 1) 0
        positions with
    | Except.error k => Except.error k
    | Except.ok positions =>
      Application.show3DGraph.outer mPoints3D minZ deltaZ n (x + 1) positions

/-- The locked region of the method `Application::show3DGraph`: the vector `positions` it
builds from the published set, or the error `k` when it reads `mPoints3D[k]` with `k` not
smaller than the size. The calls of OpenGL before and after are left out. -/
def Application.show3DGraph (app : Application) : Except Nat (List Vector3f) :=
  if app.mPoints3D.isEmpty then Except.ok []
  else
    let mm := Application.show3DGraph.range app.mPoints3D (0, 0)
    let minZ := mm.1
    let maxZ := mm.2
    let deltaZ : ℚ := if maxZ - minZ > 1e-7 then 1 / (maxZ - minZ) else 0
    Application.show3DGraph.outer app.mPoints3D minZ deltaZ (CURVE_WIDTH - 1) 0 []

/-- The loop `for (unsigned i = 1; i < mPoints2D.size(); i++)` of
`Application::getAccurateYValue`, with `n` the number of iterations left
(`mPoints2D.size() - i`); the pair is `(p0, p1)`. The reads `mPoints2D[i-1]` and
`mPoints2D[i]` are in range, since `1 <= i < mPoints2D.size()`. -/
def Application.getAccurateYValue.loop (mPoints2D : List Vector2f) (x : ℚ) :
    Nat → Nat → Vector2f × Vector2f → Vector2f × Vector2f
  | 0, _, pp => pp
  | n + 1, i, pp =>
    if (mPoints2D.getD i { x := 0, y := 0 }).x > x then
      (mPoints2D.getD (i - 1) { x := 0, y := 0 }, mPoints2D.getD i { x := 0, y := 0 })
    else
      Application.getAccurateYValue.loop mPoints2D x n (i + 1) pp

/-- The method `Application::getAccurateYValue`. -/
def Application.getAccurateYValue (app : Application) (x : ℚ) : ℚ :=
  if app.mPoints2D.length < 2 then 0
  else
    let p0 := app.mPoints2D.getD 0 { x := 0, y := 0 }
    let p1 := app.mPoints2D.getD 1 { x := 0, y := 0 }
    let pp := Application.getAccurateYValue.loop app.mPoints2D x
      (app.mPoints2D.length - 1) 1 (p0, p1)
    let a := (x - pp.1.x) / (pp.2.x - pp.1.x)
    a * (pp.2.y - pp.1.y) + pp.1.y

/-- The members in Cartesian mode with a published curve of three points, `(0, 0)`,
`(1, 1)` and `(2, 0)`. -/
def exApplicationCurve : Application :=
  { mCoordinate := enumCoordinate.CARTESIAN,
    mGraphRect := { left := 0, top := -1, width := 3, height := 3 },
    mSourceCode := "double main(double x)\x7b return 1 - fabs(x - 1); \x7d",
    mPoints2D := [{ x := 0, y := 0 }, { x := 1, y := 1 }, { x := 2, y := 0 }],
    mPoints3D := [], mErrorMessage := "", mProgression := 0 }

/-- The constant `FLT_MAX` of `<cfloat>`, the largest finite `float`,
`(2 - 2^-23) * 2^127`. -/
def FLT_MAX : ℚ := 340282346638528859811704183484516925440

/-- The table `mul` of `computeAxisGraduation`. -/
def computeAxisGraduation.mul : List ℚ := [1, 2, 5]

/-- The loop `for (int i = 0; i < 3; i++)` of `computeAxisGraduation` over the entries of
`mul` that are left: the first `b = a * mul[i]` with `delta / b <= 10`, which the source
stores in `step` while setting `ok`; `none` when no entry passes and `ok` stays false. -/
def computeAxisGraduation.inner (delta a : ℚ) : List ℚ → Option ℚ
  | [] => none
  | m :: rest =>
    let b := a * m
    if delta / b ≤ 10 then some b
    else computeAxisGraduation.inner delta a rest

/-- The loop `for (int e = -7; e < 9; e++)` of `computeAxisGraduation`, with `n` the
number of iterations left (`9 - e`): the value of `step` after the loop, which is the
initial `FLT_MAX` when `ok` was never set. The power `pow(10.0, e)` is exact. -/
def computeAxisGraduation.search (delta : ℚ) : Nat → Int → ℚ
  | 0, _ => FLT_MAX
  | n + 1, e =>
    let a : ℚ := (10 : ℚ) ^ e
    match computeAxisGraduation.inner delta a computeAxisGraduation.mul with
    | some b => b
    | none => computeAxisGraduation.search delta n (e + 1)

/-- The loop `for (; i < max + 0.1*step; i += step)` of `computeAxisGraduation`; `abs` is
the absolute value of a `double`. The loop has no bound on its iterations in the source:
the result is `none` when the fuel runs out before the loop ends. -/
def computeAxisGraduation.loop (max step : ℚ) : Nat → ℚ → List ℚ → Option (List ℚ)
  | 0, _, _ => none
  | fuel + 1, i, axis =>
    if i < max + 0.1 * step then
      computeAxisGraduation.loop max step fuel (i + step)
        (if |i| > 1e-9 then axis ++ [i] else axis)
    else some axis

/-- The function `computeAxisGraduation` of `Main.cpp`, in exact arithmetic. -/
def computeAxisGraduation (fuel : Nat) (min max : ℚ) : Option (List ℚ) :=
  let delta := max - min
  let step := computeAxisGraduation.search delta 16 (-7)
  let i : ℚ := (⌊min / step⌋ : ℚ) * step
  computeAxisGraduation.loop max step fuel i []

/-- The method `Application::computeAxisGraduation`, whose body is the one of the function
of `Main.cpp`, line for line. -/
def Application.computeAxisGraduation (fuel : Nat) (min max : ℚ) : Option (List ℚ) :=
  let delta := max - min
  let step := computeAxisGraduation.search delta 16 (-7)
  let i : ℚ := (⌊min / step⌋ : ℚ) * step
  computeAxisGraduation.loop max step fuel i []

/-! ## Theorems -/

/-- C1: `PicocCallMain` runs the parser (on the statement `__exit_value = main(__arg);`)
only if `main` is defined, has function type, returns the double type and has exactly one
parameter; and whenever one of these fails, the run is a `ProgramFailNoParser` with one of
the four fixed messages, after calls none of which is a call of the parser, so that no
user code is run. -/
theorem PicocCallMain_contract (pc : Picoc) (arg : ℚ) :
    ((∃ e ∈ (PicocCallMain pc arg).trace, e.isPicocParse = true) →
      ∃ FuncValue, pc.GlobalTable "main" = some FuncValue ∧
        FuncValue.Typ.Base = BaseType.TypeFunction ∧
        FuncValue.Val.FuncDef.ReturnType = pc.FPType ∧
        FuncValue.Val.FuncDef.NumParams = 1) ∧
    ((¬ ∃ FuncValue, pc.GlobalTable "main" = some FuncValue ∧
        FuncValue.Typ.Base = BaseType.TypeFunction ∧
        FuncValue.Val.FuncDef.ReturnType = pc.FPType ∧
        FuncValue.Val.FuncDef.NumParams = 1) →
      (∃ Message ∈ ["main() is not defined", "main is not a function - can't call it",
                    "main function must return a double",
                    "main function must take a double as a param"],
        ∃ before, (∀ e ∈ before, e.isPicocParse = false) ∧
          PicocCallMain pc arg = ProgramFailNoParser before Message) ∧
      (PicocCallMain pc arg).exited = some 1 ∧
      ∀ e ∈ (PicocCallMain pc arg).trace, e.isPicocParse = false) := by
  unfold PicocCallMain VariableDefined VariableGet TableStrRegister
  cases hmain : pc.GlobalTable "main" with
  | none =>
    simp [ProgramFailNoParser, PlatformExit, Event.isPicocParse]
  | some FuncValue =>
    by_cases hbase : FuncValue.Typ.Base = BaseType.TypeFunction
    · by_cases hret : FuncValue.Val.FuncDef.ReturnType = pc.FPType
      · by_cases hnum : FuncValue.Val.FuncDef.NumParams = 1
        · simp [hbase, hret, hnum, Event.isPicocParse]
        · by_cases hzero : FuncValue.Val.FuncDef.NumParams = 0
          · simp [hbase, hret, hnum, hzero, ProgramFailNoParser, PlatformExit, Event.isPicocParse]
            exact Or.inr (Or.inr (Or.inr ⟨[_], by simp, rfl⟩))
          · simp [hbase, hret, hnum, hzero, ProgramFailNoParser, PlatformExit, Event.isPicocParse]
            exact Or.inr (Or.inr (Or.inr ⟨[_, _], by simp, rfl⟩))
      · by_cases hzero : FuncValue.Val.FuncDef.NumParams = 0
        · simp [hbase, hret, hzero, ProgramFailNoParser, PlatformExit, Event.isPicocParse]
        · simp [hbase, hret, hzero, ProgramFailNoParser, PlatformExit, Event.isPicocParse]
          exact Or.inr (Or.inr (Or.inl ⟨[_], by simp, rfl⟩))
    · simp [hbase, ProgramFailNoParser, PlatformExit, Event.isPicocParse]

/-- C2 (counterexample): the session of `double main(double x, double y)`, a function
returning double with exactly two floating-point parameters, is not accepted: the entry
check fails with the message about the parameter and the parser is never called. -/
theorem PicocCallMain_rejects_two_doubles :
    (∃ FuncValue, exSessionTwoDoubles.GlobalTable "main" = some FuncValue ∧
        FuncValue.Typ.Base = BaseType.TypeFunction ∧
        FuncValue.Val.FuncDef.ReturnType = exSessionTwoDoubles.FPType ∧
        FuncValue.Val.FuncDef.NumParams = 2 ∧
        FuncValue.Val.FuncDef.ParamType
          = [exSessionTwoDoubles.FPType, exSessionTwoDoubles.FPType]) ∧
    PicocCallMain exSessionTwoDoubles 0
      = ProgramFailNoParser
          [Event.VariableDefinePlatformVar "__arg" exFPType false,
           Event.VariableDefinePlatformVar "__exit_value" exFPType true]
          "main function must take a double as a param" ∧
    (PicocCallMain exSessionTwoDoubles 0).exited = some 1 ∧
    ∀ e ∈ (PicocCallMain exSessionTwoDoubles 0).trace, e.isPicocParse = false := by
  decide

/-- C2 (amended): a `main` that is a function returning double with exactly one
floating-point parameter is accepted: `__arg` and `__exit_value` are defined, the call
statement is handed to the parser and nothing is printed or exited; a `main` with exactly
two parameters is rejected with "main function must take a double as a param". -/
theorem PicocCallMain_accepts_one_double (pc : Picoc) (arg : ℚ) (FuncValue : Value)
    (hmain : pc.GlobalTable "main" = some FuncValue)
    (hbase : FuncValue.Typ.Base = BaseType.TypeFunction)
    (hret : FuncValue.Val.FuncDef.ReturnType = pc.FPType) :
    (FuncValue.Val.FuncDef.NumParams = 1 ∧ FuncValue.Val.FuncDef.ParamType = [pc.FPType] →
      PicocCallMain pc arg =
        { trace := [Event.VariableDefinePlatformVar "__arg" pc.FPType false,
                    Event.VariableDefinePlatformVar "__exit_value" pc.FPType true,
                    Event.PicocParse "startup" "__exit_value = main(__arg);"],
          exited := none }) ∧
    (FuncValue.Val.FuncDef.NumParams = 2 →
      PicocCallMain pc arg =
        ProgramFailNoParser
          [Event.VariableDefinePlatformVar "__arg" pc.FPType false,
           Event.VariableDefinePlatformVar "__exit_value" pc.FPType true]
          "main function must take a double as a param") := by
  unfold PicocCallMain VariableDefined VariableGet TableStrRegister
  constructor
  · rintro ⟨hnum, -⟩
    simp [hmain, hbase, hret, hnum, CALL_MAIN_WITH_ARGS_RETURN_DOUBLE]
  · intro hnum
    simp [hmain, hbase, hret, hnum]

/-- C2 (witness): the amended statement at the session of `double main(double x)`. -/
theorem PicocCallMain_accepts_one_double_witness :
    PicocCallMain exSessionOneDouble 3 =
      { trace := [Event.VariableDefinePlatformVar "__arg" exFPType false,
                  Event.VariableDefinePlatformVar "__exit_value" exFPType true,
                  Event.PicocParse "startup" "__exit_value = main(__arg);"],
        exited := none } :=
  (PicocCallMain_accepts_one_double exSessionOneDouble 3
    { Typ := exFunctionType,
      Val := { FuncDef := { ReturnType := exFPType, NumParams := 1,
                            ParamType := [exFPType] } } }
    (by decide) (by decide) (by decide)).1 ⟨by decide, by decide⟩

/-- C3 (counterexample): the session of `double main(int n)` has a `main` returning double
with one parameter, which is not of the floating-point type, and yet no contract error is
signalled: the call statement is handed to the parser. -/
theorem PicocCallMain_ignores_param_type :
    (∃ FuncValue, exSessionOneInt.GlobalTable "main" = some FuncValue ∧
        FuncValue.Typ.Base = BaseType.TypeFunction ∧
        FuncValue.Val.FuncDef.ReturnType = exSessionOneInt.FPType ∧
        FuncValue.Val.FuncDef.NumParams = 1 ∧
        ∃ t ∈ FuncValue.Val.FuncDef.ParamType, t ≠ exSessionOneInt.FPType) ∧
    (PicocCallMain exSessionOneInt 0).exited = none ∧
    (∀ Message, Event.PlatformVPrintf Message ∉ (PicocCallMain exSessionOneInt 0).trace) ∧
    Event.PicocParse "startup" "__exit_value = main(__arg);"
      ∈ (PicocCallMain exSessionOneInt 0).trace := by
  refine ⟨by decide, by decide, ?_, by decide⟩
  intro Message
  simp [PicocCallMain, VariableDefined, VariableGet, TableStrRegister, exSessionOneInt,
    exSession, exFunctionType]

/-- C3 (amended): the parameter type is not part of the entry check. For a `main` that is
a function returning double with exactly one parameter, a parameter that is not of the
floating-point type changes nothing: no message is printed, the run does not exit, and the
call statement is handed to the parser. -/
theorem PicocCallMain_param_type_unchecked (pc : Picoc) (arg : ℚ) (FuncValue : Value)
    (hmain : pc.GlobalTable "main" = some FuncValue)
    (hbase : FuncValue.Typ.Base = BaseType.TypeFunction)
    (hret : FuncValue.Val.FuncDef.ReturnType = pc.FPType)
    (hnum : FuncValue.Val.FuncDef.NumParams = 1)
    (_hparam : ∃ t ∈ FuncValue.Val.FuncDef.ParamType, t ≠ pc.FPType) :
    (PicocCallMain pc arg).exited = none ∧
    (∀ Message, Event.PlatformVPrintf Message ∉ (PicocCallMain pc arg).trace) ∧
    (PicocCallMain pc arg).trace.getLast?
      = some (Event.PicocParse "startup" "__exit_value = main(__arg);") := by
  unfold PicocCallMain VariableDefined VariableGet TableStrRegister
  simp [hmain, hbase, hret, hnum, CALL_MAIN_WITH_ARGS_RETURN_DOUBLE]

/-- C3 (witness): the amended statement at the session of `double main(int n)`. -/
theorem PicocCallMain_param_type_unchecked_witness :
    (PicocCallMain exSessionOneInt 5).exited = none ∧
    (∀ Message, Event.PlatformVPrintf Message ∉ (PicocCallMain exSessionOneInt 5).trace) ∧
    (PicocCallMain exSessionOneInt 5).trace.getLast?
      = some (Event.PicocParse "startup" "__exit_value = main(__arg);") :=
  PicocCallMain_param_type_unchecked exSessionOneInt 5
    { Typ := exFunctionType,
      Val := { FuncDef := { ReturnType := exFPType, NumParams := 1,
                            ParamType := [exIntType] } } }
    (by decide) (by decide) (by decide) (by decide) ⟨exIntType, by decide, by decide⟩


/-! ### Rounding to `float` and `double` -/

/-- Rounding to the nearest integer leaves an integer as it is. -/
theorem roundHalfEven_intCast (z : Int) : roundHalfEven (z : ℚ) = z := by
  unfold roundHalfEven
  rw [Int.floor_intCast]
  simp

/-- Rounding to the nearest integer stays between the floor and the floor plus one. -/
theorem roundHalfEven_bounds (q : ℚ) : ⌊q⌋ ≤ roundHalfEven q ∧ roundHalfEven q ≤ ⌊q⌋ + 1 := by
  unfold roundHalfEven
  split_ifs <;> constructor <;> omega

/-- Rounding to the nearest integer is monotone. -/
theorem roundHalfEven_mono {a b : ℚ} (h : a ≤ b) : roundHalfEven a ≤ roundHalfEven b := by
  have hf : ⌊a⌋ ≤ ⌊b⌋ := Int.floor_mono h
  rcases lt_or_eq_of_le hf with hlt | heq
  · have h1 := (roundHalfEven_bounds a).2
    have h2 := (roundHalfEven_bounds b).1
    omega
  · unfold roundHalfEven
    rw [heq]
    have hab : a - (⌊b⌋ : ℚ) ≤ b - (⌊b⌋ : ℚ) := by linarith
    split_ifs <;> first | omega | (exfalso; linarith)

/-- The exponent of a positive value in the interval `[2^e, 2^(e+1))` is `e`. -/
theorem log_two_eq (q : ℚ) (e : Int) (h1 : (2 : ℚ) ^ e ≤ q) (h2 : q < (2 : ℚ) ^ (e + 1)) :
    Int.log 2 q = e := by
  have hq : 0 < q := lt_of_lt_of_le (zpow_pos (by norm_num) e) h1
  have ha : e ≤ Int.log 2 q := by
    rw [← Int.zpow_le_iff_le_log (by norm_num) hq]
    simpa using h1
  have hb : Int.log 2 q < e + 1 := by
    rw [← Int.lt_zpow_iff_log_lt (by norm_num) hq]
    simpa using h2
  omega

/-- A positive value lies in the interval of its exponent. -/
theorem log_two_bounds (q : ℚ) (hq : 0 < q) :
    (2 : ℚ) ^ (Int.log 2 q) ≤ q ∧ q < (2 : ℚ) ^ (Int.log 2 q + 1) := by
  have h1 := Int.zpow_log_le_self (b := 2) (r := q) (by norm_num) hq
  have h2 := Int.lt_zpow_succ_log_self (b := 2) (by norm_num) q
  exact ⟨by simpa using h1, by simpa using h2⟩

/-- The spacing of the format is positive. -/
theorem two_zpow_pos (u : Int) : (0 : ℚ) < (2 : ℚ) ^ u := zpow_pos (by norm_num) u

/-- Rounding a positive value gives a value that is not negative. -/
theorem roundToBinary_positive_nonneg (p : Nat) (emin : Int) (q : ℚ) (hq : 0 < q) :
    0 ≤ roundToBinary.positive p emin q := by
  unfold roundToBinary.positive
  have hu := two_zpow_pos (max (Int.log 2 q) emin - ((p : Int) - 1))
  have h0 : roundHalfEven ((0 : Int) : ℚ) ≤ roundHalfEven
      (q / (2 : ℚ) ^ (max (Int.log 2 q) emin - ((p : Int) - 1))) :=
    roundHalfEven_mono (by simpa using le_of_lt (div_pos hq hu))
  rw [roundHalfEven_intCast] at h0
  exact mul_nonneg (by exact_mod_cast h0) (le_of_lt hu)

/-- Rounding a positive value stays between the power of two below it, when the value is
at least `2^emin`, and the power of two above it. -/
theorem roundToBinary_positive_bounds (p : Nat) (hp : 1 ≤ p) (emin : Int) (q : ℚ)
    (hq : 0 < q) :
    roundToBinary.positive p emin q ≤ (2 : ℚ) ^ (max (Int.log 2 q) emin + 1) ∧
    (emin ≤ Int.log 2 q → (2 : ℚ) ^ (Int.log 2 q) ≤ roundToBinary.positive p emin q) := by
  obtain ⟨hlo, hhi⟩ := log_two_bounds q hq
  have hu := two_zpow_pos (max (Int.log 2 q) emin - ((p : Int) - 1))
  constructor
  · unfold roundToBinary.positive
    have hsplit : (2 : ℚ) ^ (max (Int.log 2 q) emin + 1)
        = (((2 : Int) ^ p : Int) : ℚ)
          * (2 : ℚ) ^ (max (Int.log 2 q) emin - ((p : Int) - 1)) := by
      push_cast
      rw [← zpow_natCast, ← zpow_add₀ (by norm_num)]
      congr 1
      omega
    have hle : q ≤ (2 : ℚ) ^ (max (Int.log 2 q) emin + 1) :=
      le_trans (le_of_lt hhi)
        (zpow_le_zpow_right₀ (by norm_num) (by have := le_max_left (Int.log 2 q) emin; omega))
    have hdiv : q / (2 : ℚ) ^ (max (Int.log 2 q) emin - ((p : Int) - 1))
        ≤ (((2 : Int) ^ p : Int) : ℚ) := by
      rw [div_le_iff₀ hu, ← hsplit]
      exact hle
    have := roundHalfEven_mono hdiv
    rw [roundHalfEven_intCast] at this
    rw [hsplit]
    exact mul_le_mul_of_nonneg_right (by exact_mod_cast this) (le_of_lt hu)
  · intro hemin
    unfold roundToBinary.positive
    rw [max_eq_left hemin]
    have hu2 := two_zpow_pos (Int.log 2 q - ((p : Int) - 1))
    obtain ⟨r, hr⟩ : ∃ r : Nat, p = r + 1 := ⟨p - 1, by omega⟩
    have hsplit : (2 : ℚ) ^ (Int.log 2 q)
        = (((2 : Int) ^ r : Int) : ℚ) * (2 : ℚ) ^ (Int.log 2 q - ((p : Int) - 1)) := by
      push_cast
      rw [← zpow_natCast, ← zpow_add₀ (by norm_num)]
      congr 1
      rw [hr]
      push_cast
      omega
    have hdiv : (((2 : Int) ^ r : Int) : ℚ)
        ≤ q / (2 : ℚ) ^ (Int.log 2 q - ((p : Int) - 1)) := by
      rw [le_div_iff₀ hu2, ← hsplit]
      exact hlo
    have := roundHalfEven_mono hdiv
    rw [roundHalfEven_intCast] at this
    rw [hsplit]
    exact mul_le_mul_of_nonneg_right (by exact_mod_cast this) (le_of_lt hu2)

/-- Rounding is monotone on the positive values. -/
theorem roundToBinary_positive_mono (p : Nat) (hp : 1 ≤ p) (emin : Int) (a b : ℚ)
    (ha : 0 < a) (hab : a ≤ b) :
    roundToBinary.positive p emin a ≤ roundToBinary.positive p emin b := by
  have hb : 0 < b := lt_of_lt_of_le ha hab
  have hlog : Int.log 2 a ≤ Int.log 2 b := Int.log_mono_right ha hab
  have he : max (Int.log 2 a) emin ≤ max (Int.log 2 b) emin := max_le_max hlog (le_refl _)
  rcases lt_or_eq_of_le he with hlt | heq
  · -- different spacings: a power of two lies between the two results
    have hbm : emin ≤ Int.log 2 b := by
      by_contra hn
      have h1 : max (Int.log 2 b) emin = emin := max_eq_right (by omega)
      have h2 := le_max_right (Int.log 2 a) emin
      omega
    have h1 := (roundToBinary_positive_bounds p hp emin a ha).1
    have h2 := (roundToBinary_positive_bounds p hp emin b hb).2 hbm
    have h3 : (2 : ℚ) ^ (max (Int.log 2 a) emin + 1) ≤ (2 : ℚ) ^ (Int.log 2 b) :=
      zpow_le_zpow_right₀ (by norm_num) (by rw [max_eq_left hbm] at hlt; omega)
    linarith
  · unfold roundToBinary.positive
    rw [heq]
    have hu := two_zpow_pos (max (Int.log 2 b) emin - ((p : Int) - 1))
    have hdiv : a / (2 : ℚ) ^ (max (Int.log 2 b) emin - ((p : Int) - 1))
        ≤ b / (2 : ℚ) ^ (max (Int.log 2 b) emin - ((p : Int) - 1)) :=
      div_le_div_of_nonneg_right hab (le_of_lt hu)
    have := roundHalfEven_mono hdiv
    exact mul_le_mul_of_nonneg_right (by exact_mod_cast this) (le_of_lt hu)

/-- Rounding to a binary format is monotone. -/
theorem roundToBinary_mono (p : Nat) (hp : 1 ≤ p) (emin : Int) {a b : ℚ} (hab : a ≤ b) :
    roundToBinary p emin a ≤ roundToBinary p emin b := by
  unfold roundToBinary
  by_cases ha : 0 < a
  · have hb : 0 < b := lt_of_lt_of_le ha hab
    rw [if_pos ha, if_pos hb]
    exact roundToBinary_positive_mono p hp emin a b ha hab
  · rw [if_neg ha]
    by_cases ha2 : a < 0
    · rw [if_pos ha2]
      have hna := roundToBinary_positive_nonneg p emin (-a) (by linarith)
      by_cases hb : 0 < b
      · rw [if_pos hb]
        have := roundToBinary_positive_nonneg p emin b hb
        linarith
      · rw [if_neg hb]
        by_cases hb2 : b < 0
        · rw [if_pos hb2]
          have := roundToBinary_positive_mono p hp emin (-b) (-a) (by linarith) (by linarith)
          linarith
        · rw [if_neg hb2]
          linarith
    · rw [if_neg ha2]
      by_cases hb : 0 < b
      · rw [if_pos hb]
        exact roundToBinary_positive_nonneg p emin b hb
      · have hb2 : ¬ b < 0 := by
          intro h
          apply ha2
          linarith
        rw [if_neg hb, if_neg hb2]

/-- A positive multiple `n * 2^k` of a power of two with `n < 2^p`, and `2^k` not below the
smallest spacing of the format, is a value of the format: rounding leaves it as it is. -/
theorem roundToBinary_positive_dyadic (p : Nat) (emin : Int) (n : Nat) (k : Int)
    (hn0 : 0 < n) (hn : n < 2 ^ p) (hk : emin - ((p : Int) - 1) ≤ k) :
    roundToBinary.positive p emin ((n : ℚ) * (2 : ℚ) ^ k) = (n : ℚ) * (2 : ℚ) ^ k := by
  have hk0 := two_zpow_pos k
  have hq : (0 : ℚ) < (n : ℚ) * (2 : ℚ) ^ k :=
    mul_pos (by exact_mod_cast hn0) hk0
  have hlog : Int.log 2 ((n : ℚ) * (2 : ℚ) ^ k) < (p : Int) + k := by
    rw [← Int.lt_zpow_iff_log_lt (by norm_num) hq]
    have h1 : (n : ℚ) < (2 : ℚ) ^ p := by exact_mod_cast hn
    have h2 : ((2 : Nat) : ℚ) ^ ((p : Int) + k) = (2 : ℚ) ^ p * (2 : ℚ) ^ k := by
      rw [zpow_add₀ (by norm_num), zpow_natCast]
      norm_num
    rw [h2]
    exact mul_lt_mul_of_pos_right h1 hk0
  have hu : max (Int.log 2 ((n : ℚ) * (2 : ℚ) ^ k)) emin - ((p : Int) - 1) ≤ k := by
    rcases max_cases (Int.log 2 ((n : ℚ) * (2 : ℚ) ^ k)) emin with ⟨h, _⟩ | ⟨h, _⟩ <;>
      rw [h] <;> omega
  unfold roundToBinary.positive
  generalize max (Int.log 2 ((n : ℚ) * (2 : ℚ) ^ k)) emin - ((p : Int) - 1) = u at hu
  obtain ⟨d, hd⟩ : ∃ d : Nat, k = u + (d : Int) := ⟨(k - u).toNat, by omega⟩
  have hpow : (2 : ℚ) ^ k = (2 : ℚ) ^ d * (2 : ℚ) ^ u := by
    rw [hd, zpow_add₀ (by norm_num), zpow_natCast, mul_comm]
  have hu0 := two_zpow_pos u
  have hdiv : (n : ℚ) * (2 : ℚ) ^ k / (2 : ℚ) ^ u = (((n : Int) * (2 : Int) ^ d : Int) : ℚ) := by
    rw [hpow]
    push_cast
    field_simp
    ring
  rw [hdiv, roundHalfEven_intCast, hpow]
  push_cast
  ring

/-- An integer multiple `z * 2^k` of a power of two with `|z| < 2^p`, and `2^k` not below
the smallest spacing of the format, is a value of the format. -/
theorem roundToBinary_dyadic (p : Nat) (emin : Int) (z k : Int)
    (hz : |z| < 2 ^ p) (hk : emin - ((p : Int) - 1) ≤ k) :
    roundToBinary p emin ((z : ℚ) * (2 : ℚ) ^ k) = (z : ℚ) * (2 : ℚ) ^ k := by
  have hk0 := two_zpow_pos k
  unfold roundToBinary
  rcases lt_trichotomy z 0 with hneg | hzero | hpos
  · have hq : (z : ℚ) * (2 : ℚ) ^ k < 0 :=
      mul_neg_of_neg_of_pos (by exact_mod_cast hneg) hk0
    rw [if_neg (not_lt.mpr (le_of_lt hq)), if_pos hq]
    obtain ⟨n, hn⟩ : ∃ n : Nat, z = -(n : Int) := ⟨z.natAbs, by omega⟩
    have hnlt : n < 2 ^ p := by
      have : |z| = (n : Int) := by rw [hn, abs_neg]; simp
      rw [this] at hz
      exact_mod_cast hz
    have := roundToBinary_positive_dyadic p emin n k (by omega) hnlt hk
    have hq2 : -((z : ℚ) * (2 : ℚ) ^ k) = (n : ℚ) * (2 : ℚ) ^ k := by
      rw [hn]; push_cast; ring
    rw [hq2, this, hn]
    push_cast
    ring
  · rw [hzero]
    simp
  · have hq : 0 < (z : ℚ) * (2 : ℚ) ^ k := mul_pos (by exact_mod_cast hpos) hk0
    rw [if_pos hq]
    obtain ⟨n, hn⟩ : ∃ n : Nat, z = (n : Int) := ⟨z.toNat, by omega⟩
    have hnlt : n < 2 ^ p := by
      have : |z| = (n : Int) := by rw [hn]; simp
      rw [this] at hz
      exact_mod_cast hz
    have := roundToBinary_positive_dyadic p emin n k (by omega) hnlt hk
    rw [hn]
    exact_mod_cast this

/-- The result of a rounding is a value of the format: an integer multiple `z * 2^k` of a
power of two not below the smallest spacing, with `|z| <= 2^p`. -/
theorem roundToBinary_positive_form (p : Nat) (emin : Int) (q : ℚ) (hq : 0 < q) :
    ∃ z k : Int, 0 ≤ z ∧ z ≤ 2 ^ p ∧ emin - ((p : Int) - 1) ≤ k ∧
      roundToBinary.positive p emin q = (z : ℚ) * (2 : ℚ) ^ k := by
  obtain ⟨_, hhi⟩ := log_two_bounds q hq
  have hu := two_zpow_pos (max (Int.log 2 q) emin - ((p : Int) - 1))
  refine ⟨roundHalfEven (q / (2 : ℚ) ^ (max (Int.log 2 q) emin - ((p : Int) - 1))),
    max (Int.log 2 q) emin - ((p : Int) - 1), ?_, ?_, ?_, rfl⟩
  · have h0 : roundHalfEven ((0 : Int) : ℚ) ≤ roundHalfEven
        (q / (2 : ℚ) ^ (max (Int.log 2 q) emin - ((p : Int) - 1))) :=
      roundHalfEven_mono (by simpa using le_of_lt (div_pos hq hu))
    rwa [roundHalfEven_intCast] at h0
  · have hsplit : (2 : ℚ) ^ (max (Int.log 2 q) emin + 1)
        = (((2 : Int) ^ p : Int) : ℚ)
          * (2 : ℚ) ^ (max (Int.log 2 q) emin - ((p : Int) - 1)) := by
      push_cast
      rw [← zpow_natCast, ← zpow_add₀ (by norm_num)]
      congr 1
      omega
    have hle : q ≤ (2 : ℚ) ^ (max (Int.log 2 q) emin + 1) :=
      le_trans (le_of_lt hhi)
        (zpow_le_zpow_right₀ (by norm_num) (by have := le_max_left (Int.log 2 q) emin; omega))
    have hdiv : q / (2 : ℚ) ^ (max (Int.log 2 q) emin - ((p : Int) - 1))
        ≤ (((2 : Int) ^ p : Int) : ℚ) := by
      rw [div_le_iff₀ hu, ← hsplit]
      exact hle
    have := roundHalfEven_mono hdiv
    rwa [roundHalfEven_intCast] at this
  · have := le_max_right (Int.log 2 q) emin
    omega

/-- Every `float` is a `double`: the conversion of a `float` to `double` is exact. -/
theorem roundDouble_castFloat (q : ℚ) : roundDouble (castFloat q) = castFloat q := by
  have key : ∀ r : ℚ, 0 < r →
      roundToBinary 53 (-1022) (roundToBinary.positive 24 (-126) r)
        = roundToBinary.positive 24 (-126) r := by
    intro r hr
    obtain ⟨z, k, hz0, hz, hk, hform⟩ := roundToBinary_positive_form 24 (-126) r hr
    rw [hform]
    apply roundToBinary_dyadic
    · rw [abs_of_nonneg hz0]
      have : (2 : Int) ^ 24 < 2 ^ 53 := by norm_num
      omega
    · push_cast at hk ⊢
      omega
  have hneg : ∀ r : ℚ, roundToBinary 53 (-1022) (-r) = -roundToBinary 53 (-1022) r := by
    intro r
    unfold roundToBinary
    rcases lt_trichotomy r 0 with h | h | h
    · rw [if_pos (by linarith : 0 < -r), if_neg (by linarith : ¬ 0 < r), if_pos h]
      simp
    · rw [h]; simp
    · rw [if_neg (by linarith : ¬ 0 < -r), if_pos (by linarith : -r < 0), if_pos h]
      simp
  unfold roundDouble castFloat
  unfold roundToBinary
  by_cases h1 : 0 < q
  · rw [if_pos h1]
    exact key q h1
  · rw [if_neg h1]
    by_cases h2 : q < 0
    · rw [if_pos h2]
      have := key (-q) (by linarith)
      have h3 := hneg (roundToBinary.positive 24 (-126) (-q))
      unfold roundToBinary at this h3
      rw [h3, this]
    · rw [if_neg h2]
      simp

/-- The numbers 0 and 1 are values of every format with at least one significant bit. -/
theorem roundToBinary_zero (p : Nat) (emin : Int) : roundToBinary p emin 0 = 0 := by
  simp [roundToBinary]

/-- A `double` in `[2^24, 2^24 + 1)` is cast to the `float` `2^24`: the spacing of the
`float` values there is 2. -/
theorem castFloat_above_two_pow_24 (f : ℚ) (h0 : 0 ≤ f) (h1 : f < 1) :
    castFloat (16777216 + f) = 16777216 := by
  have hq : (0 : ℚ) < 16777216 + f := by linarith
  have hlog : Int.log 2 (16777216 + f) = 24 := by
    apply log_two_eq
    · norm_num; linarith
    · norm_num; linarith
  unfold castFloat roundToBinary
  rw [if_pos hq]
  unfold roundToBinary.positive
  rw [hlog]
  have hu : max (24 : Int) (-126) - (((24 : Nat) : Int) - 1) = 1 := by norm_num
  rw [hu]
  have hfl : ⌊(16777216 + f) / (2 : ℚ) ^ (1 : Int)⌋ = 8388608 := by
    rw [Int.floor_eq_iff]
    norm_num
    constructor <;> linarith
  have hr : roundHalfEven ((16777216 + f) / (2 : ℚ) ^ (1 : Int)) = 8388608 := by
    unfold roundHalfEven
    rw [hfl]
    rw [if_pos]
    norm_num
    linarith
  rw [hr]
  norm_num

/-! ### The 1-D sampling loop -/

/-- With `isCrash` zero before the call, the loop breaks exactly when the call faulted. -/
theorem getD_zero_ne_zero_iff (out : ParseOut) :
    out.isCrash.getD 0 ≠ 0 ↔ out.faulted = true := by
  unfold ParseOut.faulted
  cases out.isCrash <;> simp

/-- The sampling loop of `Main.cpp` is the Cartesian loop of `Application::evaluate2D`. -/
theorem Main_loop_eq_cartesian (parse : Parse) (buffer : String) (width start : ℚ) :
    ∀ (n i : Nat) (st : Pass Vector2f),
      Main.execute.loop parse buffer width start n i st
        = Application.evaluate2D.loop parse buffer width start enumCoordinate.CARTESIAN n i st := by
  intro n
  induction n with
  | zero => intro i st; rfl
  | succ n ih =>
    intro i st
    simp only [Main.execute.loop, Application.evaluate2D.loop, if_true, ih]

/-- The loop up to and including a first fault `k` iterations ahead. Here `xs i` is the
`double` passed to `parse` for sample `i`. -/
theorem evaluate2D_loop_fault (parse : Parse) (buffer : String) (width start : ℚ)
    (coordinate : enumCoordinate) (xs : Nat → ℚ)
    (hxs : ∀ i : Nat, xs i =
      if coordinate = enumCoordinate.CARTESIAN then
        roundDouble (roundDouble (roundDouble ((i : ℚ) / (NUM_POINTS : ℚ)) * width) + start)
      else roundDouble (roundDouble ((i : ℚ) / (NUM_POINTS : ℚ))
        * roundDouble 6.283185307179586)) :
    ∀ (k n i : Nat) (st : Pass Vector2f), st.isCrash = 0 → k < n →
      (∀ j < k, (parse buffer [xs (i + j)]).faulted = false) →
      (parse buffer [xs (i + k)]).faulted = true →
      (Application.evaluate2D.loop parse buffer width start coordinate n i st).result
          = st.result ++ (List.range' i k).map
              (fun m => ({ x := castFloat (xs m),
                           y := castFloat (parse buffer [xs m]).ret } : Vector2f)) ∧
      (Application.evaluate2D.loop parse buffer width start coordinate n i st).calls
          = st.calls ++ (List.range' i (k + 1)).map (fun m => [xs m]) ∧
      (Application.evaluate2D.loop parse buffer width start coordinate n i st).isCrash ≠ 0 ∧
      (Application.evaluate2D.loop parse buffer width start coordinate n i st).errorBuffer
          = (parse buffer [xs (i + k)]).errorBuffer.getD
              (Application.evaluate2D.loop parse buffer width start coordinate k i st).errorBuffer := by
  intro k
  induction k with
  | zero =>
    intro n i st hst hn _ hk
    obtain ⟨n, rfl⟩ : ∃ m, n = m + 1 := ⟨n - 1, by omega⟩
    have hbreak : (parse buffer [xs i]).isCrash.getD st.isCrash ≠ 0 := by
      rw [hst]; exact (getD_zero_ne_zero_iff _).2 (by simpa using hk)
    have hx := hxs i
    simp only [Application.evaluate2D.loop, apply_ite roundDouble, ← hx, if_pos hbreak]
    simp [hbreak]
  | succ k ih =>
    intro n i st hst hn hbefore hk
    obtain ⟨n, rfl⟩ : ∃ m, n = m + 1 := ⟨n - 1, by omega⟩
    have h0 : (parse buffer [xs i]).faulted = false := by simpa using hbefore 0 (by omega)
    have hcont : ¬ ((parse buffer [xs i]).isCrash.getD st.isCrash ≠ 0) := by
      rw [hst, getD_zero_ne_zero_iff, h0]; simp
    have hzero : (parse buffer [xs i]).isCrash.getD st.isCrash = 0 := by
      simpa using hcont
    have hx := hxs i
    have step := ih n (i + 1)
      { result := st.result ++ [{ x := castFloat (xs i),
                                  y := castFloat (parse buffer [xs i]).ret }],
        isCrash := (parse buffer [xs i]).isCrash.getD st.isCrash,
        errorBuffer := (parse buffer [xs i]).errorBuffer.getD st.errorBuffer,
        mProgression := castFloat (roundDouble ((i : ℚ) / (NUM_POINTS : ℚ))),
        calls := st.calls ++ [[xs i]] }
      hzero (by omega)
      (fun j hj => by
        have := hbefore (j + 1) (by omega)
        rwa [show i + (j + 1) = i + 1 + j by omega] at this)
      (by rwa [show i + (k + 1) = i + 1 + k by omega] at hk)
    simp only [Application.evaluate2D.loop, ← hx, if_neg hcont]
    rw [show i + (k + 1) = i + 1 + k by omega]
    refine ⟨?_, ?_, step.2.2.1, step.2.2.2⟩
    · rw [step.1, List.range'_succ]; simp
    · rw [step.2.1, List.range'_succ (i) (k + 1)]; simp

/-- The loop over `n` iterations none of which faults. -/
theorem evaluate2D_loop_no_fault (parse : Parse) (buffer : String) (width start : ℚ)
    (coordinate : enumCoordinate) (xs : Nat → ℚ)
    (hxs : ∀ i : Nat, xs i =
      if coordinate = enumCoordinate.CARTESIAN then
        roundDouble (roundDouble (roundDouble ((i : ℚ) / (NUM_POINTS : ℚ)) * width) + start)
      else roundDouble (roundDouble ((i : ℚ) / (NUM_POINTS : ℚ))
        * roundDouble 6.283185307179586)) :
    ∀ (n i : Nat) (st : Pass Vector2f), st.isCrash = 0 →
      (∀ j < n, (parse buffer [xs (i + j)]).faulted = false) →
      (Application.evaluate2D.loop parse buffer width start coordinate n i st).result
          = st.result ++ (List.range' i n).map
              (fun m => ({ x := castFloat (xs m),
                           y := castFloat (parse buffer [xs m]).ret } : Vector2f)) ∧
      (Application.evaluate2D.loop parse buffer width start coordinate n i st).calls
          = st.calls ++ (List.range' i n).map (fun m => [xs m]) ∧
      (Application.evaluate2D.loop parse buffer width start coordinate n i st).isCrash = 0 := by
  intro n
  induction n with
  | zero =>
    intro i st hst _
    simp [Application.evaluate2D.loop, hst]
  | succ n ih =>
    intro i st hst hno
    have h0 : (parse buffer [xs i]).faulted = false := by simpa using hno 0 (by omega)
    have hcont : ¬ ((parse buffer [xs i]).isCrash.getD st.isCrash ≠ 0) := by
      rw [hst, getD_zero_ne_zero_iff, h0]; simp
    have hzero : (parse buffer [xs i]).isCrash.getD st.isCrash = 0 := by
      simpa using hcont
    have hx := hxs i
    have step := ih (i + 1)
      { result := st.result ++ [{ x := castFloat (xs i),
                                  y := castFloat (parse buffer [xs i]).ret }],
        isCrash := (parse buffer [xs i]).isCrash.getD st.isCrash,
        errorBuffer := (parse buffer [xs i]).errorBuffer.getD st.errorBuffer,
        mProgression := castFloat (roundDouble ((i : ℚ) / (NUM_POINTS : ℚ))),
        calls := st.calls ++ [[xs i]] }
      hzero
      (fun j hj => by
        have := hno (j + 1) (by omega)
        rwa [show i + (j + 1) = i + 1 + j by omega] at this)
    simp only [Application.evaluate2D.loop, ← hx, if_neg hcont]
    refine ⟨?_, ?_, step.2.2⟩
    · rw [step.1, List.range'_succ]; simp
    · rw [step.2.1, List.range'_succ]; simp

/-- The cast to `float` is monotone. -/
theorem castFloat_mono {a b : ℚ} (h : a ≤ b) : castFloat a ≤ castFloat b :=
  roundToBinary_mono 24 (by norm_num) (-126) h

/-- Rounding to `double` is monotone. -/
theorem roundDouble_mono {a b : ℚ} (h : a ≤ b) : roundDouble a ≤ roundDouble b :=
  roundToBinary_mono 53 (by norm_num) (-1022) h

/-- An integer multiple `z * 2^k` with `|z| < 2^24` and `k >= -149` is a `float`. -/
theorem castFloat_dyadic (z k : Int) (hz : |z| < 2 ^ 24) (hk : -149 ≤ k) :
    castFloat ((z : ℚ) * (2 : ℚ) ^ k) = (z : ℚ) * (2 : ℚ) ^ k :=
  roundToBinary_dyadic 24 (-126) z k hz (by push_cast; omega)

/-- An integer multiple `z * 2^k` with `|z| < 2^53` and `k >= -1074` is a `double`. -/
theorem roundDouble_dyadic (z k : Int) (hz : |z| < 2 ^ 53) (hk : -1074 ≤ k) :
    roundDouble ((z : ℚ) * (2 : ℚ) ^ k) = (z : ℚ) * (2 : ℚ) ^ k :=
  roundToBinary_dyadic 53 (-1022) z k hz (by push_cast; omega)

/-- The fraction `i / 1024` of sample `i` is computed exactly. -/
theorem roundDouble_fraction (i : Nat) (hi : i ≤ 1024) :
    roundDouble ((i : ℚ) / 1024) = (i : ℚ) / 1024 := by
  have h : (i : ℚ) / 1024 = ((i : Int) : ℚ) * (2 : ℚ) ^ (-10 : Int) := by
    norm_num
    ring
  rw [h]
  exact roundDouble_dyadic i (-10) (by rw [abs_of_nonneg (by omega)]; omega) (by norm_num)

/-- On the domain `[-10, 10)` the abscissa of sample `i` is computed exactly, and its cast
to `float` is exact. -/
theorem sample_exact (i : Nat) (hi : i ≤ 1024) :
    roundDouble (roundDouble (roundDouble ((i : ℚ) / 1024) * 20) + (-10))
      = (i : ℚ) / 1024 * 20 + (-10) ∧
    castFloat ((i : ℚ) / 1024 * 20 + (-10)) = (i : ℚ) / 1024 * 20 + (-10) := by
  have h2 : (i : ℚ) / 1024 * 20 = ((5 * (i : Int) : Int) : ℚ) * (2 : ℚ) ^ (-8 : Int) := by
    push_cast
    norm_num
    ring
  have h3 : (i : ℚ) / 1024 * 20 + (-10)
      = ((5 * (i : Int) - 2560 : Int) : ℚ) * (2 : ℚ) ^ (-8 : Int) := by
    push_cast
    norm_num
    ring
  have habs : |5 * (i : Int) - 2560| ≤ 2560 := by
    rw [abs_le]; constructor <;> omega
  constructor
  · rw [roundDouble_fraction i hi]
    have e2 : roundDouble ((i : ℚ) / 1024 * 20) = (i : ℚ) / 1024 * 20 := by
      rw [h2]
      exact roundDouble_dyadic _ (-8) (by rw [abs_of_nonneg (by omega)]; omega) (by norm_num)
    rw [e2, h3]
    exact roundDouble_dyadic _ (-8) (by omega) (by norm_num)
  · rw [h3]
    exact castFloat_dyadic _ (-8) (by omega) (by norm_num)

/-- C4: in a 1-D pass (`Application::evaluate2D` on the cleared vector, and the sampling
loop of `execute` in `Main.cpp`) whose first faulting sample has index `k`, the result is
exactly the `k` points of the samples `0..k-1` in sample order, and `parse` is called for
the samples `0..k` and for no other. Here `xs i` is the abscissa of sample `i` in the mode
of the pass, the `double` passed to `parse`, and `xm i` the one of `Main.cpp`; the point of
a sample is this abscissa and the value returned for it, both cast to `float`. -/
theorem one_d_pass_stops_at_first_fault (parse : Parse) (k : Nat) (hk : k < NUM_POINTS) :
    (∀ (garbage : String) (app : Application) (coordinate : enumCoordinate) (xs : Nat → ℚ),
      (∀ i : Nat, xs i =
        if coordinate = enumCoordinate.CARTESIAN then
          roundDouble (roundDouble (roundDouble ((i : ℚ) / 1024) * app.mGraphRect.width)
            + app.mGraphRect.left)
        else roundDouble (roundDouble ((i : ℚ) / 1024) * roundDouble 6.283185307179586)) →
      (∀ i < k, (parse app.mSourceCode [xs i]).faulted = false) →
      (parse app.mSourceCode [xs k]).faulted = true →
      (Application.evaluate2D parse garbage app [] coordinate).result
        = (List.range k).map
            (fun i => ({ x := castFloat (xs i),
                         y := castFloat (parse app.mSourceCode [xs i]).ret } : Vector2f)) ∧
      (Application.evaluate2D parse garbage app [] coordinate).result.length = k ∧
      (Application.evaluate2D parse garbage app [] coordinate).calls
        = (List.range (k + 1)).map (fun i => [xs i])) ∧
    (∀ (errorBuffer : String) (g : MainGlobals) (xm : Nat → ℚ),
      (∀ i : Nat, xm i =
        roundDouble (roundDouble (roundDouble ((i : ℚ) / 1024) * g.graphRect.width)
          + g.graphRect.left)) →
      (∀ i < k, (parse g.sourceCode [xm i]).faulted = false) →
      (parse g.sourceCode [xm k]).faulted = true →
      (Main.execute.iteration parse errorBuffer g).1.points
        = (List.range k).map
            (fun i => ({ x := castFloat (xm i),
                         y := castFloat (parse g.sourceCode [xm i]).ret } : Vector2f)) ∧
      (Main.execute.iteration parse errorBuffer g).1.points.length = k ∧
      (Main.execute.iteration parse errorBuffer g).2.2
        = (List.range (k + 1)).map (fun i => [xm i])) := by
  constructor
  · intro garbage app coordinate xs hxs hbefore hfault
    have hxs2 : ∀ i : Nat, xs i =
        if coordinate = enumCoordinate.CARTESIAN then
          roundDouble (roundDouble (roundDouble ((i : ℚ) / (NUM_POINTS : ℚ))
            * app.mGraphRect.width) + app.mGraphRect.left)
        else roundDouble (roundDouble ((i : ℚ) / (NUM_POINTS : ℚ))
          * roundDouble 6.283185307179586) := by
      intro i; rw [hxs i]; simp [NUM_POINTS]
    have h := evaluate2D_loop_fault parse app.mSourceCode app.mGraphRect.width
      app.mGraphRect.left coordinate xs hxs2 k NUM_POINTS 0
      { result := [], isCrash := 0, errorBuffer := garbage,
        mProgression := app.mProgression, calls := [] }
      rfl hk (by simpa using hbefore) (by simpa using hfault)
    have hres : (Application.evaluate2D parse garbage app [] coordinate).result
        = (List.range k).map
            (fun i => ({ x := castFloat (xs i),
                         y := castFloat (parse app.mSourceCode [xs i]).ret } : Vector2f)) := by
      simp only [Application.evaluate2D]
      rw [h.1, List.range_eq_range']; simp
    refine ⟨hres, ?_, ?_⟩
    · rw [hres]; simp
    · simp only [Application.evaluate2D]
      rw [h.2.1, List.range_eq_range']; simp
  · intro errorBuffer g xm hxm hbefore hfault
    have hxm2 : ∀ i : Nat, xm i =
        if enumCoordinate.CARTESIAN = enumCoordinate.CARTESIAN then
          roundDouble (roundDouble (roundDouble ((i : ℚ) / (NUM_POINTS : ℚ))
            * g.graphRect.width) + g.graphRect.left)
        else roundDouble (roundDouble ((i : ℚ) / (NUM_POINTS : ℚ))
          * roundDouble 6.283185307179586) := by
      intro i; rw [hxm i]; simp [NUM_POINTS]
    have h := evaluate2D_loop_fault parse g.sourceCode g.graphRect.width
      g.graphRect.left enumCoordinate.CARTESIAN xm hxm2 k NUM_POINTS 0
      { result := [], isCrash := 0, errorBuffer := errorBuffer,
        mProgression := g.progression, calls := [] }
      rfl hk (by simpa using hbefore) (by simpa using hfault)
    have hres : (Main.execute.iteration parse errorBuffer g).1.points
        = (List.range k).map
            (fun i => ({ x := castFloat (xm i),
                         y := castFloat (parse g.sourceCode [xm i]).ret } : Vector2f)) := by
      simp only [Main.execute.iteration, Main_loop_eq_cartesian]
      rw [h.1, List.range_eq_range']; simp
    refine ⟨hres, ?_, ?_⟩
    · rw [hres]; simp
    · simp only [Main.execute.iteration, Main_loop_eq_cartesian]
      rw [h.2.1, List.range_eq_range']; simp

/-- The abscissa of a sample left of the middle of the domain `[-10, 10)` is not zero. -/
theorem exParseInverse_before_middle (src : String) (i : Nat) (hi : i < 512) :
    (exParseInverse src
      [roundDouble (roundDouble (roundDouble ((i : ℚ) / 1024) * 20) + (-10))]).faulted
      = false := by
  rw [(sample_exact i (by omega)).1]
  have hq : (i : ℚ) < 512 := by exact_mod_cast hi
  have hne : (i : ℚ) / 1024 * 20 + (-10) ≠ 0 := by
    intro h
    linarith
  simp [exParseInverse, ParseOut.faulted, hne]

/-- C4 (witness): with the domain `[-10, 10)` and an interpreter faulting at `x = 0`, the
first faulting sample is number 512; the Cartesian pass of `Application::evaluate2D` and
the pass of `Main.cpp` yield 512 points and call `parse` 513 times. -/
theorem one_d_pass_stops_at_first_fault_witness :
    (Application.evaluate2D exParseInverse "" exApplication []
        enumCoordinate.CARTESIAN).result.length = 512 ∧
    (Application.evaluate2D exParseInverse "" exApplication []
        enumCoordinate.CARTESIAN).calls
      = (List.range 513).map (fun i : Nat => [(i : ℚ) / 1024 * 20 + (-10)]) ∧
    (Main.execute.iteration exParseInverse "" exMainGlobals).1.points.length = 512 ∧
    (Main.execute.iteration exParseInverse "" exMainGlobals).2.2
      = (List.range 513).map (fun i : Nat => [(i : ℚ) / 1024 * 20 + (-10)]) := by
  have hfault : (exParseInverse "double main(double x)\x7b return 1/x; \x7d"
      [roundDouble (roundDouble (roundDouble (((512 : Nat) : ℚ) / 1024) * 20) + (-10))]).faulted
      = true := by
    rw [(sample_exact 512 (by norm_num)).1]
    norm_num [exParseInverse, ParseOut.faulted]
  have h := (one_d_pass_stops_at_first_fault exParseInverse 512 (by decide)).1 ""
    exApplication enumCoordinate.CARTESIAN
    (fun i => roundDouble (roundDouble (roundDouble ((i : ℚ) / 1024) * 20) + (-10)))
    (fun i => by simp [exApplication])
    (fun i hi => exParseInverse_before_middle _ i hi)
    hfault
  have hm := (one_d_pass_stops_at_first_fault exParseInverse 512 (by decide)).2 ""
    exMainGlobals
    (fun i => roundDouble (roundDouble (roundDouble ((i : ℚ) / 1024) * 20) + (-10)))
    (fun i => by simp [exMainGlobals])
    (fun i hi => exParseInverse_before_middle _ i hi)
    hfault
  beta_reduce at h hm
  have hcalls : (List.range 513).map (fun i : Nat =>
        [roundDouble (roundDouble (roundDouble ((i : ℚ) / 1024) * 20) + (-10))])
      = (List.range 513).map (fun i : Nat => [(i : ℚ) / 1024 * 20 + (-10)]) := by
    apply List.map_congr_left
    intro i hi
    rw [List.mem_range] at hi
    rw [(sample_exact i (by omega)).1]
  exact ⟨h.2.1, h.2.2.trans hcalls, hm.2.1, hm.2.2.trans hcalls⟩

/-- The `double` nearest to the literal `6.283185307179586` of the polar branch, and its
place below `2π`. -/
theorem two_pi_literal :
    roundDouble 6.283185307179586 = 884279719003555 / 140737488355328 ∧
    (((884279719003555 / 140737488355328 : ℚ)) : ℝ) < 2 * Real.pi := by
  constructor
  · have hq : (0 : ℚ) < 6.283185307179586 := by norm_num
    have hlog : Int.log 2 (6.283185307179586 : ℚ) = 2 := by
      apply log_two_eq <;> norm_num
    unfold roundDouble roundToBinary
    rw [if_pos hq]
    unfold roundToBinary.positive
    rw [hlog]
    have hu : max (2 : Int) (-1022) - (((53 : Nat) : Int) - 1) = -50 := by norm_num
    rw [hu]
    have hfl : ⌊(6.283185307179586 : ℚ) / (2 : ℚ) ^ (-50 : Int)⌋ = 7074237752028439 := by
      rw [Int.floor_eq_iff]
      norm_num
    have hr : roundHalfEven ((6.283185307179586 : ℚ) / (2 : ℚ) ^ (-50 : Int))
        = 7074237752028440 := by
      unfold roundHalfEven
      rw [hfl, if_neg (by norm_num), if_pos (by norm_num)]
      norm_num
    rw [hr]
    norm_num
  · have h1 := Real.pi_gt_d20
    push_cast
    norm_num at h1 ⊢
    linarith

/-- The numbers 0 and 1 are `double` values, and 0 is a `float`. -/
theorem roundDouble_zero_one :
    roundDouble 0 = 0 ∧ roundDouble 1 = 1 ∧ castFloat 0 = 0 := by
  refine ⟨roundToBinary_zero 53 (-1022), ?_, roundToBinary_zero 24 (-126)⟩
  have := roundDouble_dyadic 1 0 (by norm_num) (by norm_num)
  simpa using this

/-- The Cartesian abscissas do not decrease with the sample, for a width that is not
negative. -/
theorem cartesian_abscissa_mono (width start : ℚ) (hw : 0 ≤ width) (i j : Nat) (hij : i ≤ j) :
    roundDouble (roundDouble (roundDouble ((i : ℚ) / 1024) * width) + start)
      ≤ roundDouble (roundDouble (roundDouble ((j : ℚ) / 1024) * width) + start) := by
  have hq : (i : ℚ) / 1024 ≤ (j : ℚ) / 1024 := by
    have : (i : ℚ) ≤ (j : ℚ) := by exact_mod_cast hij
    linarith
  have h1 := roundDouble_mono hq
  have h2 := roundDouble_mono (mul_le_mul_of_nonneg_right h1 hw)
  exact roundDouble_mono (by linarith)

/-- The Cartesian abscissas, for a `float` origin `start` and a `float` width that is not
negative, lie between `start` and the `double` sum `width + start`. -/
theorem cartesian_abscissa_bounds (width start : ℚ) (hw : 0 ≤ width)
    (hfs : castFloat start = start) (hfw : castFloat width = width) (i : Nat) (hi : i < 1024) :
    start ≤ roundDouble (roundDouble (roundDouble ((i : ℚ) / 1024) * width) + start) ∧
    roundDouble (roundDouble (roundDouble ((i : ℚ) / 1024) * width) + start)
      ≤ roundDouble (width + start) := by
  have hds : roundDouble start = start := by
    have := roundDouble_castFloat start
    rwa [hfs] at this
  have hdw : roundDouble width = width := by
    have := roundDouble_castFloat width
    rwa [hfw] at this
  have hfr := roundDouble_fraction i (by omega)
  have h0 : (0 : ℚ) ≤ (i : ℚ) / 1024 := by positivity
  have h1 : (i : ℚ) / 1024 ≤ 1 := by
    have : (i : ℚ) < 1024 := by exact_mod_cast hi
    linarith
  rw [hfr]
  have hp0 : 0 ≤ roundDouble ((i : ℚ) / 1024 * width) := by
    have := roundDouble_mono (mul_nonneg h0 hw)
    rwa [roundDouble_zero_one.1] at this
  have hp1 : roundDouble ((i : ℚ) / 1024 * width) ≤ width := by
    have := roundDouble_mono (show (i : ℚ) / 1024 * width ≤ width by
      have := mul_le_mul_of_nonneg_right h1 hw
      linarith)
    rwa [hdw] at this
  constructor
  · have := roundDouble_mono (show start ≤ roundDouble ((i : ℚ) / 1024 * width) + start by
      linarith)
    rwa [hds] at this
  · exact roundDouble_mono (by linarith)

/-- The polar abscissas do not decrease with the sample and lie between 0 and `201/32`,
which is a `float` below `2π`. -/
theorem polar_abscissa_bounds :
    (∀ i j : Nat, i ≤ j →
      roundDouble (roundDouble ((i : ℚ) / 1024) * roundDouble 6.283185307179586)
        ≤ roundDouble (roundDouble ((j : ℚ) / 1024) * roundDouble 6.283185307179586)) ∧
    (∀ i : Nat, i < 1024 →
      0 ≤ roundDouble (roundDouble ((i : ℚ) / 1024) * roundDouble 6.283185307179586) ∧
      roundDouble (roundDouble ((i : ℚ) / 1024) * roundDouble 6.283185307179586)
        ≤ 201 / 32) ∧
    castFloat (201 / 32) = 201 / 32 ∧
    (((201 / 32 : ℚ)) : ℝ) < 2 * Real.pi := by
  have hD := two_pi_literal.1
  have hD0 : (0 : ℚ) ≤ roundDouble 6.283185307179586 := by rw [hD]; norm_num
  have h201 : (201 / 32 : ℚ) = ((201 : Int) : ℚ) * (2 : ℚ) ^ (-5 : Int) := by norm_num
  refine ⟨?_, ?_, ?_, ?_⟩
  · intro i j hij
    have hq : (i : ℚ) / 1024 ≤ (j : ℚ) / 1024 := by
      have : (i : ℚ) ≤ (j : ℚ) := by exact_mod_cast hij
      linarith
    exact roundDouble_mono (mul_le_mul_of_nonneg_right (roundDouble_mono hq) hD0)
  · intro i hi
    have hfr := roundDouble_fraction i (by omega)
    have h0 : (0 : ℚ) ≤ (i : ℚ) / 1024 := by positivity
    have h1 : (i : ℚ) / 1024 ≤ 1023 / 1024 := by
      have : (i : ℚ) ≤ 1023 := by exact_mod_cast (by omega : i ≤ 1023)
      linarith
    rw [hfr, hD]
    constructor
    · have := roundDouble_mono (show (0 : ℚ) ≤ (i : ℚ) / 1024
          * (884279719003555 / 140737488355328) by positivity)
      rwa [roundDouble_zero_one.1] at this
    · have := roundDouble_mono (show (i : ℚ) / 1024 * (884279719003555 / 140737488355328)
          ≤ 201 / 32 by
        have := mul_le_mul_of_nonneg_right h1
          (show (0 : ℚ) ≤ 884279719003555 / 140737488355328 by norm_num)
        have h2 : (1023 / 1024 : ℚ) * (884279719003555 / 140737488355328) ≤ 201 / 32 := by
          norm_num
        linarith)
      have e : roundDouble (201 / 32) = 201 / 32 := by
        rw [h201]
        exact roundDouble_dyadic 201 (-5) (by norm_num) (by norm_num)
      rwa [e] at this
  · rw [h201]
    exact castFloat_dyadic 201 (-5) (by norm_num) (by norm_num)
  · have h1 := Real.pi_gt_d20
    push_cast
    norm_num at h1 ⊢
    linarith

/-- C10 (counterexample): on the domain with `left = 2^24` and `width = 1 > 0` and with the
default source, which never faults, the abscissas passed to `main` are
`x_i = left + (i/1024)*width`, computed exactly, but the 1024 points of the pass are all
equal to `(16777216, 16777216)`: the point of sample `i` is not `(x_i, main(x_i))`, and the
abscissas of the points do not increase strictly. -/
theorem one_d_pass_abscissas_collide :
    0 < exApplicationFar.mGraphRect.width ∧
    (Application.evaluate2D exParseIdentity "" exApplicationFar []
        enumCoordinate.CARTESIAN).calls
      = (List.range 1024).map (fun i : Nat => [(i : ℚ) / 1024 * 1 + 16777216]) ∧
    (∀ i : Nat, (exParseIdentity exApplicationFar.mSourceCode
        [(i : ℚ) / 1024 * 1 + 16777216]).faulted = false ∧
      (exParseIdentity exApplicationFar.mSourceCode
        [(i : ℚ) / 1024 * 1 + 16777216]).ret = (i : ℚ) / 1024 * 1 + 16777216) ∧
    (Application.evaluate2D exParseIdentity "" exApplicationFar []
        enumCoordinate.CARTESIAN).result
      = List.replicate 1024 { x := 16777216, y := 16777216 } := by
  have hx : ∀ i : Nat, i < 1024 →
      roundDouble (roundDouble (roundDouble ((i : ℚ) / (NUM_POINTS : ℚ))
          * exApplicationFar.mGraphRect.width) + exApplicationFar.mGraphRect.left)
        = (i : ℚ) / 1024 * 1 + 16777216 := by
    intro i hi
    have hn : ((NUM_POINTS : Nat) : ℚ) = 1024 := by norm_num [NUM_POINTS]
    simp only [exApplicationFar]
    rw [hn, roundDouble_fraction i (by omega), mul_one, roundDouble_fraction i (by omega)]
    have h : (i : ℚ) / 1024 + 16777216
        = (((i : Int) + 17179869184 : Int) : ℚ) * (2 : ℚ) ^ (-10 : Int) := by
      push_cast
      norm_num
      ring
    rw [h]
    exact roundDouble_dyadic _ (-10) (by rw [abs_of_nonneg (by omega)]; omega) (by norm_num)
  have hc : ∀ i : Nat, i < 1024 → castFloat ((i : ℚ) / 1024 * 1 + 16777216) = 16777216 := by
    intro i hi
    have hq : (i : ℚ) < 1024 := by exact_mod_cast hi
    have := castFloat_above_two_pow_24 ((i : ℚ) / 1024) (by positivity) (by linarith)
    rw [mul_one, add_comm]
    exact this
  have h := evaluate2D_loop_no_fault exParseIdentity exApplicationFar.mSourceCode
    exApplicationFar.mGraphRect.width exApplicationFar.mGraphRect.left
    enumCoordinate.CARTESIAN
    (fun i => roundDouble (roundDouble (roundDouble ((i : ℚ) / (NUM_POINTS : ℚ))
      * exApplicationFar.mGraphRect.width) + exApplicationFar.mGraphRect.left))
    (fun i => by simp) NUM_POINTS 0
    { result := [], isCrash := 0, errorBuffer := "",
      mProgression := exApplicationFar.mProgression, calls := [] }
    rfl (fun j _ => by simp [exParseIdentity, ParseOut.faulted])
  beta_reduce at h
  refine ⟨by norm_num [exApplicationFar], ?_, ?_, ?_⟩
  · simp only [Application.evaluate2D]
    rw [h.2.1, List.nil_append, ← List.range_eq_range']
    apply List.map_congr_left
    intro i hi
    rw [List.mem_range] at hi
    rw [hx i hi]
  · intro i
    simp [exParseIdentity, ParseOut.faulted]
  · simp only [Application.evaluate2D]
    rw [h.1, List.nil_append, ← List.range_eq_range']
    have hconst : (List.range NUM_POINTS).map (fun m : Nat =>
          ({ x := castFloat (roundDouble (roundDouble (roundDouble
                  ((m : ℚ) / (NUM_POINTS : ℚ)) * exApplicationFar.mGraphRect.width)
                  + exApplicationFar.mGraphRect.left)),
             y := castFloat (exParseIdentity exApplicationFar.mSourceCode
                  [roundDouble (roundDouble (roundDouble
                    ((m : ℚ) / (NUM_POINTS : ℚ)) * exApplicationFar.mGraphRect.width)
                    + exApplicationFar.mGraphRect.left)]).ret } : Vector2f))
        = (List.range NUM_POINTS).map (fun _ : Nat =>
          ({ x := 16777216, y := 16777216 } : Vector2f)) := by
      apply List.map_congr_left
      intro i hi
      rw [List.mem_range] at hi
      rw [hx i hi]
      simp only [exParseIdentity]
      rw [hc i hi]
    rw [hconst, List.map_const']
    simp [NUM_POINTS]

/-- C10 (amended): a 1-D pass without a faulting sample yields exactly `NUM_POINTS = 1024`
points in sample order, whatever the source text is. The entry function is called for the
`double` abscissas `x_i`, computed as `(i/1024)*width + left` in Cartesian mode and as
`(i/1024)*6.283185307179586` otherwise, each operation rounding to `double`; the `i`-th
point is `((float)x_i, (float)main(x_i))`. For a width that is not negative the abscissas of
the points do not decrease; in Cartesian mode, for `float` members `left` and `width`, they
lie between `left` and `(float)(width + left)`; in polar mode they lie in `[0, 2π)`. The
same holds for the sampling loop of `Main.cpp`, which is Cartesian. -/
theorem one_d_pass_complete (parse : Parse) :
    (∀ (garbage : String) (app : Application) (coordinate : enumCoordinate) (xs : Nat → ℚ),
      (∀ i : Nat, xs i =
        if coordinate = enumCoordinate.CARTESIAN then
          roundDouble (roundDouble (roundDouble ((i : ℚ) / 1024) * app.mGraphRect.width)
            + app.mGraphRect.left)
        else roundDouble (roundDouble ((i : ℚ) / 1024) * roundDouble 6.283185307179586)) →
      (∀ i < 1024, (parse app.mSourceCode [xs i]).faulted = false) →
      (Application.evaluate2D parse garbage app [] coordinate).result
        = (List.range 1024).map
            (fun i => ({ x := castFloat (xs i),
                         y := castFloat (parse app.mSourceCode [xs i]).ret } : Vector2f)) ∧
      (Application.evaluate2D parse garbage app [] coordinate).result.length = 1024 ∧
      (Application.evaluate2D parse garbage app [] coordinate).calls
        = (List.range 1024).map (fun i => [xs i]) ∧
      (coordinate = enumCoordinate.CARTESIAN → 0 ≤ app.mGraphRect.width →
        (∀ i j : Nat, i ≤ j → castFloat (xs i) ≤ castFloat (xs j)) ∧
        (castFloat app.mGraphRect.left = app.mGraphRect.left →
          castFloat app.mGraphRect.width = app.mGraphRect.width →
          ∀ i < 1024, app.mGraphRect.left ≤ castFloat (xs i) ∧
            castFloat (xs i)
              ≤ castFloat (roundDouble (app.mGraphRect.width + app.mGraphRect.left)))) ∧
      (coordinate ≠ enumCoordinate.CARTESIAN →
        (∀ i j : Nat, i ≤ j → castFloat (xs i) ≤ castFloat (xs j)) ∧
        ∀ i < 1024, 0 ≤ castFloat (xs i) ∧ ((castFloat (xs i) : ℚ) : ℝ) < 2 * Real.pi)) ∧
    (∀ (errorBuffer : String) (g : MainGlobals) (xm : Nat → ℚ),
      (∀ i : Nat, xm i =
        roundDouble (roundDouble (roundDouble ((i : ℚ) / 1024) * g.graphRect.width)
          + g.graphRect.left)) →
      (∀ i < 1024, (parse g.sourceCode [xm i]).faulted = false) →
      (Main.execute.iteration parse errorBuffer g).1.points
        = (List.range 1024).map
            (fun i => ({ x := castFloat (xm i),
                         y := castFloat (parse g.sourceCode [xm i]).ret } : Vector2f)) ∧
      (Main.execute.iteration parse errorBuffer g).1.points.length = 1024 ∧
      (Main.execute.iteration parse errorBuffer g).2.2
        = (List.range 1024).map (fun i => [xm i]) ∧
      (0 ≤ g.graphRect.width →
        (∀ i j : Nat, i ≤ j → castFloat (xm i) ≤ castFloat (xm j)) ∧
        (castFloat g.graphRect.left = g.graphRect.left →
          castFloat g.graphRect.width = g.graphRect.width →
          ∀ i < 1024, g.graphRect.left ≤ castFloat (xm i) ∧
            castFloat (xm i)
              ≤ castFloat (roundDouble (g.graphRect.width + g.graphRect.left))))) := by
  have cart : ∀ (left width : ℚ) (xs : Nat → ℚ),
      (∀ i : Nat, xs i =
        roundDouble (roundDouble (roundDouble ((i : ℚ) / 1024) * width) + left)) →
      0 ≤ width →
      (∀ i j : Nat, i ≤ j → castFloat (xs i) ≤ castFloat (xs j)) ∧
      (castFloat left = left → castFloat width = width →
        ∀ i < 1024, left ≤ castFloat (xs i) ∧
          castFloat (xs i) ≤ castFloat (roundDouble (width + left))) := by
    intro left width xs hxs hw
    refine ⟨fun i j hij => ?_, fun hfl hfw i hi => ?_⟩
    · rw [hxs i, hxs j]
      exact castFloat_mono (cartesian_abscissa_mono width left hw i j hij)
    · have hb := cartesian_abscissa_bounds width left hw hfl hfw i hi
      rw [hxs i]
      constructor
      · have := castFloat_mono hb.1
        rwa [hfl] at this
      · exact castFloat_mono hb.2
  constructor
  · intro garbage app coordinate xs hxs hno
    have hxs2 : ∀ i : Nat, xs i =
        if coordinate = enumCoordinate.CARTESIAN then
          roundDouble (roundDouble (roundDouble ((i : ℚ) / (NUM_POINTS : ℚ))
            * app.mGraphRect.width) + app.mGraphRect.left)
        else roundDouble (roundDouble ((i : ℚ) / (NUM_POINTS : ℚ))
          * roundDouble 6.283185307179586) := by
      intro i; rw [hxs i]; simp [NUM_POINTS]
    have h := evaluate2D_loop_no_fault parse app.mSourceCode app.mGraphRect.width
      app.mGraphRect.left coordinate xs hxs2 NUM_POINTS 0
      { result := [], isCrash := 0, errorBuffer := garbage,
        mProgression := app.mProgression, calls := [] }
      rfl (by simpa [NUM_POINTS] using hno)
    have hres : (Application.evaluate2D parse garbage app [] coordinate).result
        = (List.range 1024).map
            (fun i => ({ x := castFloat (xs i),
                         y := castFloat (parse app.mSourceCode [xs i]).ret } : Vector2f)) := by
      simp only [Application.evaluate2D]
      rw [h.1, List.range_eq_range']; simp [NUM_POINTS]
    refine ⟨hres, ?_, ?_, ?_, ?_⟩
    · rw [hres]; simp
    · simp only [Application.evaluate2D]
      rw [h.2.1, List.range_eq_range']; simp [NUM_POINTS]
    · intro hc hw
      exact cart _ _ xs (fun i => by rw [hxs i, if_pos hc]) hw
    · intro hc
      have hxp : ∀ i : Nat, xs i
          = roundDouble (roundDouble ((i : ℚ) / 1024) * roundDouble 6.283185307179586) :=
        fun i => by rw [hxs i, if_neg hc]
      obtain ⟨hmono, hbound, hfl, hpi⟩ := polar_abscissa_bounds
      refine ⟨fun i j hij => ?_, fun i hi => ?_⟩
      · rw [hxp i, hxp j]
        exact castFloat_mono (hmono i j hij)
      · rw [hxp i]
        have hb := hbound i hi
        have h0 := castFloat_mono hb.1
        rw [roundDouble_zero_one.2.2] at h0
        have h1 := castFloat_mono hb.2
        rw [hfl] at h1
        refine ⟨h0, ?_⟩
        have hcast : ((castFloat (roundDouble (roundDouble ((i : ℚ) / 1024)
            * roundDouble 6.283185307179586)) : ℚ) : ℝ) ≤ ((201 / 32 : ℚ) : ℝ) := by
          exact_mod_cast h1
        exact lt_of_le_of_lt hcast hpi
  · intro errorBuffer g xm hxm hno
    have hxm2 : ∀ i : Nat, xm i =
        if enumCoordinate.CARTESIAN = enumCoordinate.CARTESIAN then
          roundDouble (roundDouble (roundDouble ((i : ℚ) / (NUM_POINTS : ℚ))
            * g.graphRect.width) + g.graphRect.left)
        else roundDouble (roundDouble ((i : ℚ) / (NUM_POINTS : ℚ))
          * roundDouble 6.283185307179586) := by
      intro i; rw [hxm i]; simp [NUM_POINTS]
    have h := evaluate2D_loop_no_fault parse g.sourceCode g.graphRect.width
      g.graphRect.left enumCoordinate.CARTESIAN xm hxm2 NUM_POINTS 0
      { result := [], isCrash := 0, errorBuffer := errorBuffer,
        mProgression := g.progression, calls := [] }
      rfl (by simpa [NUM_POINTS] using hno)
    have hres : (Main.execute.iteration parse errorBuffer g).1.points
        = (List.range 1024).map
            (fun i => ({ x := castFloat (xm i),
                         y := castFloat (parse g.sourceCode [xm i]).ret } : Vector2f)) := by
      simp only [Main.execute.iteration, Main_loop_eq_cartesian]
      rw [h.1, List.range_eq_range']; simp [NUM_POINTS]
    refine ⟨hres, ?_, ?_, ?_⟩
    · rw [hres]; simp
    · simp only [Main.execute.iteration, Main_loop_eq_cartesian]
      rw [h.2.1, List.range_eq_range']; simp [NUM_POINTS]
    · intro hw
      exact cart _ _ xm hxm hw

/-- C10 (witness): the default source `double main(double x){ return x; }` on the domain
`[-10, 10)` never faults; the Cartesian pass yields 1024 points, and on this domain the
abscissas and their casts are exact: the `i`-th point is `(x_i, x_i)` with
`x_i = (i/1024)*20 - 10`. -/
theorem one_d_pass_complete_witness :
    (Application.evaluate2D exParseIdentity "" exApplication []
        enumCoordinate.CARTESIAN).result
      = (List.range 1024).map (fun i : Nat =>
          ({ x := (i : ℚ) / 1024 * 20 + (-10),
             y := (i : ℚ) / 1024 * 20 + (-10) } : Vector2f)) ∧
    (Application.evaluate2D exParseIdentity "" exApplication []
        enumCoordinate.CARTESIAN).result.length = 1024 := by
  have h := (one_d_pass_complete exParseIdentity).1 "" exApplication
    enumCoordinate.CARTESIAN
    (fun i => roundDouble (roundDouble (roundDouble ((i : ℚ) / 1024) * 20) + (-10)))
    (fun i => by simp [exApplication])
    (fun i _ => by simp [exParseIdentity, ParseOut.faulted])
  beta_reduce at h
  refine ⟨?_, h.2.1⟩
  rw [h.1]
  apply List.map_congr_left
  intro i hi
  rw [List.mem_range] at hi
  have he := sample_exact i (by omega)
  simp only [exParseIdentity]
  rw [he.1, he.2]


/-! ### The 2-D sampling loops -/

/-- A row only appends to the vector and to the calls. -/
theorem evaluate3D_inner_prefix (parse : Parse) (buffer : String) (width start : ℚ)
    (posX point0 : ℚ) :
    ∀ (n j : Nat) (st : Pass Vector3f),
      ∃ r c,
        (Application.evaluate3D.inner parse buffer width start posX point0 n j st).result
          = st.result ++ r ∧
        (Application.evaluate3D.inner parse buffer width start posX point0 n j st).calls
          = st.calls ++ c := by
  intro n
  induction n with
  | zero => intro j st; exact ⟨[], [], by simp [Application.evaluate3D.inner]⟩
  | succ n ih =>
    intro j st
    simp only [Application.evaluate3D.inner]
    split
    · exact ⟨[], [[point0, (j : ℚ) / (CURVE_WIDTH : ℚ) * width + start]], by simp⟩
    · obtain ⟨r, c, hr, hc⟩ := ih (j + 1)
        { result := st.result ++ [{ x := 1 * (posX - 0.5),
                                    y := 1 * ((j : ℚ) / (CURVE_WIDTH : ℚ) - 0.5),
                                    z := (parse buffer
                                      [point0, (j : ℚ) / (CURVE_WIDTH : ℚ) * width + start]).ret }],
          isCrash := (parse buffer
            [point0, (j : ℚ) / (CURVE_WIDTH : ℚ) * width + start]).isCrash.getD st.isCrash,
          errorBuffer := (parse buffer
            [point0, (j : ℚ) / (CURVE_WIDTH : ℚ) * width + start]).errorBuffer.getD st.errorBuffer,
          mProgression := st.mProgression,
          calls := st.calls ++ [[point0, (j : ℚ) / (CURVE_WIDTH : ℚ) * width + start]] }
      exact ⟨{ x := 1 * (posX - 0.5), y := 1 * ((j : ℚ) / (CURVE_WIDTH : ℚ) - 0.5),
               z := (parse buffer
                 [point0, (j : ℚ) / (CURVE_WIDTH : ℚ) * width + start]).ret } :: r,
             [point0, (j : ℚ) / (CURVE_WIDTH : ℚ) * width + start] :: c,
             by rw [hr]; simp, by rw [hc]; simp⟩

/-- A row with at least one iteration calls `parse` for its first cell, whatever `isCrash`
holds on entry. -/
theorem evaluate3D_inner_first_call (parse : Parse) (buffer : String) (width start : ℚ)
    (posX point0 : ℚ) (n j : Nat) (hn : 0 < n) (st : Pass Vector3f) :
    ∃ c,
      (Application.evaluate3D.inner parse buffer width start posX point0 n j st).calls
        = st.calls ++ [point0, (j : ℚ) / (CURVE_WIDTH : ℚ) * width + start] :: c := by
  obtain ⟨n, rfl⟩ : ∃ k, n = k + 1 := ⟨n - 1, by omega⟩
  simp only [Application.evaluate3D.inner]
  split
  · exact ⟨[], by simp⟩
  · obtain ⟨_, c, _, hc⟩ := evaluate3D_inner_prefix parse buffer width start posX point0 n (j + 1)
        { result := st.result ++ [{ x := 1 * (posX - 0.5),
                                    y := 1 * ((j : ℚ) / (CURVE_WIDTH : ℚ) - 0.5),
                                    z := (parse buffer
                                      [point0, (j : ℚ) / (CURVE_WIDTH : ℚ) * width + start]).ret }],
          isCrash := (parse buffer
            [point0, (j : ℚ) / (CURVE_WIDTH : ℚ) * width + start]).isCrash.getD st.isCrash,
          errorBuffer := (parse buffer
            [point0, (j : ℚ) / (CURVE_WIDTH : ℚ) * width + start]).errorBuffer.getD st.errorBuffer,
          mProgression := st.mProgression,
          calls := st.calls ++ [[point0, (j : ℚ) / (CURVE_WIDTH : ℚ) * width + start]] }
    exact ⟨c, by rw [hc]; simp⟩

/-- A row whose `n` cells all leave `isCrash` zero: it appends the `n` points. -/
theorem evaluate3D_inner_run (parse : Parse) (buffer : String) (width start : ℚ)
    (posX point0 : ℚ) (ys : Nat → ℚ)
    (hys : ∀ j : Nat, ys j = (j : ℚ) / (CURVE_WIDTH : ℚ) * width + start) :
    ∀ (n j : Nat) (st : Pass Vector3f),
      (∀ t < n, (parse buffer [point0, ys (j + t)]).isCrash.getD st.isCrash = 0 ∧
                (parse buffer [point0, ys (j + t)]).isCrash.getD 0 = 0) →
      (Application.evaluate3D.inner parse buffer width start posX point0 n j st).result
        = st.result ++ (List.range' j n).map (fun b : Nat =>
            ({ x := 1 * (posX - 0.5), y := 1 * ((b : ℚ) / (CURVE_WIDTH : ℚ) - 0.5),
               z := (parse buffer [point0, ys b]).ret } : Vector3f)) ∧
      (Application.evaluate3D.inner parse buffer width start posX point0 n j st).calls
        = st.calls ++ (List.range' j n).map (fun b : Nat => [point0, ys b]) ∧
      (Application.evaluate3D.inner parse buffer width start posX point0 n j st).isCrash
        = if n = 0 then st.isCrash else 0 := by
  intro n
  induction n with
  | zero => intro j st _; simp [Application.evaluate3D.inner]
  | succ n ih =>
    intro j st hok
    have h0 := hok 0 (by omega)
    rw [Nat.add_zero] at h0
    have hy := hys j
    have hcont : ¬ ((parse buffer [point0, ys j]).isCrash.getD st.isCrash ≠ 0) := by
      simp [h0.1]
    have step := ih (j + 1)
      { result := st.result ++ [{ x := 1 * (posX - 0.5),
                                  y := 1 * ((j : ℚ) / (CURVE_WIDTH : ℚ) - 0.5),
                                  z := (parse buffer [point0, ys j]).ret }],
        isCrash := (parse buffer [point0, ys j]).isCrash.getD st.isCrash,
        errorBuffer := (parse buffer [point0, ys j]).errorBuffer.getD st.errorBuffer,
        mProgression := st.mProgression,
        calls := st.calls ++ [[point0, ys j]] }
      (fun t ht => by
        have := hok (t + 1) (by omega)
        rw [show j + (t + 1) = j + 1 + t by omega] at this
        exact ⟨by simpa [h0.1] using this.2, this.2⟩)
    simp only [Application.evaluate3D.inner, ← hy, if_neg hcont]
    refine ⟨?_, ?_, ?_⟩
    · rw [step.1, List.range'_succ]; simp
    · rw [step.2.1, List.range'_succ]; simp
    · rw [step.2.2]
      by_cases hn : n = 0
      · simp [hn, h0.1]
      · simp [hn]

/-- A row entered with `isCrash` zero whose first fault is `t` cells ahead: it appends the
points of the cells before and breaks. -/
theorem evaluate3D_inner_fault (parse : Parse) (buffer : String) (width start : ℚ)
    (posX point0 : ℚ) (ys : Nat → ℚ)
    (hys : ∀ j : Nat, ys j = (j : ℚ) / (CURVE_WIDTH : ℚ) * width + start) :
    ∀ (t n j : Nat) (st : Pass Vector3f), st.isCrash = 0 → t < n →
      (∀ b < t, (parse buffer [point0, ys (j + b)]).faulted = false) →
      (parse buffer [point0, ys (j + t)]).faulted = true →
      (Application.evaluate3D.inner parse buffer width start posX point0 n j st).result
        = st.result ++ (List.range' j t).map (fun b : Nat =>
            ({ x := 1 * (posX - 0.5), y := 1 * ((b : ℚ) / (CURVE_WIDTH : ℚ) - 0.5),
               z := (parse buffer [point0, ys b]).ret } : Vector3f)) ∧
      (Application.evaluate3D.inner parse buffer width start posX point0 n j st).calls
        = st.calls ++ (List.range' j (t + 1)).map (fun b : Nat => [point0, ys b]) ∧
      (Application.evaluate3D.inner parse buffer width start posX point0 n j st).isCrash ≠ 0 ∧
      (Application.evaluate3D.inner parse buffer width start posX point0 n j st).errorBuffer
        = (parse buffer [point0, ys (j + t)]).errorBuffer.getD
            (Application.evaluate3D.inner parse buffer width start posX point0 t j st).errorBuffer := by
  intro t
  induction t with
  | zero =>
    intro n j st hst hn _ hk
    obtain ⟨n, rfl⟩ : ∃ m, n = m + 1 := ⟨n - 1, by omega⟩
    have hbreak : (parse buffer [point0, ys j]).isCrash.getD st.isCrash ≠ 0 := by
      rw [hst]; exact (getD_zero_ne_zero_iff _).2 (by simpa using hk)
    have hy := hys j
    simp only [Application.evaluate3D.inner, ← hy, if_pos hbreak]
    simp [hbreak]
  | succ t ih =>
    intro n j st hst hn hbefore hk
    obtain ⟨n, rfl⟩ : ∃ m, n = m + 1 := ⟨n - 1, by omega⟩
    have h0 : (parse buffer [point0, ys j]).faulted = false := by
      simpa using hbefore 0 (by omega)
    have hcont : ¬ ((parse buffer [point0, ys j]).isCrash.getD st.isCrash ≠ 0) := by
      rw [hst, getD_zero_ne_zero_iff, h0]; simp
    have hzero : (parse buffer [point0, ys j]).isCrash.getD st.isCrash = 0 := by
      simpa using hcont
    have hy := hys j
    have step := ih n (j + 1)
      { result := st.result ++ [{ x := 1 * (posX - 0.5),
                                  y := 1 * ((j : ℚ) / (CURVE_WIDTH : ℚ) - 0.5),
                                  z := (parse buffer [point0, ys j]).ret }],
        isCrash := (parse buffer [point0, ys j]).isCrash.getD st.isCrash,
        errorBuffer := (parse buffer [point0, ys j]).errorBuffer.getD st.errorBuffer,
        mProgression := st.mProgression,
        calls := st.calls ++ [[point0, ys j]] }
      hzero (by omega)
      (fun b hb => by
        have := hbefore (b + 1) (by omega)
        rwa [show j + (b + 1) = j + 1 + b by omega] at this)
      (by rwa [show j + (t + 1) = j + 1 + t by omega] at hk)
    simp only [Application.evaluate3D.inner, ← hy, if_neg hcont]
    rw [show j + (t + 1) = j + 1 + t by omega]
    refine ⟨?_, ?_, step.2.2.1, step.2.2.2⟩
    · rw [step.1, List.range'_succ]; simp
    · rw [step.2.1, List.range'_succ j (t + 1)]; simp


/-- The rows of the grid are run one after the other. -/
theorem evaluate3D_outer_split (parse : Parse) (buffer : String) (width start : ℚ) :
    ∀ (n m i : Nat) (st : Pass Vector3f),
      Application.evaluate3D.outer parse buffer width start (n + m) i st
        = Application.evaluate3D.outer parse buffer width start m (i + n)
            (Application.evaluate3D.outer parse buffer width start n i st) := by
  intro n
  induction n with
  | zero => intro m i st; simp [Application.evaluate3D.outer]
  | succ n ih =>
    intro m i st
    rw [show n + 1 + m = (n + m) + 1 by omega]
    simp only [Application.evaluate3D.outer]
    rw [ih, show i + 1 + n = i + (n + 1) by omega]

/-- The rows only append to the vector and to the calls. -/
theorem evaluate3D_outer_prefix (parse : Parse) (buffer : String) (width start : ℚ) :
    ∀ (n i : Nat) (st : Pass Vector3f),
      ∃ r c,
        (Application.evaluate3D.outer parse buffer width start n i st).result
          = st.result ++ r ∧
        (Application.evaluate3D.outer parse buffer width start n i st).calls
          = st.calls ++ c := by
  intro n
  induction n with
  | zero => intro i st; exact ⟨[], [], by simp [Application.evaluate3D.outer]⟩
  | succ n ih =>
    intro i st
    simp only [Application.evaluate3D.outer]
    obtain ⟨r1, c1, hr1, hc1⟩ := evaluate3D_inner_prefix parse buffer width start
      ((i : ℚ) / (CURVE_WIDTH : ℚ)) ((i : ℚ) / (CURVE_WIDTH : ℚ) * width + start)
      CURVE_WIDTH 0 { st with mProgression := (i : ℚ) / (CURVE_WIDTH : ℚ) }
    obtain ⟨r2, c2, hr2, hc2⟩ := ih (i + 1)
      (Application.evaluate3D.inner parse buffer width start
        ((i : ℚ) / (CURVE_WIDTH : ℚ)) ((i : ℚ) / (CURVE_WIDTH : ℚ) * width + start)
        CURVE_WIDTH 0 { st with mProgression := (i : ℚ) / (CURVE_WIDTH : ℚ) })
    exact ⟨r1 ++ r2, c1 ++ c2, by rw [hr2, hr1]; simp, by rw [hc2, hc1]; simp⟩

/-- Rows all of whose cells leave `isCrash` zero: every cell is sampled, in row-major
order. Here `gs a` is the grid coordinate number `a`, used on both axes. -/
theorem evaluate3D_outer_run (parse : Parse) (buffer : String) (width start : ℚ)
    (gs : Nat → ℚ) (hgs : ∀ a : Nat, gs a = (a : ℚ) / (CURVE_WIDTH : ℚ) * width + start) :
    ∀ (n i : Nat) (st : Pass Vector3f),
      (∀ a < n, ∀ b < CURVE_WIDTH,
        (parse buffer [gs (i + a), gs b]).isCrash.getD st.isCrash = 0 ∧
        (parse buffer [gs (i + a), gs b]).isCrash.getD 0 = 0) →
      (Application.evaluate3D.outer parse buffer width start n i st).result
        = st.result ++ (List.range' i n).flatMap (fun a : Nat =>
            (List.range' 0 CURVE_WIDTH).map (fun b : Nat =>
              ({ x := 1 * ((a : ℚ) / (CURVE_WIDTH : ℚ) - 0.5),
                 y := 1 * ((b : ℚ) / (CURVE_WIDTH : ℚ) - 0.5),
                 z := (parse buffer [gs a, gs b]).ret } : Vector3f))) ∧
      (Application.evaluate3D.outer parse buffer width start n i st).calls
        = st.calls ++ (List.range' i n).flatMap (fun a : Nat =>
            (List.range' 0 CURVE_WIDTH).map (fun b : Nat => [gs a, gs b])) ∧
      (Application.evaluate3D.outer parse buffer width start n i st).isCrash
        = if n = 0 then st.isCrash else 0 := by
  intro n
  induction n with
  | zero => intro i st _; simp [Application.evaluate3D.outer]
  | succ n ih =>
    intro i st hok
    have hrow := evaluate3D_inner_run parse buffer width start
      ((i : ℚ) / (CURVE_WIDTH : ℚ)) (gs i) gs hgs CURVE_WIDTH 0
      { st with mProgression := (i : ℚ) / (CURVE_WIDTH : ℚ) }
      (fun t ht => by
        have := hok 0 (by omega) t ht
        simpa using this)
    have hcw : ¬ (CURVE_WIDTH = 0) := by decide
    rw [if_neg hcw] at hrow
    have step := ih (i + 1)
      (Application.evaluate3D.inner parse buffer width start
        ((i : ℚ) / (CURVE_WIDTH : ℚ)) (gs i) CURVE_WIDTH 0
        { st with mProgression := (i : ℚ) / (CURVE_WIDTH : ℚ) })
      (fun a ha b hb => by
        have := hok (a + 1) (by omega) b hb
        rw [show i + (a + 1) = i + 1 + a by omega] at this
        rw [hrow.2.2]
        exact ⟨this.2, this.2⟩)
    have hg := hgs i
    simp only [Application.evaluate3D.outer, ← hg]
    refine ⟨?_, ?_, ?_⟩
    · rw [step.1, hrow.1, List.range'_succ]; simp
    · rw [step.2.1, hrow.2.1, List.range'_succ]; simp
    · rw [step.2.2, hrow.2.2]; simp


/-- A row is run whatever `isCrash` holds on entry: the rows from row `i` on start with
the call for cell `(i, 0)`. -/
theorem evaluate3D_outer_first_call (parse : Parse) (buffer : String) (width start : ℚ)
    (gs : Nat → ℚ) (hgs : ∀ a : Nat, gs a = (a : ℚ) / (CURVE_WIDTH : ℚ) * width + start)
    (m i : Nat) (st : Pass Vector3f) :
    ∃ r c,
      (Application.evaluate3D.outer parse buffer width start (m + 1) i st).result
        = st.result ++ r ∧
      (Application.evaluate3D.outer parse buffer width start (m + 1) i st).calls
        = st.calls ++ [gs i, gs 0] :: c := by
  obtain ⟨c1, h1⟩ := evaluate3D_inner_first_call parse buffer width start
    ((i : ℚ) / (CURVE_WIDTH : ℚ)) (gs i) CURVE_WIDTH 0 (by decide)
    { st with mProgression := (i : ℚ) / (CURVE_WIDTH : ℚ) }
  obtain ⟨r1, _, h1r, _⟩ := evaluate3D_inner_prefix parse buffer width start
    ((i : ℚ) / (CURVE_WIDTH : ℚ)) (gs i) CURVE_WIDTH 0
    { st with mProgression := (i : ℚ) / (CURVE_WIDTH : ℚ) }
  obtain ⟨r2, c2, h2r, h2c⟩ := evaluate3D_outer_prefix parse buffer width start m (i + 1)
    (Application.evaluate3D.inner parse buffer width start
      ((i : ℚ) / (CURVE_WIDTH : ℚ)) (gs i) CURVE_WIDTH 0
      { st with mProgression := (i : ℚ) / (CURVE_WIDTH : ℚ) })
  refine ⟨r1 ++ r2, c1 ++ c2, ?_, ?_⟩
  · simp only [Application.evaluate3D.outer, ← hgs]
    rw [h2r, h1r]; simp
  · simp only [Application.evaluate3D.outer, ← hgs]
    rw [h2c, h1, ← hgs 0]
    simp

/-- Row `i` entered with `isCrash` zero and first faulting at cell `j`, with a row left
below it: after the faulting call comes the call for cell `(i+1, 0)`. -/
theorem evaluate3D_outer_fault_row (parse : Parse) (buffer : String) (width start : ℚ)
    (gs : Nat → ℚ) (hgs : ∀ a : Nat, gs a = (a : ℚ) / (CURVE_WIDTH : ℚ) * width + start)
    (m i j : Nat) (st : Pass Vector3f) (hst : st.isCrash = 0) (hj : j < CURVE_WIDTH)
    (hrow : ∀ b < j, (parse buffer [gs i, gs b]).faulted = false)
    (hfault : (parse buffer [gs i, gs j]).faulted = true) :
    ∃ r c,
      (Application.evaluate3D.outer parse buffer width start (m + 1 + 1) i st).result
        = st.result ++ (List.range' 0 j).map (fun b : Nat =>
              ({ x := 1 * ((i : ℚ) / (CURVE_WIDTH : ℚ) - 0.5),
                 y := 1 * ((b : ℚ) / (CURVE_WIDTH : ℚ) - 0.5),
                 z := (parse buffer [gs i, gs b]).ret } : Vector3f)) ++ r ∧
      (Application.evaluate3D.outer parse buffer width start (m + 1 + 1) i st).calls
        = st.calls ++ (List.range' 0 j).map (fun b : Nat => [gs i, gs b])
          ++ [gs i, gs j] :: [gs (i + 1), gs 0] :: c := by
  have h2 := evaluate3D_inner_fault parse buffer width start
    ((i : ℚ) / (CURVE_WIDTH : ℚ)) (gs i) gs hgs j CURVE_WIDTH 0
    { st with mProgression := (i : ℚ) / (CURVE_WIDTH : ℚ) }
    hst hj (by simpa using hrow) (by simpa using hfault)
  obtain ⟨r, c, hr, hc⟩ := evaluate3D_outer_first_call parse buffer width start gs hgs m (i + 1)
    (Application.evaluate3D.inner parse buffer width start
      ((i : ℚ) / (CURVE_WIDTH : ℚ)) (gs i) CURVE_WIDTH 0
      { st with mProgression := (i : ℚ) / (CURVE_WIDTH : ℚ) })
  refine ⟨r, c, ?_, ?_⟩
  · rw [Application.evaluate3D.outer, ← hgs, hr, h2.1]
  · rw [Application.evaluate3D.outer, ← hgs, hc, h2.2.1, List.range'_concat]
    simp

/-- The 2-D pass whose first faulting cell in row-major order is `(i, j)`, with a row left
below it: the vector starts with the `i*32 + j` points of the cells before, and the call
right after the faulting one is the call for cell `(i+1, 0)`: the pass goes on. -/
theorem evaluate3D_goes_on_after_fault (parse : Parse) (garbage : String) (app : Application)
    (gs : Nat → ℚ)
    (hgs : ∀ a : Nat, gs a = (a : ℚ) / (CURVE_WIDTH : ℚ) * app.mGraphRect.width
      + app.mGraphRect.left)
    (i j : Nat) (hi : i + 1 < CURVE_WIDTH) (hj : j < CURVE_WIDTH)
    (hrows : ∀ a < i, ∀ b < CURVE_WIDTH, (parse app.mSourceCode [gs a, gs b]).faulted = false)
    (hrow : ∀ b < j, (parse app.mSourceCode [gs i, gs b]).faulted = false)
    (hfault : (parse app.mSourceCode [gs i, gs j]).faulted = true) :
    ∃ r c,
      (Application.evaluate3D parse garbage app []).result
        = ((List.range' 0 i).flatMap (fun a : Nat =>
            (List.range' 0 CURVE_WIDTH).map (fun b : Nat =>
              ({ x := 1 * ((a : ℚ) / (CURVE_WIDTH : ℚ) - 0.5),
                 y := 1 * ((b : ℚ) / (CURVE_WIDTH : ℚ) - 0.5),
                 z := (parse app.mSourceCode [gs a, gs b]).ret } : Vector3f)))
          ++ (List.range' 0 j).map (fun b : Nat =>
              ({ x := 1 * ((i : ℚ) / (CURVE_WIDTH : ℚ) - 0.5),
                 y := 1 * ((b : ℚ) / (CURVE_WIDTH : ℚ) - 0.5),
                 z := (parse app.mSourceCode [gs i, gs b]).ret } : Vector3f))) ++ r ∧
      (Application.evaluate3D parse garbage app []).calls
        = ((List.range' 0 i).flatMap (fun a : Nat =>
            (List.range' 0 CURVE_WIDTH).map (fun b : Nat => [gs a, gs b]))
          ++ (List.range' 0 j).map (fun b : Nat => [gs i, gs b]))
          ++ [gs i, gs j] :: [gs (i + 1), gs 0] :: c := by
  obtain ⟨m, hm⟩ : ∃ m, CURVE_WIDTH = i + (m + 1 + 1) := ⟨CURVE_WIDTH - i - 2, by omega⟩
  -- the rows before row `i`
  have h1 := evaluate3D_outer_run parse app.mSourceCode app.mGraphRect.width
    app.mGraphRect.left gs hgs i 0
    { result := [], isCrash := 0, errorBuffer := garbage,
      mProgression := app.mProgression, calls := [] }
    (fun a ha b hb => by
      have hf := hrows a ha b hb
      have : ¬ ((parse app.mSourceCode [gs a, gs b]).isCrash.getD 0 ≠ 0) := by
        rw [getD_zero_ne_zero_iff, hf]; simp
      rw [Nat.zero_add]
      exact ⟨by simpa using this, by simpa using this⟩)
  have h1c : (Application.evaluate3D.outer parse app.mSourceCode app.mGraphRect.width
      app.mGraphRect.left i 0
      { result := [], isCrash := 0, errorBuffer := garbage,
        mProgression := app.mProgression, calls := [] }).isCrash = 0 := by
    rw [h1.2.2]; simp
  -- row `i` and the rows below
  obtain ⟨r, c, hr, hc⟩ := evaluate3D_outer_fault_row parse app.mSourceCode
    app.mGraphRect.width app.mGraphRect.left gs hgs m i j
    (Application.evaluate3D.outer parse app.mSourceCode app.mGraphRect.width
      app.mGraphRect.left i 0
      { result := [], isCrash := 0, errorBuffer := garbage,
        mProgression := app.mProgression, calls := [] })
    h1c hj hrow hfault
  refine ⟨r, c, ?_, ?_⟩
  · simp only [Application.evaluate3D]
    conv_lhs => rw [hm]
    rw [evaluate3D_outer_split, Nat.zero_add, hr, h1.1]
    simp
  · simp only [Application.evaluate3D]
    conv_lhs => rw [hm]
    rw [evaluate3D_outer_split, Nat.zero_add, hc, h1.2.1]
    simp


/-- Rows of equal length: the length of the row-major list. -/
theorem length_flatMap_rows {α β : Type} (f : α → List β) (k : Nat)
    (h : ∀ a, (f a).length = k) : ∀ l : List α, (l.flatMap f).length = l.length * k := by
  intro l
  induction l with
  | nil => simp
  | cons a l ih => rw [List.flatMap_cons, List.length_append, ih, h a, List.length_cons]; ring

/-- The example interpreter stores `isCrash = 0` at every call with `x ≠ -10`. -/
theorem exParseSurface_ok (src : String) (x y : ℚ) (hx : x ≠ -10) :
    (exParseSurface src [x, y]).isCrash = some 0 := by
  simp [exParseSurface, hx]

/-- The 2-D pass of the example: cell `(0, 0)` faults and ends row 0, the rows 1 to 31 are
sampled in full, and `isCrash` is zero at the end. -/
theorem exSurface_pass (st : Pass Vector3f) (hst : st.isCrash = 0) :
    (Application.evaluate3D.outer exParseSurface exApplication3D.mSourceCode 20 (-10)
        CURVE_WIDTH 0 st).result
      = st.result ++ (List.range' 1 31).flatMap (fun a : Nat =>
          (List.range' 0 CURVE_WIDTH).map (fun b : Nat =>
            ({ x := 1 * ((a : ℚ) / (CURVE_WIDTH : ℚ) - 0.5),
               y := 1 * ((b : ℚ) / (CURVE_WIDTH : ℚ) - 0.5),
               z := (exParseSurface exApplication3D.mSourceCode
                 [(a : ℚ) / (CURVE_WIDTH : ℚ) * 20 + (-10),
                  (b : ℚ) / (CURVE_WIDTH : ℚ) * 20 + (-10)]).ret } : Vector3f))) ∧
    (Application.evaluate3D.outer exParseSurface exApplication3D.mSourceCode 20 (-10)
        CURVE_WIDTH 0 st).calls
      = st.calls ++ [-10, -10] :: (List.range' 1 31).flatMap (fun a : Nat =>
          (List.range' 0 CURVE_WIDTH).map (fun b : Nat =>
            [(a : ℚ) / (CURVE_WIDTH : ℚ) * 20 + (-10),
             (b : ℚ) / (CURVE_WIDTH : ℚ) * 20 + (-10)])) ∧
    (Application.evaluate3D.outer exParseSurface exApplication3D.mSourceCode 20 (-10)
        CURVE_WIDTH 0 st).isCrash = 0 := by
  have hgs : ∀ a : Nat, (fun a : Nat => (a : ℚ) / (CURVE_WIDTH : ℚ) * 20 + (-10)) a
      = (a : ℚ) / (CURVE_WIDTH : ℚ) * 20 + (-10) := fun _ => rfl
  -- row 0 faults at its first cell
  have h0 := evaluate3D_inner_fault exParseSurface exApplication3D.mSourceCode 20 (-10)
    (((0 : Nat) : ℚ) / (CURVE_WIDTH : ℚ)) (((0 : Nat) : ℚ) / (CURVE_WIDTH : ℚ) * 20 + (-10))
    _ hgs 0 CURVE_WIDTH 0
    { st with mProgression := ((0 : Nat) : ℚ) / (CURVE_WIDTH : ℚ) }
    hst (by decide) (fun b hb => absurd hb (Nat.not_lt_zero b))
    (by norm_num [exParseSurface, ParseOut.faulted, CURVE_WIDTH])
  -- the rows 1 to 31 do not fault and store `isCrash = 0`
  have h1 := evaluate3D_outer_run exParseSurface exApplication3D.mSourceCode 20 (-10)
    _ hgs 31 1
    (Application.evaluate3D.inner exParseSurface exApplication3D.mSourceCode 20 (-10)
      (((0 : Nat) : ℚ) / (CURVE_WIDTH : ℚ)) (((0 : Nat) : ℚ) / (CURVE_WIDTH : ℚ) * 20 + (-10))
      CURVE_WIDTH 0 { st with mProgression := ((0 : Nat) : ℚ) / (CURVE_WIDTH : ℚ) })
    (fun a _ b _ => by
      have hq : (0 : ℚ) ≤ (a : ℚ) := by exact_mod_cast Nat.zero_le a
      have hne : ((1 + a : Nat) : ℚ) / (CURVE_WIDTH : ℚ) * 20 + (-10) ≠ -10 := by
        intro h
        simp only [CURVE_WIDTH] at h
        push_cast at h
        linarith
      have hok := exParseSurface_ok exApplication3D.mSourceCode _
        ((b : ℚ) / (CURVE_WIDTH : ℚ) * 20 + (-10)) hne
      rw [hok]
      exact ⟨rfl, rfl⟩)
  beta_reduce at h0 h1
  have hsplit : Application.evaluate3D.outer exParseSurface exApplication3D.mSourceCode 20
      (-10) CURVE_WIDTH 0 st
      = Application.evaluate3D.outer exParseSurface exApplication3D.mSourceCode 20 (-10) 31 1
          (Application.evaluate3D.inner exParseSurface exApplication3D.mSourceCode 20 (-10)
            (((0 : Nat) : ℚ) / (CURVE_WIDTH : ℚ))
            (((0 : Nat) : ℚ) / (CURVE_WIDTH : ℚ) * 20 + (-10))
            CURVE_WIDTH 0 { st with mProgression := ((0 : Nat) : ℚ) / (CURVE_WIDTH : ℚ) }) :=
    evaluate3D_outer_split exParseSurface exApplication3D.mSourceCode 20 (-10) 1 31 0 st
  rw [hsplit]
  refine ⟨?_, ?_, ?_⟩
  · rw [h1.1, h0.1]; simp
  · rw [h1.2.1, h0.2.1]; simp [CURVE_WIDTH]
  · rw [h1.2.2]; simp


/-- C5 (the code at the failing input): on the domain `(-10, -10, 20, 20)` with an
interpreter that faults exactly at `x = -10`, the first cell `(0, 0)` faults, so the first
fault has `0*32 + 0 = 0` cells before it; yet `parse` is called 993 times, the second call
being the one for cell `(1, 0)`, and the vector ends with the 992 points of the rows
1 to 31. -/
theorem evaluate3D_continues_after_first_fault :
    (exParseSurface exApplication3D.mSourceCode [-10, -10]).faulted = true ∧
    (Application.evaluate3D exParseSurface "" exApplication3D []).calls.take 2
      = [[-10, -10], [-75 / 8, -10]] ∧
    (Application.evaluate3D exParseSurface "" exApplication3D []).calls.length = 993 ∧
    (Application.evaluate3D exParseSurface "" exApplication3D []).result.length = 992 := by
  have h := exSurface_pass
    { result := [], isCrash := 0, errorBuffer := "",
      mProgression := exApplication3D.mProgression, calls := [] } rfl
  have hc : (Application.evaluate3D exParseSurface "" exApplication3D []).calls
      = [-10, -10] :: (List.range' 1 31).flatMap (fun a : Nat =>
        (List.range' 0 CURVE_WIDTH).map (fun b : Nat =>
          [(a : ℚ) / (CURVE_WIDTH : ℚ) * 20 + (-10),
           (b : ℚ) / (CURVE_WIDTH : ℚ) * 20 + (-10)])) := h.2.1
  have hr : (Application.evaluate3D exParseSurface "" exApplication3D []).result
      = (List.range' 1 31).flatMap (fun a : Nat =>
        (List.range' 0 CURVE_WIDTH).map (fun b : Nat =>
          ({ x := 1 * ((a : ℚ) / (CURVE_WIDTH : ℚ) - 0.5),
             y := 1 * ((b : ℚ) / (CURVE_WIDTH : ℚ) - 0.5),
             z := (exParseSurface exApplication3D.mSourceCode
               [(a : ℚ) / (CURVE_WIDTH : ℚ) * 20 + (-10),
                (b : ℚ) / (CURVE_WIDTH : ℚ) * 20 + (-10)]).ret } : Vector3f))) := h.1
  refine ⟨by norm_num [exParseSurface, ParseOut.faulted], ?_, ?_, ?_⟩
  · rw [hc, List.range'_succ, List.flatMap_cons, show CURVE_WIDTH = 31 + 1 from rfl,
      List.range'_succ, List.map_cons]
    norm_num
  · rw [hc, List.length_cons,
      length_flatMap_rows _ 32 (fun a => by simp [CURVE_WIDTH])]
    simp
  · rw [hr, length_flatMap_rows _ 32 (fun a => by simp [CURVE_WIDTH])]
    simp

/-- The diagnostic of a 1-D pass (`Application::evaluate2D` and the loop of `Main.cpp`): it
is empty when no sample faults, and it is the error text stored by the first faulting call
otherwise. -/
theorem one_d_pass_diagnostic (parse : Parse) :
    (∀ (garbage : String) (app : Application) (coordinate : enumCoordinate) (xs : Nat → ℚ),
      (∀ i : Nat, xs i =
        if coordinate = enumCoordinate.CARTESIAN then
          roundDouble (roundDouble (roundDouble ((i : ℚ) / 1024) * app.mGraphRect.width)
            + app.mGraphRect.left)
        else roundDouble (roundDouble ((i : ℚ) / 1024) * roundDouble 6.283185307179586)) →
      ((∀ i < 1024, (parse app.mSourceCode [xs i]).faulted = false) →
        (Application.evaluate2D parse garbage app [] coordinate).app.mErrorMessage = "") ∧
      (∀ (k : Nat) (text : String), k < 1024 →
        (∀ i < k, (parse app.mSourceCode [xs i]).faulted = false) →
        (parse app.mSourceCode [xs k]).faulted = true →
        (parse app.mSourceCode [xs k]).errorBuffer = some text →
        (Application.evaluate2D parse garbage app [] coordinate).app.mErrorMessage = text)) ∧
    (∀ (errorBuffer : String) (g : MainGlobals) (xm : Nat → ℚ),
      (∀ i : Nat, xm i =
        roundDouble (roundDouble (roundDouble ((i : ℚ) / 1024) * g.graphRect.width)
          + g.graphRect.left)) →
      ((∀ i < 1024, (parse g.sourceCode [xm i]).faulted = false) →
        (Main.execute.iteration parse errorBuffer g).1.errorMessage = "") ∧
      (∀ (k : Nat) (text : String), k < 1024 →
        (∀ i < k, (parse g.sourceCode [xm i]).faulted = false) →
        (parse g.sourceCode [xm k]).faulted = true →
        (parse g.sourceCode [xm k]).errorBuffer = some text →
        (Main.execute.iteration parse errorBuffer g).1.errorMessage = text)) := by
  constructor
  · intro garbage app coordinate xs hxs
    have hxs2 : ∀ i : Nat, xs i =
        if coordinate = enumCoordinate.CARTESIAN then
          roundDouble (roundDouble (roundDouble ((i : ℚ) / (NUM_POINTS : ℚ))
            * app.mGraphRect.width) + app.mGraphRect.left)
        else roundDouble (roundDouble ((i : ℚ) / (NUM_POINTS : ℚ))
          * roundDouble 6.283185307179586) := by
      intro i; rw [hxs i]; simp [NUM_POINTS]
    constructor
    · intro hno
      have h := evaluate2D_loop_no_fault parse app.mSourceCode app.mGraphRect.width
        app.mGraphRect.left coordinate xs hxs2 NUM_POINTS 0
        { result := [], isCrash := 0, errorBuffer := garbage,
          mProgression := app.mProgression, calls := [] }
        rfl (by simpa [NUM_POINTS] using hno)
      simp only [Application.evaluate2D]
      rw [h.2.2]; simp
    · intro k text hk hbefore hfault htext
      have h := evaluate2D_loop_fault parse app.mSourceCode app.mGraphRect.width
        app.mGraphRect.left coordinate xs hxs2 k NUM_POINTS 0
        { result := [], isCrash := 0, errorBuffer := garbage,
          mProgression := app.mProgression, calls := [] }
        rfl (by simpa [NUM_POINTS] using hk) (by simpa using hbefore) (by simpa using hfault)
      simp only [Application.evaluate2D]
      rw [if_pos h.2.2.1, h.2.2.2, Nat.zero_add, htext]; rfl
  · intro errorBuffer g xm hxm
    have hxm2 : ∀ i : Nat, xm i =
        if enumCoordinate.CARTESIAN = enumCoordinate.CARTESIAN then
          roundDouble (roundDouble (roundDouble ((i : ℚ) / (NUM_POINTS : ℚ))
            * g.graphRect.width) + g.graphRect.left)
        else roundDouble (roundDouble ((i : ℚ) / (NUM_POINTS : ℚ))
          * roundDouble 6.283185307179586) := by
      intro i; rw [hxm i]; simp [NUM_POINTS]
    constructor
    · intro hno
      have h := evaluate2D_loop_no_fault parse g.sourceCode g.graphRect.width
        g.graphRect.left enumCoordinate.CARTESIAN xm hxm2 NUM_POINTS 0
        { result := [], isCrash := 0, errorBuffer := errorBuffer,
          mProgression := g.progression, calls := [] }
        rfl (by simpa [NUM_POINTS] using hno)
      simp only [Main.execute.iteration, Main_loop_eq_cartesian]
      rw [h.2.2]; simp
    · intro k text hk hbefore hfault htext
      have h := evaluate2D_loop_fault parse g.sourceCode g.graphRect.width
        g.graphRect.left enumCoordinate.CARTESIAN xm hxm2 k NUM_POINTS 0
        { result := [], isCrash := 0, errorBuffer := errorBuffer,
          mProgression := g.progression, calls := [] }
        rfl (by simpa [NUM_POINTS] using hk) (by simpa using hbefore) (by simpa using hfault)
      simp only [Main.execute.iteration, Main_loop_eq_cartesian]
      rw [if_pos h.2.2.1, h.2.2.2, Nat.zero_add, htext]; rfl

/-- With an interpreter that stores `isCrash = 0` at each evaluation that succeeds: in the
same 2-D pass the evaluation of cell `(0, 0)` faults with the error text "division by
zero", and the diagnostic left by the pass is the empty string. -/
theorem evaluate3D_clears_diagnostic :
    (exParseSurface exApplication3D.mSourceCode [-10, -10]).faulted = true ∧
    (exParseSurface exApplication3D.mSourceCode [-10, -10]).errorBuffer
      = some "division by zero" ∧
    (Application.evaluate3D exParseSurface "" exApplication3D []).calls.head?
      = some [-10, -10] ∧
    (Application.evaluate3D exParseSurface "" exApplication3D []).app.mErrorMessage = "" := by
  have h := exSurface_pass
    { result := [], isCrash := 0, errorBuffer := "",
      mProgression := exApplication3D.mProgression, calls := [] } rfl
  have hc : (Application.evaluate3D exParseSurface "" exApplication3D []).calls
      = [-10, -10] :: (List.range' 1 31).flatMap (fun a : Nat =>
        (List.range' 0 CURVE_WIDTH).map (fun b : Nat =>
          [(a : ℚ) / (CURVE_WIDTH : ℚ) * 20 + (-10),
           (b : ℚ) / (CURVE_WIDTH : ℚ) * 20 + (-10)])) := h.2.1
  have hz : (Application.evaluate3D.outer exParseSurface exApplication3D.mSourceCode
      exApplication3D.mGraphRect.width exApplication3D.mGraphRect.left CURVE_WIDTH 0
      { result := [], isCrash := 0, errorBuffer := "",
        mProgression := exApplication3D.mProgression, calls := [] }).isCrash = 0 := h.2.2
  refine ⟨by norm_num [exParseSurface, ParseOut.faulted],
    by norm_num [exParseSurface], ?_, ?_⟩
  · rw [hc]; rfl
  · simp only [Application.evaluate3D]
    rw [hz]
    rfl


/-- A row of the 2-D pass whose first cell faults ends there, whatever `isCrash` was before:
`isCrash` is not zero after the row and the error buffer is the one left by that call. -/
theorem evaluate3D_inner_first_cell_fault (parse : Parse) (buffer : String)
    (width start : ℚ) (posX point0 : ℚ) (g0 : ℚ)
    (hg0 : g0 = ((0 : Nat) : ℚ) / (CURVE_WIDTH : ℚ) * width + start)
    (n : Nat) (st : Pass Vector3f)
    (hfault : (parse buffer [point0, g0]).faulted = true) :
    (Application.evaluate3D.inner parse buffer width start posX point0 (n + 1) 0 st).isCrash
      ≠ 0 ∧
    (Application.evaluate3D.inner parse buffer width start posX point0 (n + 1) 0 st).errorBuffer
      = (parse buffer [point0, g0]).errorBuffer.getD st.errorBuffer := by
  have hbreak : (parse buffer [point0, g0]).isCrash.getD st.isCrash ≠ 0 := by
    unfold ParseOut.faulted at hfault
    cases hc : (parse buffer [point0, g0]).isCrash with
    | none => rw [hc] at hfault; simp at hfault
    | some c => rw [hc] at hfault; simpa using hfault
  simp only [Application.evaluate3D.inner, ← hg0, if_pos hbreak]
  exact ⟨hbreak, trivial⟩

/-- The diagnostic of a 2-D pass is decided by its last row: for every interpreter, when
the evaluation of the first cell of row 31 faults and stores an error text, that text is
the diagnostic of the pass, whatever happened in the rows before. -/
theorem evaluate3D_diagnostic_of_last_row (parse : Parse) (garbage : String)
    (app : Application) (gs : Nat → ℚ)
    (hgs : ∀ a : Nat, gs a = (a : ℚ) / (CURVE_WIDTH : ℚ) * app.mGraphRect.width
      + app.mGraphRect.left)
    (text : String)
    (hfault : (parse app.mSourceCode [gs 31, gs 0]).faulted = true)
    (htext : (parse app.mSourceCode [gs 31, gs 0]).errorBuffer = some text) :
    (Application.evaluate3D parse garbage app []).app.mErrorMessage = text := by
  have hlast : ∀ st : Pass Vector3f,
      (Application.evaluate3D.outer parse app.mSourceCode app.mGraphRect.width
        app.mGraphRect.left 1 31 st).isCrash ≠ 0 ∧
      (Application.evaluate3D.outer parse app.mSourceCode app.mGraphRect.width
        app.mGraphRect.left 1 31 st).errorBuffer = text := by
    intro st
    have h := evaluate3D_inner_first_cell_fault parse app.mSourceCode app.mGraphRect.width
      app.mGraphRect.left (((31 : Nat) : ℚ) / (CURVE_WIDTH : ℚ)) (gs 31) (gs 0) (hgs 0) 31
      { st with mProgression := ((31 : Nat) : ℚ) / (CURVE_WIDTH : ℚ) } hfault
    rw [htext] at h
    simp only [Application.evaluate3D.outer, ← hgs]
    exact ⟨h.1, h.2⟩
  have hsplit := evaluate3D_outer_split parse app.mSourceCode app.mGraphRect.width
    app.mGraphRect.left 31 1 0
    { result := [], isCrash := 0, errorBuffer := garbage,
      mProgression := app.mProgression, calls := [] }
  rw [Nat.zero_add] at hsplit
  have h := hlast (Application.evaluate3D.outer parse app.mSourceCode app.mGraphRect.width
    app.mGraphRect.left 31 0
    { result := [], isCrash := 0, errorBuffer := garbage,
      mProgression := app.mProgression, calls := [] })
  rw [← hsplit] at h
  simp only [Application.evaluate3D]
  rw [show CURVE_WIDTH = 31 + 1 from rfl, if_pos h.1, h.2]

/-- C9 (the code at the failing input): in the 2-D pass on the domain `(-10, -10, 20, 20)`
with an interpreter that leaves `isCrash` alone when an evaluation succeeds, the first
evaluation, the one of cell `(0, 0)`, faults with the error text "division by zero"; the
pass goes on, the evaluation of cell `(31, 0)` faults with another text, and the diagnostic
left by the pass is that text, not the one of the first fault. -/
theorem evaluate3D_diagnostic_of_later_fault :
    (exParseTwoFaults exApplicationTwoFaults.mSourceCode [-10, -10]).faulted = true ∧
    (exParseTwoFaults exApplicationTwoFaults.mSourceCode [-10, -10]).errorBuffer
      = some "division by zero" ∧
    (Application.evaluate3D exParseTwoFaults "" exApplicationTwoFaults []).calls.head?
      = some [-10, -10] ∧
    (Application.evaluate3D exParseTwoFaults "" exApplicationTwoFaults []).app.mErrorMessage
      = "'foo' is undefined" ∧
    "'foo' is undefined" ≠ "division by zero" := by
  have hgs : ∀ a : Nat, (fun a : Nat => (a : ℚ) / (CURVE_WIDTH : ℚ) * 20 + (-10)) a
      = (a : ℚ) / (CURVE_WIDTH : ℚ) * exApplicationTwoFaults.mGraphRect.width
        + exApplicationTwoFaults.mGraphRect.left := fun _ => rfl
  refine ⟨by norm_num [exParseTwoFaults, ParseOut.faulted],
    by norm_num [exParseTwoFaults], ?_, ?_, by decide⟩
  · obtain ⟨r, c, _, hc⟩ := evaluate3D_outer_first_call exParseTwoFaults
      exApplicationTwoFaults.mSourceCode exApplicationTwoFaults.mGraphRect.width
      exApplicationTwoFaults.mGraphRect.left _ hgs 31 0
      { result := [], isCrash := 0, errorBuffer := "",
        mProgression := exApplicationTwoFaults.mProgression, calls := [] }
    simp only [Application.evaluate3D]
    rw [show CURVE_WIDTH = 31 + 1 from rfl, hc]
    norm_num [CURVE_WIDTH]
  · apply evaluate3D_diagnostic_of_last_row exParseTwoFaults "" exApplicationTwoFaults _ hgs
    · norm_num [exParseTwoFaults, ParseOut.faulted, CURVE_WIDTH]
    · norm_num [exParseTwoFaults, CURVE_WIDTH]

/-- The calls of a row are calls for cells of that row. -/
theorem evaluate3D_inner_calls_mem (parse : Parse) (buffer : String) (width start : ℚ)
    (posX point0 : ℚ) :
    ∀ (n j : Nat) (st : Pass Vector3f) (a : List ℚ),
      a ∈ (Application.evaluate3D.inner parse buffer width start posX point0 n j st).calls →
      a ∈ st.calls ∨
        ∃ t < n, a = [point0, ((j + t : Nat) : ℚ) / (CURVE_WIDTH : ℚ) * width + start] := by
  intro n
  induction n with
  | zero => intro j st a ha; exact Or.inl (by simpa [Application.evaluate3D.inner] using ha)
  | succ n ih =>
    intro j st a ha
    simp only [Application.evaluate3D.inner] at ha
    split at ha
    · rcases List.mem_append.1 ha with h | h
      · exact Or.inl h
      · exact Or.inr ⟨0, by omega, by simpa using h⟩
    · rcases ih (j + 1) _ a ha with h | ⟨t, ht, h⟩
      · rcases List.mem_append.1 h with h | h
        · exact Or.inl h
        · exact Or.inr ⟨0, by omega, by simpa using h⟩
      · exact Or.inr ⟨t + 1, by omega, by rw [h, show j + 1 + t = j + (t + 1) by omega]⟩

/-- The calls of the rows are calls for cells of the grid, with both arguments taken from
the same origin and extent. -/
theorem evaluate3D_outer_calls_mem (parse : Parse) (buffer : String) (width start : ℚ) :
    ∀ (n i : Nat) (st : Pass Vector3f) (a : List ℚ),
      a ∈ (Application.evaluate3D.outer parse buffer width start n i st).calls →
      a ∈ st.calls ∨
        ∃ s < n, ∃ b < CURVE_WIDTH,
          a = [((i + s : Nat) : ℚ) / (CURVE_WIDTH : ℚ) * width + start,
               (b : ℚ) / (CURVE_WIDTH : ℚ) * width + start] := by
  intro n
  induction n with
  | zero => intro i st a ha; exact Or.inl (by simpa [Application.evaluate3D.outer] using ha)
  | succ n ih =>
    intro i st a ha
    simp only [Application.evaluate3D.outer] at ha
    rcases ih (i + 1) _ a ha with h | ⟨s, hs, b, hb, h⟩
    · rcases evaluate3D_inner_calls_mem parse buffer width start _ _ _ _ _ a h with h | ⟨t, ht, h⟩
      · exact Or.inl h
      · exact Or.inr ⟨0, by omega, t, ht, by simpa using h⟩
    · exact Or.inr ⟨s + 1, by omega, b, hb, by rw [h, show i + 1 + s = i + (s + 1) by omega]⟩

/-- C6 (counterexample): on the rectangle `left = -10`, `top = 0`, `width = 20`,
`height = 10` the first two calls of the 2-D pass, those for the cells `(0, 0)` and
`(0, 1)`, have the second arguments `-10` and `-10 + (1/32)*20`, taken from `left` and
`width`, and not `top + (0/32)*height = 0` and `top + (1/32)*height = 5/16`. -/
theorem evaluate3D_y_from_left_and_width :
    (Application.evaluate3D exParsePlane "" exApplicationWide []).calls.take 2
      = [[-10, -10], [-10, -75 / 8]] ∧
    (Application.evaluate3D exParsePlane "" exApplicationWide []).calls.take 2
      ≠ [[exApplicationWide.mGraphRect.left + 0 / 32 * exApplicationWide.mGraphRect.width,
          exApplicationWide.mGraphRect.top + 0 / 32 * exApplicationWide.mGraphRect.height],
         [exApplicationWide.mGraphRect.left + 0 / 32 * exApplicationWide.mGraphRect.width,
          exApplicationWide.mGraphRect.top + 1 / 32 * exApplicationWide.mGraphRect.height]] := by
  have hgs : ∀ a : Nat, (fun a : Nat => (a : ℚ) / (CURVE_WIDTH : ℚ) * 20 + (-10)) a
      = (a : ℚ) / (CURVE_WIDTH : ℚ) * 20 + (-10) := fun _ => rfl
  have h := evaluate3D_outer_run exParsePlane exApplicationWide.mSourceCode
    exApplicationWide.mGraphRect.width exApplicationWide.mGraphRect.left _ hgs
    CURVE_WIDTH 0
    { result := [], isCrash := 0, errorBuffer := "",
      mProgression := exApplicationWide.mProgression, calls := [] }
    (fun a _ b _ => ⟨rfl, rfl⟩)
  beta_reduce at h
  have hc : (Application.evaluate3D exParsePlane "" exApplicationWide []).calls
      = (List.range' 0 CURVE_WIDTH).flatMap (fun a : Nat =>
          (List.range' 0 CURVE_WIDTH).map (fun b : Nat =>
            [(a : ℚ) / (CURVE_WIDTH : ℚ) * 20 + (-10),
             (b : ℚ) / (CURVE_WIDTH : ℚ) * 20 + (-10)])) := by
    simp only [Application.evaluate3D]
    rw [h.2.1]
    rfl
  have htake : (Application.evaluate3D exParsePlane "" exApplicationWide []).calls.take 2
      = [[-10, -10], [-10, -75 / 8]] := by
    rw [hc, show CURVE_WIDTH = 30 + 1 + 1 from rfl, List.range'_succ, List.flatMap_cons,
      List.range'_succ, List.map_cons, List.range'_succ, List.map_cons]
    norm_num
  refine ⟨htake, ?_⟩
  rw [htake]
  norm_num [exApplicationWide]


/-- C6 (amended): in a 2-D pass both arguments of every call of `main` come from the
horizontal origin and extent of the snapshotted rectangle: each call has the arguments
`x = left + (i/32)*width`, `y = left + (j/32)*width` of some cell `(i, j)`, `0 ≤ i, j < 32`;
`top` and `height` have no influence on the calls; and when no cell faults the calls are
exactly those of the cells `(i, j)` in row-major order. -/
theorem evaluate3D_arguments (parse : Parse) (garbage : String) (app : Application) :
    (∀ a ∈ (Application.evaluate3D parse garbage app []).calls,
      ∃ i : Nat, i < 32 ∧ ∃ j : Nat, j < 32 ∧
        a = [app.mGraphRect.left + (i : ℚ) / 32 * app.mGraphRect.width,
             app.mGraphRect.left + (j : ℚ) / 32 * app.mGraphRect.width]) ∧
    (∀ top height : ℚ,
      (Application.evaluate3D parse garbage
          { app with mGraphRect := { app.mGraphRect with top := top, height := height } }
          []).calls
        = (Application.evaluate3D parse garbage app []).calls) ∧
    ((∀ i : Nat, i < 32 → ∀ j : Nat, j < 32 →
        (parse app.mSourceCode
          [app.mGraphRect.left + (i : ℚ) / 32 * app.mGraphRect.width,
           app.mGraphRect.left + (j : ℚ) / 32 * app.mGraphRect.width]).faulted = false) →
      (Application.evaluate3D parse garbage app []).calls
        = (List.range 32).flatMap (fun i : Nat =>
            (List.range 32).map (fun j : Nat =>
              [app.mGraphRect.left + (i : ℚ) / 32 * app.mGraphRect.width,
               app.mGraphRect.left + (j : ℚ) / 32 * app.mGraphRect.width]))) := by
  refine ⟨?_, fun _ _ => rfl, ?_⟩
  · intro a ha
    simp only [Application.evaluate3D] at ha
    rcases evaluate3D_outer_calls_mem parse _ _ _ _ _ _ a ha with h | ⟨s, hs, b, hb, h⟩
    · simp at h
    · refine ⟨0 + s, by simpa [CURVE_WIDTH] using hs, b, hb, ?_⟩
      rw [h]
      simp [CURVE_WIDTH, add_comm]
  · intro hno
    have hgs : ∀ a : Nat,
        (fun a : Nat => app.mGraphRect.left + (a : ℚ) / 32 * app.mGraphRect.width) a
          = (a : ℚ) / (CURVE_WIDTH : ℚ) * app.mGraphRect.width + app.mGraphRect.left := by
      intro a; simp [CURVE_WIDTH, add_comm]
    have h := evaluate3D_outer_run parse app.mSourceCode app.mGraphRect.width
      app.mGraphRect.left _ hgs CURVE_WIDTH 0
      { result := [], isCrash := 0, errorBuffer := garbage,
        mProgression := app.mProgression, calls := [] }
      (fun a ha b hb => by
        have hf := hno (0 + a) (by simpa [CURVE_WIDTH] using ha) b hb
        have : ¬ ((parse app.mSourceCode
            [app.mGraphRect.left + ((0 + a : Nat) : ℚ) / 32 * app.mGraphRect.width,
             app.mGraphRect.left + (b : ℚ) / 32 * app.mGraphRect.width]).isCrash.getD 0 ≠ 0) := by
          rw [getD_zero_ne_zero_iff, hf]; simp
        exact ⟨by simpa using this, by simpa using this⟩)
    beta_reduce at h
    simp only [Application.evaluate3D]
    rw [h.2.1, List.range_eq_range']
    rfl

/-- C6 (witness): on the rectangle `left = -10`, `top = 0`, `width = 20`, `height = 10`
with a source that never faults, the calls are those of the 32 x 32 cells with
`x = -10 + (i/32)*20` and `y = -10 + (j/32)*20`. -/
theorem evaluate3D_arguments_witness :
    (Application.evaluate3D exParsePlane "" exApplicationWide []).calls
      = (List.range 32).flatMap (fun i : Nat =>
          (List.range 32).map (fun j : Nat =>
            [exApplicationWide.mGraphRect.left
               + (i : ℚ) / 32 * exApplicationWide.mGraphRect.width,
             exApplicationWide.mGraphRect.left
               + (j : ℚ) / 32 * exApplicationWide.mGraphRect.width])) :=
  (evaluate3D_arguments exParsePlane "" exApplicationWide).2.2 (fun _ _ _ _ => rfl)


/-! ### One iteration of `Application::execute` -/

/-- C8 (the code at the failing input): the mode is Cartesian when the iteration snapshots
it; before the evaluation the user selects "3D curve". The pass then runs the new
two-parameter source with one argument, which faults at once. At the test of the publish
step the live mode differs from the snapshotted one and the point sets are left as they
are, but the diagnostic, empty before the evaluation, is now the error text of this stale
pass. -/
theorem execute_diagnostic_of_stale_pass :
    exApplication.mCoordinate
      ≠ (Application.execute.iteration exParseSurface "" exSelect3D id id
          { result2D := [], result3D := [] } exApplication).2.mCoordinate ∧
    (exSelect3D exApplication).mErrorMessage = "" ∧
    (Application.execute.iteration exParseSurface "" exSelect3D id id
        { result2D := [], result3D := [] } exApplication).2.mErrorMessage
      = "main function must take a double as a param" ∧
    (Application.execute.iteration exParseSurface "" exSelect3D id id
        { result2D := [], result3D := [] } exApplication).2.mPoints2D
      = (exSelect3D exApplication).mPoints2D ∧
    (Application.execute.iteration exParseSurface "" exSelect3D id id
        { result2D := [], result3D := [] } exApplication).2.mPoints3D
      = (exSelect3D exApplication).mPoints3D := by
  decide

/-- The diagnostic is not under the publish guard. The publish step never changes
`mErrorMessage`; the evaluation step stores the diagnostic of the pass whatever the live
mode and the previous diagnostic are; so after the iteration the diagnostic is the one the
evaluation stored (as the other thread left it), whether or not the modes agree. In
`Main.cpp` the diagnostic is assigned in the locked publish region, with the points. -/
theorem execute_diagnostic_not_guarded (parse : Parse) (garbage : String)
    (gui1 gui2 gui3 : Application → Application) (w : Worker) (app : Application) :
    (∀ (coordinate : enumCoordinate) (a : Application),
      (∀ b : Application, (gui3 b).mErrorMessage = b.mErrorMessage) →
      (Application.execute.publish coordinate gui3 w a).mErrorMessage = a.mErrorMessage) ∧
    (∀ (coordinate live : enumCoordinate) (previous : String),
      (Application.execute.evaluate parse garbage coordinate w
          { app with mCoordinate := live, mErrorMessage := previous }).2.mErrorMessage
        = (Application.execute.evaluate parse garbage coordinate w app).2.mErrorMessage) ∧
    ((∀ b : Application, (gui3 b).mErrorMessage = b.mErrorMessage) →
      (Application.execute.iteration parse garbage gui1 gui2 gui3 w app).2.mErrorMessage
        = (gui2 (Application.execute.evaluate parse garbage app.mCoordinate w
            (gui1 app)).2).mErrorMessage) := by
  have hpub : ∀ (coordinate : enumCoordinate) (w0 : Worker) (a : Application),
      (∀ b : Application, (gui3 b).mErrorMessage = b.mErrorMessage) →
      (Application.execute.publish coordinate gui3 w0 a).mErrorMessage = a.mErrorMessage := by
    intro coordinate w0 a hgui
    simp only [Application.execute.publish, Application.execute.assign]
    split
    · split <;> exact hgui a
    · rfl
  refine ⟨fun coordinate a hgui => hpub coordinate w a hgui, ?_, ?_⟩
  · intro coordinate live previous
    simp only [Application.execute.evaluate]
    split <;> rfl
  · intro hgui
    simp only [Application.execute.iteration]
    exact hpub _ _ _ hgui


/-! ### The complete 2-D pass -/

/-- C13: under every setting of `NO_HASH_INCLUDE` and `BUILTIN_MINI_STDLIB`,
`PicocInitialise` first zeroes the session (`memset`) and ends with `DebugInit`; each call
is made once; `HeapInit` comes before `TableInit` and `VariableInit`, these before
`LexInit`, `LexInit` before `TypeInit`, and `TypeInit` before every library registration
that is made (`LibraryInit`, `PlatformLibraryInit`, and with `BUILTIN_MINI_STDLIB` also
`LibraryAdd` and `CLibraryInit`). -/
theorem PicocInitialise_order (NO_HASH_INCLUDE BUILTIN_MINI_STDLIB : Bool) (StackSize : Int) :
    (PicocInitialise NO_HASH_INCLUDE BUILTIN_MINI_STDLIB StackSize).head?
      = some InitCall.memset ∧
    (PicocInitialise NO_HASH_INCLUDE BUILTIN_MINI_STDLIB StackSize).getLast?
      = some InitCall.DebugInit ∧
    (PicocInitialise NO_HASH_INCLUDE BUILTIN_MINI_STDLIB StackSize).Nodup ∧
    (∀ c ∈ [InitCall.HeapInit StackSize, InitCall.TableInit, InitCall.VariableInit,
            InitCall.LexInit, InitCall.TypeInit, InitCall.LibraryInit,
            InitCall.PlatformLibraryInit],
      c ∈ PicocInitialise NO_HASH_INCLUDE BUILTIN_MINI_STDLIB StackSize) ∧
    (BUILTIN_MINI_STDLIB = true →
      InitCall.LibraryAdd "c library"
        ∈ PicocInitialise NO_HASH_INCLUDE BUILTIN_MINI_STDLIB StackSize ∧
      InitCall.CLibraryInit
        ∈ PicocInitialise NO_HASH_INCLUDE BUILTIN_MINI_STDLIB StackSize) ∧
    (∀ p ∈ [(InitCall.HeapInit StackSize, InitCall.TableInit),
            (InitCall.HeapInit StackSize, InitCall.VariableInit),
            (InitCall.TableInit, InitCall.LexInit),
            (InitCall.VariableInit, InitCall.LexInit),
            (InitCall.LexInit, InitCall.TypeInit),
            (InitCall.TypeInit, InitCall.LibraryInit),
            (InitCall.TypeInit, InitCall.LibraryAdd "c library"),
            (InitCall.TypeInit, InitCall.CLibraryInit),
            (InitCall.TypeInit, InitCall.PlatformLibraryInit)],
      (PicocInitialise NO_HASH_INCLUDE BUILTIN_MINI_STDLIB StackSize).indexOf p.1
        < (PicocInitialise NO_HASH_INCLUDE BUILTIN_MINI_STDLIB StackSize).indexOf p.2) := by
  cases NO_HASH_INCLUDE <;> cases BUILTIN_MINI_STDLIB <;>
    simp [PicocInitialise, List.indexOf_cons, cond_eq_if, beq_iff_eq]

/-! ### Temporary names -/

/-- The digit characters below `'9'` compare so, and incrementing one gives the next. -/
theorem digitChar_succ (d : Nat) (h : d < 9) :
    Char.ofNat (48 + d) < '9' ∧
    Char.ofNat ((Char.ofNat (48 + d)).toNat + 1) = Char.ofNat (48 + (d + 1)) := by
  interval_cases d <;> exact ⟨by decide, by decide⟩

/-- Distinct digits have distinct characters. -/
theorem digitChar_inj (a b : Nat) (ha : a < 10) (hb : b < 10)
    (h : Char.ofNat (48 + a) = Char.ofNat (48 + b)) : a = b := by
  interval_cases a <;> interval_cases b <;> first | rfl | (exact absurd h (by decide))

/-- One call on a buffer with four digits at the positions 2 to 5: the digits are
incremented as a decimal number, with wrap-around, and nothing else changes. -/
theorem PlatformMakeTempName_loop_digits (c0 c1 : Char) (rest : List Char)
    (d2 d3 d4 d5 : Nat) (h2 : d2 < 10) (h3 : d3 < 10) (h4 : d4 < 10) (h5 : d5 < 10) :
    ∃ e2 e3 e4 e5 : Nat, e2 < 10 ∧ e3 < 10 ∧ e4 < 10 ∧ e5 < 10 ∧
      e2 * 1000 + e3 * 100 + e4 * 10 + e5
        = (d2 * 1000 + d3 * 100 + d4 * 10 + d5 + 1) % 10000 ∧
      PlatformMakeTempName.loop
          (c0 :: c1 :: Char.ofNat (48 + d2) :: Char.ofNat (48 + d3) :: Char.ofNat (48 + d4)
            :: Char.ofNat (48 + d5) :: rest) 5
        = c0 :: c1 :: Char.ofNat (48 + e2) :: Char.ofNat (48 + e3) :: Char.ofNat (48 + e4)
            :: Char.ofNat (48 + e5) :: rest := by
  have h9 : ¬ (Char.ofNat (48 + 9) < '9') := by decide
  have h0 : Char.ofNat (48 + 0) = '0' := by decide
  by_cases k5 : d5 < 9
  · refine ⟨d2, d3, d4, d5 + 1, h2, h3, h4, by omega, by omega, ?_⟩
    simp [PlatformMakeTempName.loop, (digitChar_succ d5 k5).1, (digitChar_succ d5 k5).2]
  · obtain rfl : d5 = 9 := by omega
    by_cases k4 : d4 < 9
    · refine ⟨d2, d3, d4 + 1, 0, h2, h3, by omega, by omega, by omega, ?_⟩
      simp [PlatformMakeTempName.loop, h9, h0, (digitChar_succ d4 k4).1,
        (digitChar_succ d4 k4).2]
    · obtain rfl : d4 = 9 := by omega
      by_cases k3 : d3 < 9
      · refine ⟨d2, d3 + 1, 0, 0, h2, by omega, by omega, by omega, by omega, ?_⟩
        simp [PlatformMakeTempName.loop, h9, h0, (digitChar_succ d3 k3).1,
          (digitChar_succ d3 k3).2]
      · obtain rfl : d3 = 9 := by omega
        by_cases k2 : d2 < 9
        · refine ⟨d2 + 1, 0, 0, 0, by omega, by omega, by omega, by omega, by omega, ?_⟩
          simp [PlatformMakeTempName.loop, h9, h0, (digitChar_succ d2 k2).1,
            (digitChar_succ d2 k2).2]
        · obtain rfl : d2 = 9 := by omega
          refine ⟨0, 0, 0, 0, by omega, by omega, by omega, by omega, by omega, ?_⟩
          simp [PlatformMakeTempName.loop, h9, h0]


/-- One call on the buffer that holds `XX` and the four digits of a number: the buffer then
holds the digits of the next number modulo 10000, and its name is returned. Here `B n` is
the buffer for the number `n`. -/
theorem PlatformMakeTempName_step (pc : Picoc) (B : Nat → List Char)
    (hB : ∀ n : Nat, B n = ['X', 'X', Char.ofNat (48 + n / 1000), Char.ofNat (48 + n / 100 % 10),
      Char.ofNat (48 + n / 10 % 10), Char.ofNat (48 + n % 10)])
    (m : Nat) :
    PlatformMakeTempName pc (B (m % 10000))
      = (B ((m + 1) % 10000), String.mk (B ((m + 1) % 10000))) := by
  have hm : m % 10000 < 10000 := Nat.mod_lt _ (by norm_num)
  obtain ⟨e2, e3, e4, e5, k2, k3, k4, k5, hval, hloop⟩ :=
    PlatformMakeTempName_loop_digits 'X' 'X' [] (m % 10000 / 1000) (m % 10000 / 100 % 10)
      (m % 10000 / 10 % 10) (m % 10000 % 10) (by omega) (by omega) (by omega) (by omega)
  have hn : (m + 1) % 10000 = e2 * 1000 + e3 * 100 + e4 * 10 + e5 := by omega
  have q2 : (m + 1) % 10000 / 1000 = e2 := by omega
  have q3 : (m + 1) % 10000 / 100 % 10 = e3 := by omega
  have q4 : (m + 1) % 10000 / 10 % 10 = e4 := by omega
  have q5 : (m + 1) % 10000 % 10 = e5 := by omega
  simp only [PlatformMakeTempName, TableStrRegister]
  rw [hB (m % 10000), hloop, hB ((m + 1) % 10000), q2, q3, q4, q5]

/-- The names returned by successive calls, started on the buffer of a number. -/
theorem PlatformMakeTempName_successive (pc : Picoc) (B : Nat → List Char)
    (hB : ∀ n : Nat, B n = ['X', 'X', Char.ofNat (48 + n / 1000), Char.ofNat (48 + n / 100 % 10),
      Char.ofNat (48 + n / 10 % 10), Char.ofNat (48 + n % 10)]) :
    ∀ (k m : Nat), PlatformMakeTempName.successive pc k (B (m % 10000))
      = (List.range' (m + 1) k).map (fun t => String.mk (B (t % 10000))) := by
  intro k
  induction k with
  | zero => intro m; rfl
  | succ k ih =>
    intro m
    simp only [PlatformMakeTempName.successive, PlatformMakeTempName_step pc B hB m]
    rw [ih (m + 1), List.range'_succ, List.map_cons]

/-- The buffers of two numbers below 10000 differ when the numbers do. -/
theorem tempName_buffer_inj (a b : Nat) (ha : a < 10000) (hb : b < 10000)
    (h : ['X', 'X', Char.ofNat (48 + a / 1000), Char.ofNat (48 + a / 100 % 10),
          Char.ofNat (48 + a / 10 % 10), Char.ofNat (48 + a % 10)]
       = ['X', 'X', Char.ofNat (48 + b / 1000), Char.ofNat (48 + b / 100 % 10),
          Char.ofNat (48 + b / 10 % 10), Char.ofNat (48 + b % 10)]) : a = b := by
  simp only [List.cons.injEq, and_true, true_and] at h
  obtain ⟨h2, h3, h4, h5⟩ := h
  have e2 := digitChar_inj _ _ (by omega) (by omega) h2
  have e3 := digitChar_inj _ _ (by omega) (by omega) h3
  have e4 := digitChar_inj _ _ (by omega) (by omega) h4
  have e5 := digitChar_inj _ _ (by omega) (by omega) h5
  omega

/-- C14: one call of `PlatformMakeTempName` on a buffer whose characters 2 to 5 are the
decimal digits `d2 d3 d4 d5` of a number `n` leaves the digits of `(n + 1) mod 10000` there,
leaves the characters 0 and 1 (and what follows the digits) unchanged, and returns the name
registered for the updated buffer; and the names returned by the first 10000 successive
calls started on `XX0000` are pairwise distinct. -/
theorem PlatformMakeTempName_new_name (pc : Picoc) (c0 c1 : Char) (rest : List Char)
    (d2 d3 d4 d5 : Nat) (h2 : d2 < 10) (h3 : d3 < 10) (h4 : d4 < 10) (h5 : d5 < 10) :
    (∃ e2 e3 e4 e5 : Nat, e2 < 10 ∧ e3 < 10 ∧ e4 < 10 ∧ e5 < 10 ∧
      e2 * 1000 + e3 * 100 + e4 * 10 + e5
        = (d2 * 1000 + d3 * 100 + d4 * 10 + d5 + 1) % 10000 ∧
      (PlatformMakeTempName pc
          (c0 :: c1 :: Char.ofNat (48 + d2) :: Char.ofNat (48 + d3) :: Char.ofNat (48 + d4)
            :: Char.ofNat (48 + d5) :: rest)).1
        = c0 :: c1 :: Char.ofNat (48 + e2) :: Char.ofNat (48 + e3) :: Char.ofNat (48 + e4)
            :: Char.ofNat (48 + e5) :: rest ∧
      (PlatformMakeTempName pc
          (c0 :: c1 :: Char.ofNat (48 + d2) :: Char.ofNat (48 + d3) :: Char.ofNat (48 + d4)
            :: Char.ofNat (48 + d5) :: rest)).2
        = TableStrRegister pc (String.mk
            (c0 :: c1 :: Char.ofNat (48 + e2) :: Char.ofNat (48 + e3) :: Char.ofNat (48 + e4)
              :: Char.ofNat (48 + e5) :: rest))) ∧
    (PlatformMakeTempName.successive pc 10000 ['X', 'X', '0', '0', '0', '0']).Nodup ∧
    (PlatformMakeTempName.successive pc 10000 ['X', 'X', '0', '0', '0', '0']).length
      = 10000 := by
  refine ⟨?_, ?_, ?_⟩
  · obtain ⟨e2, e3, e4, e5, k2, k3, k4, k5, hval, hloop⟩ :=
      PlatformMakeTempName_loop_digits c0 c1 rest d2 d3 d4 d5 h2 h3 h4 h5
    refine ⟨e2, e3, e4, e5, k2, k3, k4, k5, hval, ?_, ?_⟩
    · simp only [PlatformMakeTempName]; exact hloop
    · simp only [PlatformMakeTempName]; rw [hloop]
  · have h := PlatformMakeTempName_successive pc _ (fun _ => rfl) 10000 0
    have hstart : ['X', 'X', Char.ofNat (48 + 0 % 10000 / 1000),
        Char.ofNat (48 + 0 % 10000 / 100 % 10), Char.ofNat (48 + 0 % 10000 / 10 % 10),
        Char.ofNat (48 + 0 % 10000 % 10)] = ['X', 'X', '0', '0', '0', '0'] := by decide
    beta_reduce at h
    rw [hstart] at h
    rw [h]
    refine List.Nodup.map_on ?_ (List.nodup_range' _ _)
    intro a ha b hb hab
    rw [List.mem_range'_1] at ha hb
    have := tempName_buffer_inj (a % 10000) (b % 10000) (Nat.mod_lt _ (by norm_num))
      (Nat.mod_lt _ (by norm_num)) (congrArg String.data hab)
    omega
  · have h := PlatformMakeTempName_successive pc _ (fun _ => rfl) 10000 0
    have hstart : ['X', 'X', Char.ofNat (48 + 0 % 10000 / 1000),
        Char.ofNat (48 + 0 % 10000 / 100 % 10), Char.ofNat (48 + 0 % 10000 / 10 % 10),
        Char.ofNat (48 + 0 % 10000 % 10)] = ['X', 'X', '0', '0', '0', '0'] := by decide
    beta_reduce at h
    rw [hstart] at h
    rw [h]
    simp

/-- C14 (witness): a call on the buffer `XX0199` leaves `XX0200` and returns that name. -/
theorem PlatformMakeTempName_new_name_witness :
    PlatformMakeTempName exSessionOneDouble ['X', 'X', '0', '1', '9', '9']
      = (['X', 'X', '0', '2', '0', '0'], "XX0200") ∧
    ∃ e2 e3 e4 e5 : Nat, e2 < 10 ∧ e3 < 10 ∧ e4 < 10 ∧ e5 < 10 ∧
      e2 * 1000 + e3 * 100 + e4 * 10 + e5 = (0 * 1000 + 1 * 100 + 9 * 10 + 9 + 1) % 10000 ∧
      (PlatformMakeTempName exSessionOneDouble
          ('X' :: 'X' :: Char.ofNat (48 + 0) :: Char.ofNat (48 + 1) :: Char.ofNat (48 + 9)
            :: Char.ofNat (48 + 9) :: [])).1
        = 'X' :: 'X' :: Char.ofNat (48 + e2) :: Char.ofNat (48 + e3) :: Char.ofNat (48 + e4)
            :: Char.ofNat (48 + e5) :: [] ∧
      (PlatformMakeTempName exSessionOneDouble
          ('X' :: 'X' :: Char.ofNat (48 + 0) :: Char.ofNat (48 + 1) :: Char.ofNat (48 + 9)
            :: Char.ofNat (48 + 9) :: [])).2
        = TableStrRegister exSessionOneDouble (String.mk
            ('X' :: 'X' :: Char.ofNat (48 + e2) :: Char.ofNat (48 + e3) :: Char.ofNat (48 + e4)
              :: Char.ofNat (48 + e5) :: [])) :=
  ⟨by decide,
   (PlatformMakeTempName_new_name exSessionOneDouble 'X' 'X' [] 0 1 9 9
      (by decide) (by decide) (by decide) (by decide)).1⟩

/-! ### The source line of a diagnostic -/

/-- Splitting a text at the newlines, one character at a time. -/
theorem splitOn_newline_cons (c : Char) (rest : List Char) :
    (c :: rest).splitOn '\n'
      = if c = '\n' then [] :: rest.splitOn '\n'
        else (rest.splitOn '\n').modifyHead (List.cons c) := by
  simp only [List.splitOn, List.splitOnP_cons]
  by_cases h : c = '\n' <;> simp [h]

/-- The first line of a text that does not start with a newline. -/
theorem firstLine_cons (c : Char) (rest : List Char) (h : c ≠ '\n') :
    ((c :: rest).splitOn '\n').getD 0 [] = c :: (rest.splitOn '\n').getD 0 [] := by
  rw [splitOn_newline_cons, if_neg h]
  have hne : rest.splitOn '\n' ≠ [] := List.splitOnP_ne_nil _ _
  cases hs : rest.splitOn '\n' with
  | nil => exact absurd hs hne
  | cons a l => simp

/-- A later line of a text that does not start with a newline. -/
theorem laterLine_cons (c : Char) (rest : List Char) (h : c ≠ '\n') (k : Nat) :
    ((c :: rest).splitOn '\n').getD (k + 1) [] = (rest.splitOn '\n').getD (k + 1) [] := by
  rw [splitOn_newline_cons, if_neg h]
  cases hs : rest.splitOn '\n' with
  | nil => simp
  | cons a l => simp

/-- The loop that displays the line prints the first line of the rest of the text. -/
theorem displayLine_eq : ∀ (t : List Char), '\x00' ∉ t →
    PrintSourceTextErrorLine.displayLine t
      = ((t.splitOn '\n').getD 0 []).map Event.PrintCh := by
  intro t
  induction t with
  | nil => intro _; simp [PrintSourceTextErrorLine.displayLine, List.splitOn]
  | cons c rest ih =>
    intro hnul
    have hc : c ≠ '\x00' := fun h => hnul (by simp [h])
    have hrest : '\x00' ∉ rest := fun h => hnul (List.mem_cons_of_mem _ h)
    by_cases hn : c = '\n'
    · simp [PrintSourceTextErrorLine.displayLine, hn, splitOn_newline_cons]
    · rw [firstLine_cons c rest hn]
      simp [PrintSourceTextErrorLine.displayLine, hn, hc, ih hrest]

/-- The loop that finds the source line stops at the start of line `Line`, or at the end
of the text when the text has fewer lines. -/
theorem findLine_eq (Line : Int) : ∀ (t : List Char) (LineCount : Int), '\x00' ∉ t →
    LineCount ≤ Line →
    '\x00' ∉ PrintSourceTextErrorLine.findLine Line t LineCount ∧
    ((PrintSourceTextErrorLine.findLine Line t LineCount).splitOn '\n').getD 0 []
      = (t.splitOn '\n').getD (Line - LineCount).toNat [] := by
  intro t
  induction t with
  | nil =>
    intro LineCount _ _
    simp only [PrintSourceTextErrorLine.findLine]
    refine ⟨by simp, ?_⟩
    cases (Line - LineCount).toNat <;> simp [List.splitOn]
  | cons c rest ih =>
    intro LineCount hnul hle
    have hc : c ≠ '\x00' := fun h => hnul (by simp [h])
    have hrest : '\x00' ∉ rest := fun h => hnul (List.mem_cons_of_mem _ h)
    by_cases hlt : LineCount < Line
    · obtain ⟨k, hk⟩ : ∃ k : Nat, (Line - LineCount).toNat = k + 1 :=
        ⟨(Line - LineCount).toNat - 1, by omega⟩
      by_cases hn : c = '\n'
      · have h := ih (LineCount + 1) hrest (by omega)
        simp only [PrintSourceTextErrorLine.findLine, hc, hlt, hn, ne_eq, not_false_eq_true,
          and_self, if_true]
        refine ⟨by simpa [hn] using h.1, ?_⟩
        rw [hk, splitOn_newline_cons, if_pos rfl]
        have hk' : (Line - (LineCount + 1)).toNat = k := by omega
        simpa [hn, hk'] using h.2
      · have h := ih LineCount hrest hle
        simp only [PrintSourceTextErrorLine.findLine, hc, hlt, hn, ne_eq, not_false_eq_true,
          and_self, if_true, if_false]
        refine ⟨h.1, ?_⟩
        rw [hk, laterLine_cons c rest hn k, ← hk]
        exact h.2
    · have h0 : (Line - LineCount).toNat = 0 := by omega
      simp only [PrintSourceTextErrorLine.findLine, hlt, and_false, if_false]
      exact ⟨hnul, by rw [h0]⟩


/-- The loop that displays the error position prints, for some `m` leading characters of
the line, a tab for a tab and a space for anything else; `m` reaches the error position
unless the line ends before. -/
theorem displayPosition_eq (CharacterPos : Int) : ∀ (t : List Char) (CCount : Int),
    '\x00' ∉ t →
    ∃ m : Nat,
      min (CharacterPos - CCount) (((t.splitOn '\n').getD 0 []).length : Int) ≤ (m : Int) ∧
      m ≤ ((t.splitOn '\n').getD 0 []).length ∧
      PrintSourceTextErrorLine.displayPosition CharacterPos t CCount
        = ((((t.splitOn '\n').getD 0 []).take m).map
            (fun c => if c = '\t' then '\t' else ' ')).map Event.PrintCh := by
  intro t
  induction t with
  | nil =>
    intro CCount _
    exact ⟨0, by simp [List.splitOn], by simp, by simp [PrintSourceTextErrorLine.displayPosition]⟩
  | cons c rest ih =>
    intro CCount hnul
    have hc : c ≠ '\x00' := fun h => hnul (by simp [h])
    have hrest : '\x00' ∉ rest := fun h => hnul (List.mem_cons_of_mem _ h)
    by_cases hn : c = '\n'
    · exact ⟨0, by simp [hn, splitOn_newline_cons], by simp,
        by simp [PrintSourceTextErrorLine.displayPosition, hn]⟩
    · rw [firstLine_cons c rest hn]
      by_cases hgo : CCount < CharacterPos ∨ c = ' '
      · obtain ⟨m, hm1, hm2, hm3⟩ := ih (CCount + 1) hrest
        refine ⟨m + 1, ?_, by simpa using hm2, ?_⟩
        · simp only [List.length_cons]
          push_cast
          rcases min_le_iff.1 hm1 with h | h
          · exact min_le_iff.2 (Or.inl (by omega))
          · exact min_le_iff.2 (Or.inr (by omega))
        · simp only [PrintSourceTextErrorLine.displayPosition, hn, hc, hgo, ne_eq,
            not_false_eq_true, and_self, if_true, hm3, List.take_succ_cons, List.map_cons]
          by_cases ht : c = '\t' <;> simp [ht]
      · refine ⟨0, ?_, by simp, ?_⟩
        · have : ¬ (CCount < CharacterPos) := fun h => hgo (Or.inl h)
          exact min_le_iff.2 (Or.inl (by push_cast; omega))
        · simp [PrintSourceTextErrorLine.displayPosition, hgo]

/-- C15: for a source text (a C string, so without NUL), `Line ≥ 1` and
`CharacterPos ≥ 0`, `PrintSourceTextErrorLine` emits the line `L`, a newline, a padding and
then `line <Line>: `. Here `L` is the `Line`-th line of the text without its newline, the
empty string when the text has fewer lines; the padding renders the first `m` characters of
`L`, a tab for a tab and a space for anything else, with `min(CharacterPos, |L|) ≤ m ≤ |L|`. -/
theorem PrintSourceTextErrorLine_output (INTERACTIVE_PROMPT_STATEMENT FileName : String)
    (text : List Char) (Line CharacterPos : Int)
    (hnul : '\x00' ∉ text) (hLine : 1 ≤ Line) (_hPos : 0 ≤ CharacterPos) :
    ∃ m : Nat,
      min CharacterPos ((((text.splitOn '\n').getD (Line - 1).toNat []).length : Nat) : Int)
        ≤ (m : Int) ∧
      m ≤ ((text.splitOn '\n').getD (Line - 1).toNat []).length ∧
      PrintSourceTextErrorLine INTERACTIVE_PROMPT_STATEMENT FileName (some text) Line
          CharacterPos
        = ((text.splitOn '\n').getD (Line - 1).toNat []).map Event.PrintCh
          ++ [Event.PrintCh '\n']
          ++ ((((text.splitOn '\n').getD (Line - 1).toNat []).take m).map
                (fun c => if c = '\t' then '\t' else ' ')).map Event.PrintCh
          ++ [Event.PlatformPrintf "line %d: " [FormatArg.Int Line]] := by
  have hfind := findLine_eq Line text 1 hnul hLine
  obtain ⟨m, hm1, hm2, hm3⟩ := displayPosition_eq CharacterPos
    (PrintSourceTextErrorLine.findLine Line text 1) 0 hfind.1
  rw [hfind.2] at hm1 hm2 hm3
  refine ⟨m, by simpa using hm1, hm2, ?_⟩
  simp only [PrintSourceTextErrorLine]
  rw [displayLine_eq _ hfind.1, hfind.2, hm3]

/-- C15 (witness): for the text `ab`, newline, tab, `x y`, line 2 and position 1 the routine
prints the line (tab, `x y`), a newline, a padding for `m` characters of that line with
`1 ≤ m ≤ 4`, and `line 2: `. -/
theorem PrintSourceTextErrorLine_output_witness :
    ∃ m : Nat, (1 : Int) ≤ (m : Int) ∧ m ≤ 4 ∧
      PrintSourceTextErrorLine "picoc> " "nofile"
          (some ['a', 'b', '\n', '\t', 'x', ' ', 'y']) 2 1
        = [Event.PrintCh '\t', Event.PrintCh 'x', Event.PrintCh ' ', Event.PrintCh 'y']
          ++ [Event.PrintCh '\n']
          ++ (((['\t', 'x', ' ', 'y'] : List Char).take m).map
                (fun c => if c = '\t' then '\t' else ' ')).map Event.PrintCh
          ++ [Event.PlatformPrintf "line %d: " [FormatArg.Int 2]] := by
  obtain ⟨m, h1, h2, h3⟩ := PrintSourceTextErrorLine_output "picoc> " "nofile"
    ['a', 'b', '\n', '\t', 'x', ' ', 'y'] 2 1 (by decide) (by decide) (by decide)
  have hL : ((['a', 'b', '\n', '\t', 'x', ' ', 'y'] : List Char).splitOn '\n').getD
      ((2 : Int) - 1).toNat [] = ['\t', 'x', ' ', 'y'] := by decide
  rw [hL] at h1 h2 h3
  exact ⟨m, by simpa using h1, by simpa using h2, h3⟩

/-! ### Drawing the surface -/

/-- A read of `show3DGraph` succeeds exactly at the indices below the size. -/
theorem show3DGraph_read_ok (mPoints3D : List Vector3f) (k : Nat) (h : k < mPoints3D.length) :
    Application.show3DGraph.read mPoints3D k = Except.ok (mPoints3D.get ⟨k, h⟩) := by
  simp [Application.show3DGraph.read, List.getElem?_eq_getElem h]

/-- A read of `show3DGraph` at an index that is not below the size is an error. -/
theorem show3DGraph_read_error (mPoints3D : List Vector3f) (k : Nat)
    (h : mPoints3D.length ≤ k) :
    Application.show3DGraph.read mPoints3D k = Except.error k := by
  simp [Application.show3DGraph.read, List.getElem?_eq_none h]

/-- A cell of `show3DGraph` whose four indices are below the size is drawn. -/
theorem show3DGraph_cell_ok (mPoints3D : List Vector3f) (minZ deltaZ : ℚ) (x y : Nat)
    (h : (x + 1) * CURVE_WIDTH + y + 1 < mPoints3D.length) :
    ∃ vertices, Application.show3DGraph.cell mPoints3D minZ deltaZ x y
      = Except.ok vertices := by
  have h0 : x * CURVE_WIDTH + y < mPoints3D.length := by
    have : x * CURVE_WIDTH ≤ (x + 1) * CURVE_WIDTH := Nat.mul_le_mul_right _ (Nat.le_succ x)
    omega
  have h1 : (x + 1) * CURVE_WIDTH + y < mPoints3D.length := by omega
  have h3 : x * CURVE_WIDTH + y + 1 < mPoints3D.length := by
    have : x * CURVE_WIDTH ≤ (x + 1) * CURVE_WIDTH := Nat.mul_le_mul_right _ (Nat.le_succ x)
    omega
  unfold Application.show3DGraph.cell
  rw [show3DGraph_read_ok _ _ h0, show3DGraph_read_ok _ _ h1, show3DGraph_read_ok _ _ h,
    show3DGraph_read_ok _ _ h3]
  exact ⟨_, rfl⟩

/-- A cell of `show3DGraph` that is drawn has its four indices below the size. -/
theorem show3DGraph_cell_reads (mPoints3D : List Vector3f) (minZ deltaZ : ℚ) (x y : Nat)
    (vertices : List Vector3f)
    (h : Application.show3DGraph.cell mPoints3D minZ deltaZ x y = Except.ok vertices) :
    (x + 1) * CURVE_WIDTH + y + 1 < mPoints3D.length := by
  by_contra hn
  have h2 := show3DGraph_read_error mPoints3D ((x + 1) * CURVE_WIDTH + y + 1) (by omega)
  unfold Application.show3DGraph.cell at h
  rw [h2] at h
  split at h
  · exact Except.noConfusion h
  · split at h
    · exact Except.noConfusion h
    · exact Except.noConfusion h

/-- A row of `show3DGraph` whose indices are all below the size is drawn. -/
theorem show3DGraph_inner_ok (mPoints3D : List Vector3f) (minZ deltaZ : ℚ) (x : Nat) :
    ∀ (n y : Nat) (positions : List Vector3f),
      (x + 1) * CURVE_WIDTH + y + n < mPoints3D.length →
      ∃ r, Application.show3DGraph.inner mPoints3D minZ deltaZ x n y positions
        = Except.ok r := by
  intro n
  induction n with
  | zero => intro y positions _; exact ⟨positions, rfl⟩
  | succ n ih =>
    intro y positions h
    obtain ⟨vertices, hv⟩ := show3DGraph_cell_ok mPoints3D minZ deltaZ x y (by omega)
    unfold Application.show3DGraph.inner
    rw [hv]
    exact ih (y + 1) (positions ++ vertices) (by omega)

/-- A row of `show3DGraph` that is drawn has all its indices below the size. -/
theorem show3DGraph_inner_reads (mPoints3D : List Vector3f) (minZ deltaZ : ℚ) (x : Nat) :
    ∀ (n y : Nat) (positions r : List Vector3f),
      Application.show3DGraph.inner mPoints3D minZ deltaZ x n y positions = Except.ok r →
      ∀ k : Nat, k < n → (x + 1) * CURVE_WIDTH + (y + k) + 1 < mPoints3D.length := by
  intro n
  induction n with
  | zero => intro y positions r _ k hk; omega
  | succ n ih =>
    intro y positions r h k hk
    unfold Application.show3DGraph.inner at h
    split at h
    · exact Except.noConfusion h
    · rename_i vertices hv
      have hc := show3DGraph_cell_reads mPoints3D minZ deltaZ x y vertices hv
      cases k with
      | zero => simpa using hc
      | succ k =>
        have := ih (y + 1) _ r h k (by omega)
        have e : y + (k + 1) = y + 1 + k := by omega
        rw [e]
        exact this

/-- The rows of `show3DGraph` that are drawn have all their indices below the size. -/
theorem show3DGraph_outer_reads (mPoints3D : List Vector3f) (minZ deltaZ : ℚ) :
    ∀ (n x : Nat) (positions r : List Vector3f),
      Application.show3DGraph.outer mPoints3D minZ deltaZ n x positions = Except.ok r →
      ∀ a : Nat, a < n → ∀ k : Nat, k < CURVE_WIDTH - 1 →
        (x + a + 1) * CURVE_WIDTH + k + 1 < mPoints3D.length := by
  intro n
  induction n with
  | zero => intro x positions r _ a ha; omega
  | succ n ih =>
    intro x positions r h a ha k hk
    unfold Application.show3DGraph.outer at h
    split at h
    · exact Except.noConfusion h
    · rename_i row hrow
      cases a with
      | zero =>
        have := show3DGraph_inner_reads mPoints3D minZ deltaZ x _ 0 positions row hrow k hk
        simpa using this
      | succ a =>
        have := ih (x + 1) row r h a (by omega) k hk
        have e : x + (a + 1) + 1 = x + 1 + a + 1 := by omega
        rw [e]
        exact this

/-- The first out-of-range read of `show3DGraph` on a set that holds `x + k + 1` rows of
32 points: the rows of cells before row `x + k` are drawn, and in row `x + k` the read of
the point below the first cell, at index `(x + k + 1) * 32`, is out of range. -/
theorem show3DGraph_outer_error (mPoints3D : List Vector3f) (minZ deltaZ : ℚ) :
    ∀ (k n x : Nat) (positions : List Vector3f), k < n →
      mPoints3D.length = (x + k + 1) * CURVE_WIDTH →
      Application.show3DGraph.outer mPoints3D minZ deltaZ n x positions
        = Except.error ((x + k + 1) * CURVE_WIDTH) := by
  intro k
  induction k with
  | zero =>
    intro n x positions hn h
    obtain ⟨n, rfl⟩ : ∃ m, n = m + 1 := ⟨n - 1, by omega⟩
    unfold Application.show3DGraph.outer
    have hinner : Application.show3DGraph.inner mPoints3D minZ deltaZ x (CURVE_WIDTH - 1) 0
        positions = Except.error ((x + 1) * CURVE_WIDTH) := by
      show Application.show3DGraph.inner mPoints3D minZ deltaZ x (30 + 1) 0 positions = _
      unfold Application.show3DGraph.inner Application.show3DGraph.cell
      rw [show3DGraph_read_ok _ _ (by simp only [CURVE_WIDTH] at h ⊢; omega),
        show3DGraph_read_error _ _ (by simp only [CURVE_WIDTH] at h ⊢; omega)]
      simp
    rw [hinner]
  | succ k ih =>
    intro n x positions hn h
    obtain ⟨n, rfl⟩ : ∃ m, n = m + 1 := ⟨n - 1, by omega⟩
    unfold Application.show3DGraph.outer
    have e : x + (k + 1) = x + 1 + k := by omega
    rw [e] at h
    have hrow : (x + 1) * CURVE_WIDTH + 0 + (CURVE_WIDTH - 1) < mPoints3D.length := by
      have : (x + 1 + 1) * CURVE_WIDTH ≤ (x + 1 + k + 1) * CURVE_WIDTH := by
        apply Nat.mul_le_mul_right
        omega
      simp only [CURVE_WIDTH] at this h ⊢
      omega
    obtain ⟨r, hr⟩ := show3DGraph_inner_ok mPoints3D minZ deltaZ x (CURVE_WIDTH - 1) 0
      positions hrow
    rw [hr, e]
    exact ih n (x + 1) r (by omega) h

/-- A published set that `show3DGraph` draws without a read out of range is empty or holds
at least the 1024 points of a full grid. -/
theorem show3DGraph_needs_full_grid (app : Application) (positions : List Vector3f)
    (h : app.show3DGraph = Except.ok positions) :
    app.mPoints3D = [] ∨ CURVE_WIDTH * CURVE_WIDTH ≤ app.mPoints3D.length := by
  unfold Application.show3DGraph at h
  split at h
  · left
    simpa using ‹app.mPoints3D.isEmpty = true›
  · right
    have := show3DGraph_outer_reads _ _ _ _ _ _ _ h 30 (by decide) 30 (by decide)
    simp only [CURVE_WIDTH] at this ⊢
    omega

/-- On a published set that holds the rows 0 to `k` of the grid and no more, with
`k < 31`, `show3DGraph` reads out of range at index `(k + 1) * 32`. -/
theorem show3DGraph_error_of_rows (app : Application) (k : Nat) (hk : k < CURVE_WIDTH - 1)
    (hlen : app.mPoints3D.length = (k + 1) * CURVE_WIDTH) :
    app.show3DGraph = Except.error ((k + 1) * CURVE_WIDTH) := by
  have hne : app.mPoints3D.isEmpty = false := by
    cases hpts : app.mPoints3D with
    | nil => rw [hpts] at hlen; simp [CURVE_WIDTH] at hlen
    | cons p rest => rfl
  unfold Application.show3DGraph
  rw [hne]
  have := show3DGraph_outer_error app.mPoints3D
    (Application.show3DGraph.range app.mPoints3D (0, 0)).1
    (if (Application.show3DGraph.range app.mPoints3D (0, 0)).2
        - (Application.show3DGraph.range app.mPoints3D (0, 0)).1 > 1e-7
      then 1 / ((Application.show3DGraph.range app.mPoints3D (0, 0)).2
        - (Application.show3DGraph.range app.mPoints3D (0, 0)).1) else 0)
    k (CURVE_WIDTH - 1) 0 [] hk (by rw [hlen]; simp)
  simpa using this

/-- A row of the 2-D pass appends at most one point for each of its cells. -/
theorem evaluate3D_inner_length (parse : Parse) (buffer : String) (width start : ℚ)
    (posX point0 : ℚ) :
    ∀ (n j : Nat) (st : Pass Vector3f),
      (Application.evaluate3D.inner parse buffer width start posX point0 n j st).result.length
        ≤ st.result.length + n := by
  intro n
  induction n with
  | zero => intro j st; simp [Application.evaluate3D.inner]
  | succ n ih =>
    intro j st
    unfold Application.evaluate3D.inner
    simp only
    split
    · simp only; omega
    · refine le_trans (ih (j + 1) _) ?_
      simp only [List.length_append, List.length_singleton]
      omega

/-- The rows of the 2-D pass append at most 32 points each. -/
theorem evaluate3D_outer_length (parse : Parse) (buffer : String) (width start : ℚ) :
    ∀ (n i : Nat) (st : Pass Vector3f),
      (Application.evaluate3D.outer parse buffer width start n i st).result.length
        ≤ st.result.length + n * CURVE_WIDTH := by
  intro n
  induction n with
  | zero => intro i st; simp [Application.evaluate3D.outer]
  | succ n ih =>
    intro i st
    unfold Application.evaluate3D.outer
    refine le_trans (ih (i + 1) _) ?_
    have := evaluate3D_inner_length parse buffer width start ((i : ℚ) / (CURVE_WIDTH : ℚ))
      ((i : ℚ) / (CURVE_WIDTH : ℚ) * width + start) CURVE_WIDTH 0
      { st with mProgression := (i : ℚ) / (CURVE_WIDTH : ℚ) }
    simp only at this ⊢
    rw [Nat.succ_mul]
    omega

/-- Row `i` entered with `isCrash` zero and first faulting at cell `j`, with `m` rows
below it: the `j` points of the cells before the fault are appended, and at most 32 points
for each row below. -/
theorem evaluate3D_outer_fault_length (parse : Parse) (buffer : String) (width start : ℚ)
    (gs : Nat → ℚ) (hgs : ∀ a : Nat, gs a = (a : ℚ) / (CURVE_WIDTH : ℚ) * width + start)
    (m i j : Nat) (st : Pass Vector3f) (hst : st.isCrash = 0) (hj : j < CURVE_WIDTH)
    (hrow : ∀ b < j, (parse buffer [gs i, gs b]).faulted = false)
    (hfault : (parse buffer [gs i, gs j]).faulted = true) :
    st.result.length + j
      ≤ (Application.evaluate3D.outer parse buffer width start (m + 1) i st).result.length ∧
    (Application.evaluate3D.outer parse buffer width start (m + 1) i st).result.length
      ≤ st.result.length + j + m * CURVE_WIDTH := by
  have h2 := (evaluate3D_inner_fault parse buffer width start
    ((i : ℚ) / (CURVE_WIDTH : ℚ)) (gs i) gs hgs j CURVE_WIDTH 0
    { st with mProgression := (i : ℚ) / (CURVE_WIDTH : ℚ) }
    hst hj (by simpa using hrow) (by simpa using hfault)).1
  have h2l := congrArg List.length h2
  rw [List.length_append, List.length_map, List.length_range'] at h2l
  have h3 := evaluate3D_outer_length parse buffer width start m (i + 1)
    (Application.evaluate3D.inner parse buffer width start
      ((i : ℚ) / (CURVE_WIDTH : ℚ)) (gs i) CURVE_WIDTH 0
      { st with mProgression := (i : ℚ) / (CURVE_WIDTH : ℚ) })
  obtain ⟨r, _, h4, _⟩ := evaluate3D_outer_prefix parse buffer width start m (i + 1)
    (Application.evaluate3D.inner parse buffer width start
      ((i : ℚ) / (CURVE_WIDTH : ℚ)) (gs i) CURVE_WIDTH 0
      { st with mProgression := (i : ℚ) / (CURVE_WIDTH : ℚ) })
  have h4l := congrArg List.length h4
  rw [List.length_append] at h4l
  rw [Application.evaluate3D.outer, ← hgs]
  constructor
  · rw [h4l, h2l]; exact Nat.le_add_right _ _
  · rw [h2l] at h3; exact h3

/-- A 2-D pass that faults leaves a partial set, whatever the interpreter does after the
fault: when the first faulting cell in row-major order is `(i, j)`, the vector holds at
least the `i*32 + j` points of the cells before it and fewer than 1024 points. -/
theorem evaluate3D_faulted_pass_is_partial (parse : Parse) (garbage : String)
    (app : Application) (gs : Nat → ℚ)
    (hgs : ∀ a : Nat, gs a = (a : ℚ) / (CURVE_WIDTH : ℚ) * app.mGraphRect.width
      + app.mGraphRect.left)
    (i j : Nat) (hi : i < CURVE_WIDTH) (hj : j < CURVE_WIDTH)
    (hrows : ∀ a < i, ∀ b < CURVE_WIDTH, (parse app.mSourceCode [gs a, gs b]).faulted = false)
    (hrow : ∀ b < j, (parse app.mSourceCode [gs i, gs b]).faulted = false)
    (hfault : (parse app.mSourceCode [gs i, gs j]).faulted = true) :
    i * CURVE_WIDTH + j ≤ (Application.evaluate3D parse garbage app []).result.length ∧
    (Application.evaluate3D parse garbage app []).result.length
      < CURVE_WIDTH * CURVE_WIDTH := by
  obtain ⟨m, hm⟩ : ∃ m, CURVE_WIDTH = i + (m + 1) := ⟨CURVE_WIDTH - i - 1, by omega⟩
  -- the rows before row `i`
  have h1 := evaluate3D_outer_run parse app.mSourceCode app.mGraphRect.width
    app.mGraphRect.left gs hgs i 0
    { result := [], isCrash := 0, errorBuffer := garbage,
      mProgression := app.mProgression, calls := [] }
    (fun a ha b hb => by
      have hf := hrows a ha b hb
      have : ¬ ((parse app.mSourceCode [gs a, gs b]).isCrash.getD 0 ≠ 0) := by
        rw [getD_zero_ne_zero_iff, hf]; simp
      rw [Nat.zero_add]
      exact ⟨by simpa using this, by simpa using this⟩)
  have h1c : (Application.evaluate3D.outer parse app.mSourceCode app.mGraphRect.width
      app.mGraphRect.left i 0
      { result := [], isCrash := 0, errorBuffer := garbage,
        mProgression := app.mProgression, calls := [] }).isCrash = 0 := by
    rw [h1.2.2]; simp
  have h1l : (Application.evaluate3D.outer parse app.mSourceCode app.mGraphRect.width
      app.mGraphRect.left i 0
      { result := [], isCrash := 0, errorBuffer := garbage,
        mProgression := app.mProgression, calls := [] }).result.length
      = i * CURVE_WIDTH := by
    rw [h1.1, List.nil_append,
      length_flatMap_rows _ CURVE_WIDTH (fun a => by simp)]
    simp
  -- row `i` and the rows below
  have h2 := evaluate3D_outer_fault_length parse app.mSourceCode app.mGraphRect.width
    app.mGraphRect.left gs hgs m i j
    (Application.evaluate3D.outer parse app.mSourceCode app.mGraphRect.width
      app.mGraphRect.left i 0
      { result := [], isCrash := 0, errorBuffer := garbage,
        mProgression := app.mProgression, calls := [] })
    h1c hj hrow hfault
  rw [h1l] at h2
  have hsplit : (Application.evaluate3D parse garbage app []).result
      = (Application.evaluate3D.outer parse app.mSourceCode app.mGraphRect.width
          app.mGraphRect.left (m + 1) i
          (Application.evaluate3D.outer parse app.mSourceCode app.mGraphRect.width
            app.mGraphRect.left i 0
            { result := [], isCrash := 0, errorBuffer := garbage,
              mProgression := app.mProgression, calls := [] })).result := by
    simp only [Application.evaluate3D]
    conv_lhs => rw [hm]
    rw [evaluate3D_outer_split, Nat.zero_add]
  rw [hsplit]
  have hmm : CURVE_WIDTH * CURVE_WIDTH = (i + (m + 1)) * CURVE_WIDTH :=
    congrArg (fun k => k * CURVE_WIDTH) hm
  rw [Nat.add_mul, Nat.succ_mul] at hmm
  constructor
  · exact h2.1
  · rw [hmm]; omega

/-- Whatever the interpreter does after a fault: when the first faulting cell of the pass
is not the cell `(0, 0)`, the set left by the pass is not empty and `show3DGraph`, run on
members whose published set it is, reads out of range. -/
theorem show3DGraph_after_fault (parse : Parse) (garbage : String)
    (app published : Application) (gs : Nat → ℚ)
    (hgs : ∀ a : Nat, gs a = (a : ℚ) / (CURVE_WIDTH : ℚ) * app.mGraphRect.width
      + app.mGraphRect.left)
    (i j : Nat) (hi : i < CURVE_WIDTH) (hj : j < CURVE_WIDTH) (hij : 0 < i * CURVE_WIDTH + j)
    (hrows : ∀ a < i, ∀ b < CURVE_WIDTH, (parse app.mSourceCode [gs a, gs b]).faulted = false)
    (hrow : ∀ b < j, (parse app.mSourceCode [gs i, gs b]).faulted = false)
    (hfault : (parse app.mSourceCode [gs i, gs j]).faulted = true)
    (hpub : published.mPoints3D = (Application.evaluate3D parse garbage app []).result) :
    published.mPoints3D ≠ [] ∧ ∃ k, published.show3DGraph = Except.error k := by
  have h := evaluate3D_faulted_pass_is_partial parse garbage app gs hgs i j hi hj
    hrows hrow hfault
  rw [← hpub] at h
  constructor
  · intro hnil
    have h0 := h.1
    rw [hnil, List.length_nil] at h0
    omega
  · cases hs : published.show3DGraph with
    | error k => exact ⟨k, rfl⟩
    | ok positions =>
      rcases show3DGraph_needs_full_grid published positions hs with hnil | hfull
      · have h0 := h.1
        rw [hnil, List.length_nil] at h0
        omega
      · omega

/-- C16 (the code at the failing input): in 3-D mode on the domain `(-10, -10, 20, 20)`,
with an interpreter that faults exactly at `x = -10`, one iteration of `execute` publishes
the result of its pass, a set of 992 points; it is not empty, so `show3DGraph` goes on to
its loops, and for the cell `x = 30`, `y = 0` it reads `mPoints3D[(30+1)*32 + 0]`, at the
index 992, which is not smaller than the size. -/
theorem show3DGraph_reads_past_partial_set :
    (Application.execute.iteration exParseSurface "" id id id
        { result2D := [], result3D := [] } exApplication3D).2.mPoints3D
      = (Application.evaluate3D exParseSurface "" exApplication3D []).result ∧
    (Application.execute.iteration exParseSurface "" id id id
        { result2D := [], result3D := [] } exApplication3D).2.mPoints3D.length = 992 ∧
    (Application.execute.iteration exParseSurface "" id id id
        { result2D := [], result3D := [] } exApplication3D).2.show3DGraph
      = Except.error ((30 + 1) * CURVE_WIDTH + 0) ∧
    (30 + 1) * CURVE_WIDTH + 0 = 992 := by
  have hpub : (Application.execute.iteration exParseSurface "" id id id
        { result2D := [], result3D := [] } exApplication3D).2.mPoints3D
      = (Application.evaluate3D exParseSurface "" exApplication3D []).result := by
    simp [Application.execute.iteration, Application.execute.evaluate,
      Application.execute.publish, Application.execute.assign, Application.evaluate3D,
      exApplication3D]
  have h := exSurface_pass
    { result := [], isCrash := 0, errorBuffer := "",
      mProgression := exApplication3D.mProgression, calls := [] } rfl
  have hr : (Application.evaluate3D exParseSurface "" exApplication3D []).result
      = (List.range' 1 31).flatMap (fun a : Nat =>
        (List.range' 0 CURVE_WIDTH).map (fun b : Nat =>
          ({ x := 1 * ((a : ℚ) / (CURVE_WIDTH : ℚ) - 0.5),
             y := 1 * ((b : ℚ) / (CURVE_WIDTH : ℚ) - 0.5),
             z := (exParseSurface exApplication3D.mSourceCode
               [(a : ℚ) / (CURVE_WIDTH : ℚ) * 20 + (-10),
                (b : ℚ) / (CURVE_WIDTH : ℚ) * 20 + (-10)]).ret } : Vector3f))) := h.1
  have hlen : (Application.execute.iteration exParseSurface "" id id id
        { result2D := [], result3D := [] } exApplication3D).2.mPoints3D.length = 992 := by
    rw [hpub, hr, length_flatMap_rows _ 32 (fun a => by simp [CURVE_WIDTH])]
    simp
  refine ⟨hpub, hlen, ?_, rfl⟩
  exact show3DGraph_error_of_rows _ 30 (by decide) hlen

/-! ### The error buffer -/

/-- The two printers have the same body. -/
theorem PlatformPrintf_eq_PlatformVPrintf (ERROR_BUFFER_SIZE : Int)
    (vsprintf_s : Int → String → List FormatArg → Int) (pc : ErrorBufferState)
    (Format : String) (Args : List FormatArg) :
    PlatformPrintf ERROR_BUFFER_SIZE vsprintf_s pc Format Args
      = PlatformVPrintf ERROR_BUFFER_SIZE vsprintf_s pc Format Args := rfl

/-- The upper bound on `ErrorBufferLength` is kept by every sequence of calls of the
printers, when `vsprintf_s` writes fewer characters than the size it is given or fails
with a negative value. -/
theorem runPrinters_upper_bound (ERROR_BUFFER_SIZE : Int)
    (vsprintf_s : Int → String → List FormatArg → Int)
    (hv : ∀ size Format Args, (0 ≤ vsprintf_s size Format Args ∧
      vsprintf_s size Format Args < size) ∨ vsprintf_s size Format Args < 0) :
    ∀ (calls : List PrinterCall) (pc : ErrorBufferState),
      pc.ErrorBufferLength ≤ ERROR_BUFFER_SIZE - 1 →
      (runPrinters ERROR_BUFFER_SIZE vsprintf_s pc calls).ErrorBufferLength
        ≤ ERROR_BUFFER_SIZE - 1 := by
  intro calls
  induction calls with
  | nil => intro pc h; exact h
  | cons call rest ih =>
    intro pc h
    obtain ⟨isPrintf, Format, Args⟩ := call
    simp only [runPrinters, PlatformPrintf_eq_PlatformVPrintf, ite_self]
    apply ih
    unfold PlatformVPrintf
    split
    · have := hv (ERROR_BUFFER_SIZE - pc.ErrorBufferLength) Format Args
      simp only
      omega
    · exact h

/-- The lower bound on `ErrorBufferLength` and the start of every write inside the buffer
are kept as long as no call of `vsprintf_s` fails. -/
theorem runPrinters_bounds_without_failure (ERROR_BUFFER_SIZE : Int)
    (vsprintf_s : Int → String → List FormatArg → Int)
    (hv : ∀ size Format Args, 0 ≤ vsprintf_s size Format Args ∧
      vsprintf_s size Format Args < size) :
    ∀ (calls : List PrinterCall) (pc : ErrorBufferState),
      0 ≤ pc.ErrorBufferLength → pc.ErrorBufferLength ≤ ERROR_BUFFER_SIZE - 1 →
      (∀ w ∈ pc.writes, 0 ≤ w ∧ w < ERROR_BUFFER_SIZE) →
      0 ≤ (runPrinters ERROR_BUFFER_SIZE vsprintf_s pc calls).ErrorBufferLength ∧
      (runPrinters ERROR_BUFFER_SIZE vsprintf_s pc calls).ErrorBufferLength
        ≤ ERROR_BUFFER_SIZE - 1 ∧
      ∀ w ∈ (runPrinters ERROR_BUFFER_SIZE vsprintf_s pc calls).writes,
        0 ≤ w ∧ w < ERROR_BUFFER_SIZE := by
  intro calls
  induction calls with
  | nil => intro pc h0 h1 hw; exact ⟨h0, h1, hw⟩
  | cons call rest ih =>
    intro pc h0 h1 hw
    obtain ⟨isPrintf, Format, Args⟩ := call
    simp only [runPrinters, PlatformPrintf_eq_PlatformVPrintf, ite_self]
    have := hv (ERROR_BUFFER_SIZE - pc.ErrorBufferLength) Format Args
    apply ih
    · unfold PlatformVPrintf
      split
      · simp only; omega
      · exact h0
    · unfold PlatformVPrintf
      split
      · simp only; omega
      · exact h1
    · unfold PlatformVPrintf
      split
      · intro w hmem
        simp only [List.mem_append, List.mem_singleton] at hmem
        rcases hmem with hmem | rfl
        · exact hw w hmem
        · omega
      · exact hw

/-- C17 (the code at the failing input): with a buffer of 1024 characters and a
`vsprintf_s` that either writes fewer characters than the size it is given and returns
their number, or fails and returns a negative value, the first message printed after
initialisation has 1024 characters and does not fit: `ErrorBufferLength` becomes -1, and
the next call of a printer starts its write at offset -1, before the buffer. -/
theorem PlatformVPrintf_length_goes_negative :
    (∀ size Format Args, (0 ≤ exVsprintf_s size Format Args ∧
      exVsprintf_s size Format Args < size) ∨ exVsprintf_s size Format Args < 0) ∧
    exLongMessage.length = 1024 ∧
    (runPrinters 1024 exVsprintf_s { ErrorBufferLength := 0, writes := [] }
        [(false, exLongMessage, [])]).ErrorBufferLength = -1 ∧
    (runPrinters 1024 exVsprintf_s { ErrorBufferLength := 0, writes := [] }
        [(false, exLongMessage, []), (true, "line %d: ", [FormatArg.Int 1])]).writes
      = [0, -1] := by
  have hlen : exLongMessage.length = 1024 := by
    show (List.replicate 1024 'x').length = 1024
    exact List.length_replicate 1024 'x'
  refine ⟨?_, hlen, ?_, ?_⟩
  · intro size Format Args
    unfold exVsprintf_s
    split
    · exact Or.inl ⟨by positivity, by assumption⟩
    · exact Or.inr (by norm_num)
  · simp [runPrinters, PlatformVPrintf, exVsprintf_s, hlen]
  · simp [runPrinters, PlatformVPrintf, PlatformPrintf, exVsprintf_s, hlen]

/-! ### Reading the curve under the mouse -/

/-- The search loop of `getAccurateYValue` stops at the first point right of `x`: when the
points from index `i` to `j` are not right of `x` and the point `j + 1` is, it leaves the
points `j` and `j + 1`. -/
theorem getAccurateYValue_loop_finds (mPoints2D : List Vector2f) (x : ℚ) (j : Nat)
    (hj : (mPoints2D.getD (j + 1) { x := 0, y := 0 }).x > x) :
    ∀ (n i : Nat) (pp : Vector2f × Vector2f), i ≤ j + 1 → j + 1 < i + n →
      (∀ k : Nat, i ≤ k → k ≤ j → ¬ (mPoints2D.getD k { x := 0, y := 0 }).x > x) →
      Application.getAccurateYValue.loop mPoints2D x n i pp
        = (mPoints2D.getD j { x := 0, y := 0 }, mPoints2D.getD (j + 1) { x := 0, y := 0 }) := by
  intro n
  induction n with
  | zero => intro i pp h1 h2; omega
  | succ n ih =>
    intro i pp h1 h2 h3
    unfold Application.getAccurateYValue.loop
    by_cases hi : i = j + 1
    · subst hi
      rw [if_pos hj]
      simp
    · have hle : i ≤ j := by omega
      rw [if_neg (h3 i (le_refl i) hle)]
      exact ih (i + 1) pp (by omega) (by omega) (fun k hk hkj => h3 k (by omega) hkj)

/-- The search loop of `getAccurateYValue` leaves the pair it was given when no point from
index `i` on is right of `x`. -/
theorem getAccurateYValue_loop_none (mPoints2D : List Vector2f) (x : ℚ) :
    ∀ (n i : Nat) (pp : Vector2f × Vector2f),
      (∀ k : Nat, i ≤ k → k < i + n → ¬ (mPoints2D.getD k { x := 0, y := 0 }).x > x) →
      Application.getAccurateYValue.loop mPoints2D x n i pp = pp := by
  intro n
  induction n with
  | zero => intro i pp _; rfl
  | succ n ih =>
    intro i pp h
    unfold Application.getAccurateYValue.loop
    rw [if_neg (h i (le_refl i) (by omega))]
    exact ih (i + 1) pp (fun k hk hkn => h k (by omega) (by omega))

/-- What holds of `getAccurateYValue`: it returns 0 when fewer than two points are
published; and for points with increasing abscissas and a query `x` in the interval from
the point `j` (included) to the point `j + 1` (excluded), the result is the value at `x` of
the straight line through these two points; at `x = points[j].x` it is `points[j].y`, for
every `j` but the last. -/
theorem getAccurateYValue_interpolates (app : Application) (x : ℚ) :
    (app.mPoints2D.length < 2 → app.getAccurateYValue x = 0) ∧
    (∀ j : Nat, j + 1 < app.mPoints2D.length →
      (∀ k : Nat, k ≤ j → (app.mPoints2D.getD k { x := 0, y := 0 }).x
        ≤ (app.mPoints2D.getD j { x := 0, y := 0 }).x) →
      (app.mPoints2D.getD j { x := 0, y := 0 }).x ≤ x →
      x < (app.mPoints2D.getD (j + 1) { x := 0, y := 0 }).x →
      app.getAccurateYValue x
        = (x - (app.mPoints2D.getD j { x := 0, y := 0 }).x)
            / ((app.mPoints2D.getD (j + 1) { x := 0, y := 0 }).x
                - (app.mPoints2D.getD j { x := 0, y := 0 }).x)
            * ((app.mPoints2D.getD (j + 1) { x := 0, y := 0 }).y
                - (app.mPoints2D.getD j { x := 0, y := 0 }).y)
          + (app.mPoints2D.getD j { x := 0, y := 0 }).y ∧
      (x = (app.mPoints2D.getD j { x := 0, y := 0 }).x →
        app.getAccurateYValue x = (app.mPoints2D.getD j { x := 0, y := 0 }).y)) := by
  constructor
  · intro h
    simp [Application.getAccurateYValue, h]
  · intro j hj hmono hle hlt
    have hloop := getAccurateYValue_loop_finds app.mPoints2D x j hlt
      (app.mPoints2D.length - 1) 1
      (app.mPoints2D.getD 0 { x := 0, y := 0 }, app.mPoints2D.getD 1 { x := 0, y := 0 })
      (by omega) (by omega)
      (fun k _ hkj => not_lt.mpr (le_trans (hmono k hkj) hle))
    have hval : app.getAccurateYValue x
        = (x - (app.mPoints2D.getD j { x := 0, y := 0 }).x)
            / ((app.mPoints2D.getD (j + 1) { x := 0, y := 0 }).x
                - (app.mPoints2D.getD j { x := 0, y := 0 }).x)
            * ((app.mPoints2D.getD (j + 1) { x := 0, y := 0 }).y
                - (app.mPoints2D.getD j { x := 0, y := 0 }).y)
          + (app.mPoints2D.getD j { x := 0, y := 0 }).y := by
      unfold Application.getAccurateYValue
      rw [if_neg (by omega)]
      simp only [hloop]
    refine ⟨hval, ?_⟩
    intro hx
    rw [hval, hx]
    simp

/-- With no published point right of `x`, as for `x` the abscissa of the last point of an
increasing curve, `getAccurateYValue` computes on the line through the first two points,
whatever the other points are. -/
theorem getAccurateYValue_beyond (app : Application) (x : ℚ)
    (hlen : 2 ≤ app.mPoints2D.length)
    (h : ∀ k : Nat, k < app.mPoints2D.length →
      (app.mPoints2D.getD k { x := 0, y := 0 }).x ≤ x) :
    app.getAccurateYValue x
      = (x - (app.mPoints2D.getD 0 { x := 0, y := 0 }).x)
          / ((app.mPoints2D.getD 1 { x := 0, y := 0 }).x
              - (app.mPoints2D.getD 0 { x := 0, y := 0 }).x)
          * ((app.mPoints2D.getD 1 { x := 0, y := 0 }).y
              - (app.mPoints2D.getD 0 { x := 0, y := 0 }).y)
        + (app.mPoints2D.getD 0 { x := 0, y := 0 }).y := by
  have hloop := getAccurateYValue_loop_none app.mPoints2D x
    (app.mPoints2D.length - 1) 1
    (app.mPoints2D.getD 0 { x := 0, y := 0 }, app.mPoints2D.getD 1 { x := 0, y := 0 })
    (fun k _ hk => not_lt.mpr (h k (by omega)))
  unfold Application.getAccurateYValue
  rw [if_neg (by omega)]
  simp only [hloop]

/-- C18 (the code at the failing input): for the published curve `(0, 0)`, `(1, 1)`,
`(2, 0)`, whose abscissas increase strictly, and the query `x = 2`, the abscissa of the
last point, `getAccurateYValue` returns 2, the value at 2 of the line through the first two
points, where the last point has the ordinate 0. -/
theorem getAccurateYValue_at_last_point :
    exApplicationCurve.mPoints2D = [{ x := 0, y := 0 }, { x := 1, y := 1 }, { x := 2, y := 0 }] ∧
    (exApplicationCurve.mPoints2D.map (fun p => p.x)).Pairwise (fun a b => a < b) ∧
    exApplicationCurve.mPoints2D.getLast? = some { x := 2, y := 0 } ∧
    exApplicationCurve.getAccurateYValue 2 = 2 := by
  refine ⟨rfl, ?_, rfl, ?_⟩
  · simp [exApplicationCurve]
  · norm_num [Application.getAccurateYValue, Application.getAccurateYValue.loop,
      exApplicationCurve]

/-! ### The graduation of the axes -/

/-- The three tests of the inner loop of `computeAxisGraduation`, in their order. -/
theorem computeAxisGraduation_inner_eq (delta a : ℚ) :
    computeAxisGraduation.inner delta a computeAxisGraduation.mul
      = if delta / (a * 1) ≤ 10 then some (a * 1)
        else if delta / (a * 2) ≤ 10 then some (a * 2)
        else if delta / (a * 5) ≤ 10 then some (a * 5)
        else none := rfl

/-- The search of `computeAxisGraduation` returns the first candidate `10^e * m`, in the
order of the exponents and then of the table `mul`, that passes the test
`delta / b <= 10`, and `FLT_MAX` when no candidate passes. -/
theorem computeAxisGraduation_search_spec (delta : ℚ) :
    ∀ (n : Nat) (e : Int),
      (computeAxisGraduation.search delta n e = FLT_MAX ∧
        ∀ e1 : Int, e ≤ e1 → e1 < e + n → ∀ m ∈ computeAxisGraduation.mul,
          ¬ delta / ((10 : ℚ) ^ e1 * m) ≤ 10) ∨
      (∃ e0 : Int, e ≤ e0 ∧ e0 < e + n ∧ ∃ m ∈ computeAxisGraduation.mul,
        computeAxisGraduation.search delta n e = (10 : ℚ) ^ e0 * m ∧
        delta / ((10 : ℚ) ^ e0 * m) ≤ 10 ∧
        (∀ e1 : Int, e ≤ e1 → e1 < e0 → ∀ m1 ∈ computeAxisGraduation.mul,
          ¬ delta / ((10 : ℚ) ^ e1 * m1) ≤ 10) ∧
        (∀ m1 ∈ computeAxisGraduation.mul, m1 < m →
          ¬ delta / ((10 : ℚ) ^ e0 * m1) ≤ 10)) := by
  intro n
  induction n with
  | zero =>
    intro e
    left
    refine ⟨rfl, ?_⟩
    intro e1 h1 h2
    simp at h2
    omega
  | succ n ih =>
    intro e
    unfold computeAxisGraduation.search
    simp only [computeAxisGraduation_inner_eq]
    by_cases c1 : delta / ((10 : ℚ) ^ e * 1) ≤ 10
    · right
      refine ⟨e, le_refl e, by push_cast; omega, 1, by simp [computeAxisGraduation.mul], ?_,
        c1, ?_, ?_⟩
      · rw [if_pos c1]
      · intro e1 h1 h2; omega
      · intro m1 hm1 hlt
        simp [computeAxisGraduation.mul] at hm1
        rcases hm1 with rfl | rfl | rfl <;> norm_num at hlt
    · rw [if_neg c1]
      by_cases c2 : delta / ((10 : ℚ) ^ e * 2) ≤ 10
      · right
        refine ⟨e, le_refl e, by push_cast; omega, 2, by simp [computeAxisGraduation.mul], ?_,
          c2, ?_, ?_⟩
        · rw [if_pos c2]
        · intro e1 h1 h2; omega
        · intro m1 hm1 hlt
          simp [computeAxisGraduation.mul] at hm1
          rcases hm1 with rfl | rfl | rfl
          · exact c1
          · norm_num at hlt
          · norm_num at hlt
      · rw [if_neg c2]
        by_cases c5 : delta / ((10 : ℚ) ^ e * 5) ≤ 10
        · right
          refine ⟨e, le_refl e, by push_cast; omega, 5, by simp [computeAxisGraduation.mul],
            ?_, c5, ?_, ?_⟩
          · rw [if_pos c5]
          · intro e1 h1 h2; omega
          · intro m1 hm1 hlt
            simp [computeAxisGraduation.mul] at hm1
            rcases hm1 with rfl | rfl | rfl
            · exact c1
            · exact c2
            · norm_num at hlt
        · rw [if_neg c5]
          have hrow : ∀ m ∈ computeAxisGraduation.mul, ¬ delta / ((10 : ℚ) ^ e * m) ≤ 10 := by
            intro m hm
            simp [computeAxisGraduation.mul] at hm
            rcases hm with rfl | rfl | rfl
            · exact c1
            · exact c2
            · exact c5
          rcases ih (e + 1) with ⟨hmax, hall⟩ | ⟨e0, h1, h2, m, hm, heq, hpass, hbefore, hrowm⟩
          · left
            refine ⟨hmax, ?_⟩
            intro e1 h1 h2 m hm
            by_cases he : e1 = e
            · rw [he]; exact hrow m hm
            · exact hall e1 (by omega) (by push_cast at h2 ⊢; omega) m hm
          · right
            refine ⟨e0, by omega, by push_cast at h2 ⊢; omega, m, hm, heq, hpass, ?_, hrowm⟩
            intro e1 h3 h4 m1 hm1
            by_cases he : e1 = e
            · rw [he]; exact hrow m1 hm1
            · exact hbefore e1 (by omega) h4 m1 hm1

/-- The step of `computeAxisGraduation` for a range `delta` with
`10^-6 < delta <= 5*10^9`: it is a candidate `10^e * m`, it passes the test, every
candidate that passes the test is at least as large, and `4 < delta / step`. -/
theorem computeAxisGraduation_step (delta : ℚ) (h1 : 1e-6 < delta) (h2 : delta ≤ 5e9) :
    (∃ e : Int, -7 ≤ e ∧ e ≤ 8 ∧ ∃ m ∈ computeAxisGraduation.mul,
      computeAxisGraduation.search delta 16 (-7) = (10 : ℚ) ^ e * m) ∧
    delta / computeAxisGraduation.search delta 16 (-7) ≤ 10 ∧
    (∀ (e1 : Int) (m1 : ℚ), -7 ≤ e1 → e1 ≤ 8 → m1 ∈ computeAxisGraduation.mul →
      delta / ((10 : ℚ) ^ e1 * m1) ≤ 10 →
      computeAxisGraduation.search delta 16 (-7) ≤ (10 : ℚ) ^ e1 * m1) ∧
    4 < delta / computeAxisGraduation.search delta 16 (-7) := by
  have hd : 0 < delta := lt_trans (by norm_num) h1
  rcases computeAxisGraduation_search_spec delta 16 (-7) with
    ⟨_, hall⟩ | ⟨e0, he1, he2, m, hm, heq, hpass, hbefore, hrowm⟩
  · exfalso
    apply hall 8 (by norm_num) (by norm_num) 5 (by simp [computeAxisGraduation.mul])
    rw [div_le_iff₀ (by norm_num)]
    norm_num at h2 ⊢
    linarith
  · have hp : (0 : ℚ) < (10 : ℚ) ^ e0 := zpow_pos (by norm_num) e0
    have hmem : m = 1 ∨ m = 2 ∨ m = 5 := by
      simpa [computeAxisGraduation.mul] using hm
    have hmpos : 0 < m := by rcases hmem with rfl | rfl | rfl <;> norm_num
    rw [heq]
    refine ⟨⟨e0, he1, by push_cast at he2; omega, m, hm, rfl⟩, hpass, ?_, ?_⟩
    · intro e1 m1 hl hu hm1 hpass1
      have hmem1 : m1 = 1 ∨ m1 = 2 ∨ m1 = 5 := by
        simpa [computeAxisGraduation.mul] using hm1
      rcases lt_trichotomy e1 e0 with hlt | heq1 | hgt
      · exact absurd hpass1 (hbefore e1 hl hlt m1 hm1)
      · subst heq1
        have : m ≤ m1 := by
          by_contra hn
          exact hrowm m1 hm1 (not_le.mp hn) hpass1
        exact mul_le_mul_of_nonneg_left this (le_of_lt hp)
      · have hstep : (10 : ℚ) ^ (e0 + 1) ≤ (10 : ℚ) ^ e1 :=
          zpow_le_zpow_right₀ (by norm_num) (by omega)
        rw [zpow_add_one₀ (by norm_num)] at hstep
        have hp1 : (0 : ℚ) < (10 : ℚ) ^ e1 := zpow_pos (by norm_num) e1
        have hm5 : m ≤ 5 := by rcases hmem with rfl | rfl | rfl <;> norm_num
        have hm1' : 1 ≤ m1 := by rcases hmem1 with rfl | rfl | rfl <;> norm_num
        calc (10 : ℚ) ^ e0 * m ≤ (10 : ℚ) ^ e0 * 5 := mul_le_mul_of_nonneg_left hm5 (le_of_lt hp)
          _ ≤ (10 : ℚ) ^ e0 * 10 := mul_le_mul_of_nonneg_left (by norm_num) (le_of_lt hp)
          _ ≤ (10 : ℚ) ^ e1 := hstep
          _ = (10 : ℚ) ^ e1 * 1 := (mul_one _).symm
          _ ≤ (10 : ℚ) ^ e1 * m1 := mul_le_mul_of_nonneg_left hm1' (le_of_lt hp1)
    · rcases hmem with rfl | rfl | rfl
      · -- the candidate before is `10^(e0-1) * 5`, or there is none
        by_cases hfirst : e0 = -7
        · exfalso
          subst hfirst
          rw [div_le_iff₀ (by positivity)] at hpass
          norm_num at hpass h1
          linarith
        · have hprev := hbefore (e0 - 1) (by omega) (by omega) 5
            (by simp [computeAxisGraduation.mul])
          rw [zpow_sub_one₀ (by norm_num), not_le, lt_div_iff₀ (by positivity)] at hprev
          rw [lt_div_iff₀ (by positivity)]
          have : (10 : ℚ) * ((10 : ℚ) ^ e0 * 10⁻¹ * 5) = 5 * (10 : ℚ) ^ e0 := by ring
          rw [this] at hprev
          linarith
      · have hprev := hrowm 1 (by simp [computeAxisGraduation.mul]) (by norm_num)
        rw [not_le, lt_div_iff₀ (by positivity)] at hprev
        rw [lt_div_iff₀ (by positivity)]
        linarith
      · have hprev := hrowm 2 (by simp [computeAxisGraduation.mul]) (by norm_num)
        rw [not_le, lt_div_iff₀ (by positivity)] at hprev
        rw [lt_div_iff₀ (by positivity)]
        linarith

/-- The loop of `computeAxisGraduation` ends: when `N` steps from `i`
reach the bound and the fuel is larger than `N`, it returns after `k <= N` iterations, with
the values `i + t*step`, `t < k`, that pass the test `abs(i) > 1e-9` appended in order;
these values are all below the bound, and `i + k*step` is not. -/
theorem computeAxisGraduation_loop_spec (max step : ℚ) :
    ∀ (N fuel : Nat) (i : ℚ) (axis : List ℚ), N < fuel →
      max + 0.1 * step ≤ i + (N : ℚ) * step →
      ∃ k : Nat, k ≤ N ∧
        computeAxisGraduation.loop max step fuel i axis
          = some (axis ++ ((List.range k).map (fun t : Nat => i + (t : ℚ) * step)).filter
              (fun v => decide (|v| > 1e-9))) ∧
        (∀ t : Nat, t < k → i + (t : ℚ) * step < max + 0.1 * step) ∧
        max + 0.1 * step ≤ i + (k : ℚ) * step := by
  intro N
  induction N with
  | zero =>
    intro fuel i axis hf hN
    obtain ⟨fuel, rfl⟩ : ∃ f, fuel = f + 1 := ⟨fuel - 1, by omega⟩
    refine ⟨0, le_refl 0, ?_, fun t ht => absurd ht (Nat.not_lt_zero t), ?_⟩
    · unfold computeAxisGraduation.loop
      rw [if_neg (by push_cast at hN; linarith)]
      simp
    · push_cast at hN ⊢; linarith
  | succ N ih =>
    intro fuel i axis hf hN
    obtain ⟨fuel, rfl⟩ : ∃ f, fuel = f + 1 := ⟨fuel - 1, by omega⟩
    unfold computeAxisGraduation.loop
    by_cases hc : i < max + 0.1 * step
    · rw [if_pos hc]
      obtain ⟨k, hk, heq, hall, hexit⟩ := ih fuel (i + step)
        (if |i| > 1e-9 then axis ++ [i] else axis) (by omega)
        (by push_cast at hN; linarith)
      refine ⟨k + 1, by omega, ?_, ?_, by push_cast; linarith⟩
      · rw [heq, List.range_succ_eq_map, List.map_cons, List.map_map]
        have hfun : ((fun t : Nat => i + (t : ℚ) * step) ∘ Nat.succ)
            = (fun t : Nat => i + step + (t : ℚ) * step) := by
          funext t
          simp only [Function.comp, Nat.succ_eq_add_one]
          push_cast
          ring
        rw [hfun]
        have h0 : i + ((0 : Nat) : ℚ) * step = i := by simp
        rw [h0, List.filter_cons]
        by_cases hi : |i| > 1e-9
        · simp [hi]
        · simp [hi]
      · intro t ht
        cases t with
        | zero => simpa using hc
        | succ t =>
          have := hall t (by omega)
          push_cast
          linarith
    · rw [if_neg hc]
      exact ⟨0, Nat.zero_le _, by simp, fun t ht => absurd ht (Nat.not_lt_zero t),
        by push_cast; linarith⟩

/-- The step of `computeAxisGraduation` at the default view, the range from -10 to 10. -/
theorem computeAxisGraduation_search_default :
    computeAxisGraduation.search (10 - (-10)) 16 (-7) = 2 := by
  norm_num [computeAxisGraduation.search, computeAxisGraduation.inner,
    computeAxisGraduation.mul]

/-- The graduation of the default view, the range from -10 to 10: the even numbers from -10
to 10 without 0. -/
theorem computeAxisGraduation_default_view :
    computeAxisGraduation 13 (-10) 10 = some [-10, -8, -6, -4, -2, 2, 4, 6, 8, 10] := by
  unfold computeAxisGraduation
  simp only [computeAxisGraduation_search_default]
  have : ⌊(-10 : ℚ) / 2⌋ = -5 := by
    rw [Int.floor_eq_iff]; norm_num
  rw [this]
  norm_num [computeAxisGraduation.loop, abs_lt, lt_abs]

/-- C19: `computeAxisGraduation`, the same in `Application.cpp` and `Main.cpp`, in exact
arithmetic, for a range with `10^-6 < max - min <= 5*10^9` and fuel for 13 tests of the
loop: the step is a candidate `10^e * m` with `m` in `mul` and `-7 <= e <= 8`, it has
`(max - min)/step <= 10` and is the smallest candidate that has, and
`4 < (max - min)/step`; the function returns a list, which is strictly increasing, whose
entries are non-zero integer multiples of the step in `[min - step, max + 0.1*step)`, and
which has at most 12 entries. The list is not empty, and it holds exactly the non-zero
integer multiples of the step from `floor(min/step)*step` on that are below
`max + 0.1*step`. -/
theorem computeAxisGraduation_spec (fuel : Nat) (min max : ℚ) (hfuel : 13 ≤ fuel)
    (h1 : 1e-6 < max - min) (h2 : max - min ≤ 5e9) :
    ∃ (step : ℚ) (axis : List ℚ),
      step = computeAxisGraduation.search (max - min) 16 (-7) ∧
      (∃ e : Int, -7 ≤ e ∧ e ≤ 8 ∧ ∃ m ∈ computeAxisGraduation.mul,
        step = (10 : ℚ) ^ e * m) ∧
      (max - min) / step ≤ 10 ∧
      (∀ (e1 : Int) (m1 : ℚ), -7 ≤ e1 → e1 ≤ 8 → m1 ∈ computeAxisGraduation.mul →
        (max - min) / ((10 : ℚ) ^ e1 * m1) ≤ 10 → step ≤ (10 : ℚ) ^ e1 * m1) ∧
      4 < (max - min) / step ∧
      computeAxisGraduation fuel min max = some axis ∧
      Application.computeAxisGraduation fuel min max = some axis ∧
      axis.Pairwise (fun a b => a < b) ∧
      (∀ v ∈ axis, v ≠ 0 ∧ (∃ k : Int, v = (k : ℚ) * step) ∧
        min - step ≤ v ∧ v < max + 0.1 * step) ∧
      axis.length ≤ 12 ∧
      axis ≠ [] ∧
      (∀ v : ℚ, v ∈ axis ↔
        v ≠ 0 ∧ (∃ k : Int, v = (k : ℚ) * step) ∧
          (⌊min / step⌋ : ℚ) * step ≤ v ∧ v < max + 0.1 * step) := by
  obtain ⟨hform, hpass, hleast, hlow⟩ := computeAxisGraduation_step (max - min) h1 h2
  have hd : 0 < max - min := lt_trans (by norm_num) h1
  -- the step is at least `10^-7`
  have hs7 : (1e-7 : ℚ) ≤ computeAxisGraduation.search (max - min) 16 (-7) := by
    obtain ⟨e, he, _, m, hm, heq⟩ := hform
    have hmem : m = 1 ∨ m = 2 ∨ m = 5 := by
      simpa [computeAxisGraduation.mul] using hm
    rw [heq]
    have hp : (10 : ℚ) ^ (-7 : Int) ≤ (10 : ℚ) ^ e := zpow_le_zpow_right₀ (by norm_num) he
    have hp0 : (0 : ℚ) < (10 : ℚ) ^ e := zpow_pos (by norm_num) e
    have h7 : (10 : ℚ) ^ (-7 : Int) = 1e-7 := by norm_num
    rw [h7] at hp
    rcases hmem with rfl | rfl | rfl <;> linarith
  have hs : 0 < computeAxisGraduation.search (max - min) 16 (-7) :=
    lt_of_lt_of_le (by norm_num) hs7
  generalize hstep : computeAxisGraduation.search (max - min) 16 (-7) = step at *
  -- the start of the loop
  have hfl1 : min - step < (⌊min / step⌋ : ℚ) * step := by
    have := Int.sub_one_lt_floor (min / step)
    have h3 : (min / step - 1) * step < (⌊min / step⌋ : ℚ) * step :=
      mul_lt_mul_of_pos_right this hs
    have h4 : (min / step - 1) * step = min - step := by
      field_simp
    linarith
  have hfl2 : (⌊min / step⌋ : ℚ) * step ≤ min := by
    have := Int.floor_le (min / step)
    have h3 : (⌊min / step⌋ : ℚ) * step ≤ min / step * step :=
      mul_le_mul_of_nonneg_right this (le_of_lt hs)
    have h4 : min / step * step = min := by
      field_simp
    linarith
  have hdel : max - min ≤ 10 * step := by
    rwa [div_le_iff₀ hs] at hpass
  have hdel4 : 4 * step < max - min := by
    rwa [lt_div_iff₀ hs] at hlow
  obtain ⟨k, hk, heq, hall, hexit⟩ := computeAxisGraduation_loop_spec max step 12 fuel
    ((⌊min / step⌋ : ℚ) * step) [] (by omega) (by push_cast; linarith)
  rw [List.nil_append] at heq
  -- membership in the list
  have hmem : ∀ v : ℚ,
      v ∈ ((List.range k).map
          (fun t : Nat => (⌊min / step⌋ : ℚ) * step + (t : ℚ) * step)).filter
          (fun v => decide (|v| > 1e-9)) ↔
        v ≠ 0 ∧ (∃ z : Int, v = (z : ℚ) * step) ∧
          (⌊min / step⌋ : ℚ) * step ≤ v ∧ v < max + 0.1 * step := by
    intro v
    rw [List.mem_filter, List.mem_map]
    constructor
    · rintro ⟨⟨t, ht, rfl⟩, hbig⟩
      rw [List.mem_range] at ht
      have hbig' : |(⌊min / step⌋ : ℚ) * step + (t : ℚ) * step| > 1e-9 := by
        simpa using hbig
      refine ⟨?_, ⟨⌊min / step⌋ + (t : Int), by push_cast; ring⟩, ?_, hall t ht⟩
      · intro h0
        rw [h0, abs_zero] at hbig'
        norm_num at hbig'
      · have : (0 : ℚ) ≤ (t : ℚ) * step :=
          mul_nonneg (by exact_mod_cast Nat.zero_le t) (le_of_lt hs)
        linarith
    · rintro ⟨hv0, ⟨z, rfl⟩, hlo, hhi⟩
      have hz0 : z ≠ 0 := by
        intro h
        apply hv0
        rw [h]; simp
      have hzle : ⌊min / step⌋ ≤ z := by
        have : (⌊min / step⌋ : ℚ) ≤ (z : ℚ) := le_of_mul_le_mul_right hlo hs
        exact_mod_cast this
      obtain ⟨t, ht⟩ : ∃ t : Nat, z = ⌊min / step⌋ + (t : Int) :=
        ⟨(z - ⌊min / step⌋).toNat, by omega⟩
      have hval : (z : ℚ) * step = (⌊min / step⌋ : ℚ) * step + (t : ℚ) * step := by
        rw [ht]; push_cast; ring
      refine ⟨⟨t, ?_, hval.symm⟩, ?_⟩
      · rw [List.mem_range]
        by_contra hge
        have hkt : (k : ℚ) ≤ (t : ℚ) := by exact_mod_cast not_lt.mp hge
        have : (k : ℚ) * step ≤ (t : ℚ) * step := mul_le_mul_of_nonneg_right hkt (le_of_lt hs)
        rw [hval] at hhi
        linarith
      · have hone : (1 : ℚ) ≤ |(z : ℚ)| := by
          have : (1 : Int) ≤ |z| := Int.one_le_abs hz0
          exact_mod_cast this
        have habs : |(z : ℚ) * step| = |(z : ℚ)| * step := by
          rw [abs_mul, abs_of_pos hs]
        have hge : step ≤ |(z : ℚ)| * step := by
          have := mul_le_mul_of_nonneg_right hone (le_of_lt hs)
          linarith
        have h9 : (1e-9 : ℚ) < 1e-7 := by norm_num
        have : |(z : ℚ) * step| > 1e-9 := by
          rw [habs]; linarith
        simpa using this
  refine ⟨step, ((List.range k).map
      (fun t : Nat => (⌊min / step⌋ : ℚ) * step + (t : ℚ) * step)).filter
      (fun v => decide (|v| > 1e-9)), rfl, hform, hpass, hleast, hlow, ?_, ?_, ?_, ?_, ?_,
      ?_, hmem⟩
  · unfold computeAxisGraduation
    simp only [hstep]
    exact heq
  · unfold Application.computeAxisGraduation
    simp only [hstep]
    exact heq
  · apply List.Pairwise.filter
    rw [List.pairwise_map]
    refine List.Pairwise.imp ?_ (List.pairwise_lt_range k)
    intro a b hab
    have : (a : ℚ) < (b : ℚ) := by exact_mod_cast hab
    have := mul_lt_mul_of_pos_right this hs
    linarith
  · intro v hv
    obtain ⟨hv0, hz, hlo, hhi⟩ := (hmem v).1 hv
    exact ⟨hv0, hz, by linarith, hhi⟩
  · refine le_trans (List.length_filter_le _ _) ?_
    rw [List.length_map, List.length_range]
    exact hk
  · -- one of the first two multiples is not zero
    by_cases hz : ⌊min / step⌋ = 0
    · have hin := (hmem ((⌊min / step⌋ : ℚ) * step + step)).2
        ⟨by rw [hz]; simpa using ne_of_gt hs,
         ⟨⌊min / step⌋ + 1, by push_cast; ring⟩, by linarith, by linarith⟩
      exact List.ne_nil_of_mem hin
    · have hzq : (⌊min / step⌋ : ℚ) ≠ 0 := by exact_mod_cast hz
      have hin := (hmem ((⌊min / step⌋ : ℚ) * step)).2
        ⟨mul_ne_zero hzq (ne_of_gt hs), ⟨⌊min / step⌋, rfl⟩, le_refl _, by linarith⟩
      exact List.ne_nil_of_mem hin

/-- C19 at the default view, the range from -10 to 10: the step is 2 and the graduation
holds the ten even numbers from -10 to 10 without 0. -/
theorem computeAxisGraduation_spec_witness :
    (13 ≤ 13 ∧ (1e-6 : ℚ) < 10 - (-10) ∧ (10 : ℚ) - (-10) ≤ 5e9) ∧
    computeAxisGraduation.search (10 - (-10)) 16 (-7) = 2 ∧
    computeAxisGraduation 13 (-10) 10 = some [-10, -8, -6, -4, -2, 2, 4, 6, 8, 10] ∧
    ∃ (step : ℚ) (axis : List ℚ),
      step = computeAxisGraduation.search (10 - (-10)) 16 (-7) ∧
      (∃ e : Int, -7 ≤ e ∧ e ≤ 8 ∧ ∃ m ∈ computeAxisGraduation.mul,
        step = (10 : ℚ) ^ e * m) ∧
      (10 - (-10)) / step ≤ 10 ∧
      (∀ (e1 : Int) (m1 : ℚ), -7 ≤ e1 → e1 ≤ 8 → m1 ∈ computeAxisGraduation.mul →
        (10 - (-10)) / ((10 : ℚ) ^ e1 * m1) ≤ 10 → step ≤ (10 : ℚ) ^ e1 * m1) ∧
      4 < (10 - (-10)) / step ∧
      computeAxisGraduation 13 (-10) 10 = some axis ∧
      Application.computeAxisGraduation 13 (-10) 10 = some axis ∧
      axis.Pairwise (fun a b => a < b) ∧
      (∀ v ∈ axis, v ≠ 0 ∧ (∃ k : Int, v = (k : ℚ) * step) ∧
        -10 - step ≤ v ∧ v < 10 + 0.1 * step) ∧
      axis.length ≤ 12 ∧
      axis ≠ [] ∧
      (∀ v : ℚ, v ∈ axis ↔
        v ≠ 0 ∧ (∃ k : Int, v = (k : ℚ) * step) ∧
          (⌊(-10 : ℚ) / step⌋ : ℚ) * step ≤ v ∧ v < 10 + 0.1 * step) :=
  ⟨⟨le_refl 13, by norm_num, by norm_num⟩,
   computeAxisGraduation_search_default, computeAxisGraduation_default_view,
   computeAxisGraduation_spec 13 (-10) 10 (le_refl 13) (by norm_num) (by norm_num)⟩

end CPlot
